import Mathlib

/-!
Lyrics plugin (wavesurfer.js): a shallow embedding.

Embedding of `src/plugin/lyrics/index.js` (class `LyricsPlugin`) and
`src/plugin/lyrics/lyric.js` (class `Lyric`).

Conventions of the embedding:

* JavaScript numbers are exact rationals (`ℚ`); `NaN`, infinities and rounding error
  of IEEE doubles are outside the model.
* `undefined`/`null` properties of a parameter object are `none`.
* The DOM, the drawer and the audio backend are collaborators: what the code reads from
  them (`getDuration()`, `getCurrentTime()`, `wrapper.scrollWidth`, `getWidth()`) is a field of
  `WaveSurfer`; what the code writes to the DOM element of a lyric is the record `Element`.
* Events fired with `fireEvent` are returned as a list, in firing order.
* The field `end` of the source is `end_` here (`end` is a keyword).
-/

namespace Lyrics

/-! ## JavaScript primitives -/

/-- JavaScript `Math.round` in exact arithmetic: the nearest integer, a tie going up. -/
def mathRound (x : ℚ) : ℤ := Int.floor (x + 1 / 2)

/-- Truthiness of an optional number: `undefined`, `null` and `0` are falsy. -/
def truthy : Option ℚ → Bool
  | none => false
  | some x => decide (x ≠ 0)

/-- The expression `a || b` for an optional number `a` and a number `b`. -/
def orElse (a : Option ℚ) (b : ℚ) : ℚ :=
  match a with
  | none => b
  | some x => if x ≠ 0 then x else b

/-- Opaque payload (`data`, `attributes`, `handleStyle`, DOM nodes): never inspected. -/
abbrev JsVal := String

/-! ## Collaborators -/

/-- What the lyrics code reads from the wavesurfer instance and its drawer. -/
structure WaveSurfer where
  /-- Value of `wavesurfer.getDuration()`. -/
  duration : ℚ
  /-- Value of `wavesurfer.getCurrentTime()`. -/
  currentTime : ℚ
  /-- Value of `drawer.wrapper.scrollWidth`. -/
  scrollWidth : ℚ
  /-- Value of `drawer.width / params.pixelRatio` (`Lyric.getWidth`). -/
  width : ℚ
  deriving DecidableEq, Repr

/-! ## Parameters -/

/-- The `LyricsPluginParams` read by the modelled code. -/
structure PluginParams where
  snapToGridInterval : Option ℚ := none
  snapToGridOffset : Option ℚ := none
  maxLyrics : Option ℚ := none
  lyricsMinLength : Option ℚ := none
  deriving DecidableEq, Repr

/-- The `LyricParams` object handed to `add` and to the `Lyric` constructor. -/
structure LyricParams where
  id : Option String := none
  start : Option ℚ := none
  end_ : Option ℚ := none
  line1 : Option String := none
  line2 : Option String := none
  resize : Option Bool := none
  drag : Option Bool := none
  loop : Option Bool := none
  color : Option String := none
  handleStyle : Option JsVal := none
  data : Option JsVal := none
  attributes : Option JsVal := none
  showTooltip : Option Bool := none
  maxLength : Option ℚ := none
  minLength : Option ℚ := none
  deriving DecidableEq, Repr

/-- The object handed to `Lyric.update`: every property may be absent. -/
structure UpdateParams where
  start : Option ℚ := none
  end_ : Option ℚ := none
  line1El : Option JsVal := none
  line2El : Option JsVal := none
  loop : Option Bool := none
  color : Option String := none
  handleStyle : Option JsVal := none
  data : Option JsVal := none
  resize : Option Bool := none
  drag : Option Bool := none
  maxLength : Option ℚ := none
  minLength : Option ℚ := none
  attributes : Option JsVal := none
  deriving DecidableEq, Repr

/-! ## Events -/

inductive Direction where
  | left
  | right
  deriving DecidableEq, Repr

inductive Action where
  | drag
  | resize
  deriving DecidableEq, Repr

/-- The `eventParams` payload of `lyric-updated`. -/
structure EventParams where
  direction : Option Direction
  action : Action
  deriving DecidableEq, Repr

/-- Events fired on a lyric (`this.fireEvent`) and on the host (`wavesurfer.fireEvent`). -/
inductive Event where
  /-- Fired on the lyric by `update`. -/
  | update
  /-- Host event `lyric-updated`, with the lyric's id and the `eventParams`. -/
  | lyricUpdated (id : String) (eventParams : Option EventParams)
  /-- Host event `lyric-created`, with the lyric's id. -/
  | lyricCreated (id : String)
  /-- Fired on the lyric by `remove`. -/
  | remove
  /-- Host event `lyric-removed`. -/
  | lyricRemoved (id : String)
  /-- Fired on the lyric by the playback tick when the cursor enters it. -/
  | in_
  /-- Host event `lyric-in`. -/
  | lyricIn (id : String)
  /-- Fired on the lyric by the playback tick when the cursor leaves it. -/
  | out
  /-- Host event `lyric-out`. -/
  | lyricOut (id : String)
  /-- Fired on the lyric when a pointer session that changed it ends. -/
  | updateEnd
  /-- Host event `lyric-update-end`. -/
  | lyricUpdateEnd (id : String)
  /-- The call `util.preventClick()`. -/
  | preventClick
  /-- The call `wavesurfer.play(start, end)` on the transport (`end` may be left out). -/
  | transportPlay (start : ℚ) (end_ : Option ℚ)
  /-- Fired on the lyric by `play`. -/
  | play
  /-- Host event `lyric-play`. -/
  | lyricPlay (id : String)
  deriving DecidableEq, Repr

/-! ## The lyric -/

/-- What `updateRender` writes to the lyric's DOM element. -/
structure Element where
  /-- The clamped start computed by `updateRender` (`startLimited`). -/
  startLimited : ℚ
  /-- The clamped end computed by `updateRender` (`endLimited`). -/
  endLimited : ℚ
  /-- Style `left`, in pixels. -/
  left : ℤ
  /-- Style `width`, in pixels. -/
  width : ℤ
  deriving DecidableEq, Repr

/-- The fields of a `Lyric` instance. -/
structure Lyric where
  id : String
  start : ℚ
  end_ : ℚ
  line1 : String
  line2 : String
  resize : Bool
  drag : Bool
  isResizing : Bool
  isDragging : Bool
  loop : Bool
  color : String
  handleStyle : JsVal
  line1El : Option JsVal
  line2El : Option JsVal
  data : JsVal
  attributes : JsVal
  showTooltip : Bool
  maxLength : Option ℚ
  minLength : Option ℚ
  firedIn : Bool
  firedOut : Bool
  /-- The DOM element: `none` before `render` and after `remove`. -/
  element : Option Element
  deriving DecidableEq, Repr

/-- The pair `(startLimited, endLimited)` computed by `updateRender` (lyric.js 316-333). -/
def limited (start end_ dur : ℚ) (minLength maxLength : Option ℚ) : ℚ × ℚ :=
  let startLimited := start
  let endLimited := end_
  let (startLimited, endLimited) :=
    if startLimited < 0 then
      let startLimited := (0 : ℚ)
      let endLimited := endLimited - startLimited
      (startLimited, endLimited)
    else (startLimited, endLimited)
  let (startLimited, endLimited) :=
    if endLimited > dur then
      let endLimited := dur
      let startLimited := dur - (endLimited - startLimited)
      (startLimited, endLimited)
    else (startLimited, endLimited)
  let endLimited :=
    match minLength with
    | some m => max (startLimited + m) endLimited
    | none => endLimited
  let endLimited :=
    match maxLength with
    | some m => min (startLimited + m) endLimited
    | none => endLimited
  (startLimited, endLimited)

/-- `Lyric.updateRender`: recomputes the element's geometry; the fields of the lyric
itself are not written. -/
def Lyric.updateRender (l : Lyric) (ws : WaveSurfer) : Lyric :=
  let dur := ws.duration
  let width := ws.width
  let g := limited l.start l.end_ dur l.minLength l.maxLength
  match l.element with
  | some _ =>
    let left := mathRound ((g.1 / dur) * width)
    let lyricWidth := mathRound ((g.2 / dur) * width) - left
    { l with element := some ⟨g.1, g.2, left, lyricWidth⟩ }
  | none => l

/-- The statement `if (value != null) { assign }` of `update`, on the lyric. -/
def whenSet {α : Type} (value : Option α) (assign : α → Lyric → Lyric) (l : Lyric) : Lyric :=
  match value with
  | some v => assign v l
  | none => l

/-- `Lyric.update(params, eventParams)` (lyric.js 90-135). `updateHandlesResize` only
restyles the handles and is left out. -/
def Lyric.update (l : Lyric) (ws : WaveSurfer) (params : UpdateParams)
    (eventParams : Option EventParams) : Lyric × List Event :=
  let l := whenSet params.start (fun v l => { l with start := v }) l
  let l := whenSet params.end_ (fun v l => { l with end_ := v }) l
  let l := whenSet params.line1El (fun v l => { l with line1El := some v }) l
  let l := whenSet params.line2El (fun v l => { l with line2El := some v }) l
  let l := whenSet params.loop (fun v l => { l with loop := v }) l
  let l := whenSet params.color (fun v l => { l with color := v }) l
  let l := whenSet params.handleStyle (fun v l => { l with handleStyle := v }) l
  let l := whenSet params.data (fun v l => { l with data := v }) l
  let l := whenSet params.resize (fun v l => { l with resize := v }) l
  let l := whenSet params.drag (fun v l => { l with drag := v }) l
  let l := whenSet params.maxLength (fun v l => { l with maxLength := some v }) l
  let l := whenSet params.minLength (fun v l => { l with minLength := some v }) l
  let l := whenSet params.attributes (fun v l => { l with attributes := v }) l
  let l := l.updateRender ws
  (l, [Event.update, Event.lyricUpdated l.id eventParams])

/-- `Lyric._getDragDirection(delta)`. -/
def getDragDirection (delta : ℚ) : Option Direction :=
  if delta < 0 then some Direction.left
  else if delta > 0 then some Direction.right
  else none

/-- `Lyric.onDrag(delta)` (lyric.js 752-771). -/
def Lyric.onDrag (l : Lyric) (ws : WaveSurfer) (delta : ℚ) : Lyric × List Event :=
  let maxEnd := ws.duration
  let delta := if l.end_ + delta > maxEnd then maxEnd - l.end_ else delta
  let delta := if l.start + delta < 0 then l.start * -1 else delta
  let eventParams : EventParams := ⟨getDragDirection delta, Action.drag⟩
  l.update ws { start := some (l.start + delta), end_ := some (l.end_ + delta) }
    (some eventParams)

/-- The `Lyric` constructor (lyric.js 12-87); `freshId` is what `ws.util.getId()` returns.
The constructor ends with `bindInOut` (both flags cleared) and `render` (the element is
created and `updateRender` runs), then fires `lyric-created`. -/
def Lyric.new (params : LyricParams) (ws : WaveSurfer) (freshId : String) : Lyric × List Event :=
  let id := match params.id with
    | none => freshId
    | some i => i
  let start := orElse params.start 0
  let end_ := match params.end_ with
    | none => start + (4 / ws.scrollWidth) * ws.duration
    | some e => e
  let l : Lyric :=
    { id := id
      start := start
      end_ := end_
      line1 := match params.line1 with
        | some s => if s ≠ "" then s else "Lyric line 1"
        | none => "Lyric line 1"
      line2 := match params.line2 with
        | some s => if s ≠ "" then s else "Lyric line 2"
        | none => "Lyric line 2"
      resize := match params.resize with
        | none => false
        | some b => b
      drag := match params.drag with
        | none => false
        | some b => b
      isResizing := false
      isDragging := false
      loop := match params.loop with
        | none => false
        | some b => b
      color := match params.color with
        | some s => if s ≠ "" then s else "rgba(0, 0, 0, 0.1)"
        | none => "rgba(0, 0, 0, 0.1)"
      handleStyle := match params.handleStyle with
        | some s => s
        | none => "left: {}, right: {}"
      line1El := none
      line2El := none
      data := match params.data with
        | some s => s
        | none => "{}"
      attributes := match params.attributes with
        | some s => s
        | none => "{}"
      showTooltip := match params.showTooltip with
        | some b => b
        | none => true
      maxLength := params.maxLength
      minLength := params.minLength
      firedIn := false
      firedOut := false
      element := some ⟨0, 0, 0, 0⟩ }
  let l := { l with line1El := some "span.wavesurfer-line1", line2El := some "span.wavesurfer-line2" }
  let l := l.updateRender ws
  (l, [Event.lyricCreated l.id])

/-- The `direction` argument of `onResize` and the `resize` state of a pointer session:
`'start'` or `'end'`. -/
inductive Side where
  | start
  | end_
  deriving DecidableEq, Repr

/-- `Lyric.onResize(delta, direction)` (lyric.js 799-845). An unset `minLength` or
`maxLength` is `undefined`, and a comparison with `undefined` is false. -/
def Lyric.onResize (l : Lyric) (ws : WaveSurfer) (delta : ℚ) (direction : Side) :
    Lyric × List Event :=
  let duration := ws.duration
  let eventParams : EventParams :=
    ⟨some (if direction = Side.start then Direction.left else Direction.right), Action.resize⟩
  match direction with
  | Side.start =>
    let delta := match l.minLength with
      | some minLength =>
        if delta > 0 ∧ l.end_ - (l.start + delta) < minLength then
          l.end_ - minLength - l.start
        else delta
      | none => delta
    let delta := match l.maxLength with
      | some maxLength =>
        if delta < 0 ∧ l.end_ - (l.start + delta) > maxLength then
          l.end_ - l.start - maxLength
        else delta
      | none => delta
    let delta := if delta < 0 ∧ l.start + delta < 0 then l.start * -1 else delta
    l.update ws
      { start := some (min (l.start + delta) l.end_), end_ := some (max (l.start + delta) l.end_) }
      (some eventParams)
  | Side.end_ =>
    let delta := match l.minLength with
      | some minLength =>
        if delta < 0 ∧ l.end_ + delta - l.start < minLength then
          l.start + minLength - l.end_
        else delta
      | none => delta
    let delta := match l.maxLength with
      | some maxLength =>
        if delta > 0 ∧ l.end_ + delta - l.start > maxLength then
          maxLength - (l.end_ - l.start)
        else delta
      | none => delta
    let delta := if delta > 0 ∧ l.end_ + delta > duration then duration - l.end_ else delta
    l.update ws
      { start := some (min (l.end_ + delta) l.start), end_ := some (max (l.end_ + delta) l.start) }
      (some eventParams)

/-- `Lyric.play(start)` (lyric.js 153-158): `const s = start || this.start`. -/
def Lyric.play (l : Lyric) (start : Option ℚ) : Lyric × List Event :=
  let s := orElse start l.start
  (l, [Event.transportPlay s (some l.end_), Event.play, Event.lyricPlay l.id])

/-- `Lyric.playLoop(start)` (lyric.js 164-167). -/
def Lyric.playLoop (l : Lyric) (start : Option ℚ) : Lyric × List Event :=
  ({ l with loop := true } : Lyric).play start

/-- `Lyric.remove()` (lyric.js 138-147). -/
def Lyric.remove (l : Lyric) : Lyric × List Event :=
  match l.element with
  | some _ => ({ l with element := none }, [Event.remove, Event.lyricRemoved l.id])
  | none => (l, [])

/-- The handler `bindInOut` registers for `out` (lyric.js 396-403): loop playback. -/
def Lyric.loopHandler (l : Lyric) (ws : WaveSurfer) : List Event :=
  if l.loop then
    let realTime := ws.currentTime
    if realTime ≥ l.start ∧ realTime ≤ l.end_ then [Event.transportPlay l.start none] else []
  else []

/-- The tick handler `onProcess(time)` of `bindInOut` (lyric.js 366-387). Firing `out` runs
the loop handler before `lyric-out` is fired on the host. -/
def Lyric.onProcess (l : Lyric) (ws : WaveSurfer) (time : ℚ) : Lyric × List Event :=
  let start := (mathRound (l.start * 10) : ℚ) / 10
  let end_ := (mathRound (l.end_ * 10) : ℚ) / 10
  let time := (mathRound (time * 10) : ℚ) / 10
  let r1 : Lyric × List Event :=
    if l.firedOut = false ∧ l.firedIn = true ∧ (start > time ∨ end_ ≤ time) then
      let l1 := { l with firedOut := true, firedIn := false }
      (l1, [Event.out] ++ l1.loopHandler ws ++ [Event.lyricOut l1.id])
    else (l, [])
  let r2 : Lyric × List Event :=
    if r1.1.firedIn = false ∧ start ≤ time ∧ end_ > time then
      ({ r1.1 with firedIn := true, firedOut := false }, [Event.in_, Event.lyricIn r1.1.id])
    else (r1.1, [])
  (r2.1, r1.2 ++ r2.2)

/-- One playback tick and what came before it since the last one: the bounds the lyric
has by then (`start` and `end` are plain properties which `update`, a drag or a resize may
have changed), the true time `getCurrentTime()` of the transport and the `time` handed to
the `audioprocess` handler. -/
structure Tick where
  start : ℚ
  end_ : ℚ
  currentTime : ℚ
  time : ℚ
  deriving DecidableEq, Repr

/-- The tick handler run on the lyric with the bounds it has at that tick. -/
def Lyric.tick (l : Lyric) (ws : WaveSurfer) (t : Tick) : Lyric × List Event :=
  ({ l with start := t.start, end_ := t.end_ } : Lyric).onProcess
    { ws with currentTime := t.currentTime } t.time

/-- A sequence of playback ticks: the lyric afterwards and all the events fired. -/
def Lyric.ticks (l : Lyric) (ws : WaveSurfer) : List Tick → Lyric × List Event
  | [] => (l, [])
  | t :: rest =>
    ((Lyric.ticks (l.tick ws t).1 ws rest).1,
      (l.tick ws t).2 ++ (Lyric.ticks (l.tick ws t).1 ws rest).2)

/-- `n` calls of `remove()` in a row on the same lyric: the lyric afterwards and all the
events fired. -/
def Lyric.removeTimes (l : Lyric) : Nat → Lyric × List Event
  | 0 => (l, [])
  | n + 1 => ((Lyric.removeTimes (l.remove).1 n).1, (l.remove).2 ++ (Lyric.removeTimes (l.remove).1 n).2)

/-! ## The plugin (store of lyrics) -/

/-- The state of a `LyricsPlugin` instance. `list` is the object `this.list`, as the
sequence of its `(key, value)` properties in the order `Object.keys` enumerates them.
`dragSelection` tells whether `enableDragSelection` has registered its `lyric-created`
handler. -/
structure LyricsPlugin where
  params : PluginParams
  maxLyrics : Option ℚ
  lyricsMinLength : Option ℚ
  list : List (String × Lyric)
  dragSelection : Bool
  deriving DecidableEq, Repr

/-- The `LyricsPlugin` constructor (index.js 112-186): no lyric, no drag selection yet. -/
def LyricsPlugin.new (params : PluginParams) : LyricsPlugin :=
  { params := params
    maxLyrics := params.maxLyrics
    lyricsMinLength := if truthy params.lyricsMinLength then params.lyricsMinLength else none
    list := []
    dragSelection := false }

/-- `Object.keys(this.list)`. -/
def LyricsPlugin.keys (p : LyricsPlugin) : List String := p.list.map Prod.fst

/-- The lyrics of the store, in key enumeration order. -/
def LyricsPlugin.lyrics (p : LyricsPlugin) : List Lyric := p.list.map Prod.snd

/-- The property read `obj[id]`. -/
def objGet (list : List (String × Lyric)) (id : String) : Option Lyric :=
  match list with
  | [] => none
  | (k, v) :: rest => if k = id then some v else objGet rest id

/-- The property write `obj[id] = lyric`: an existing key keeps its place, a new key goes
last (ids are not array-index strings). -/
def objSet (list : List (String × Lyric)) (id : String) (lyric : Lyric) :
    List (String × Lyric) :=
  match list with
  | [] => [(id, lyric)]
  | (k, v) :: rest => if k = id then (k, lyric) :: rest else (k, v) :: objSet rest id lyric

/-- `LyricsPlugin.getLyricSnapToGridValue(value, params)` (index.js 535-548). -/
def getLyricSnapToGridValue (value : ℚ) (params : PluginParams) : ℚ :=
  match params.snapToGridInterval with
  | some snapToGridInterval =>
    if snapToGridInterval ≠ 0 then
      let offset := orElse params.snapToGridOffset 0
      (mathRound ((value - offset) / snapToGridInterval) : ℚ) * snapToGridInterval + offset
    else value
  | none => value

/-- `LyricsPlugin.wouldExceedMaxLyrics()` (index.js 216-220), as a truth value. -/
def LyricsPlugin.wouldExceedMaxLyrics (p : LyricsPlugin) : Bool :=
  match p.maxLyrics with
  | some maxLyrics => decide (maxLyrics ≠ 0) && decide ((p.keys.length : ℚ) ≥ maxLyrics)
  | none => false

/-- `LyricsPlugin.add(params)` (index.js 228-256). Result: the value returned (`none` for
`null`), the plugin afterwards and the events fired. The `edgeScrollWidth` and
`formatTimeCallback` defaults only reach the scrolling and tooltip code and are left out.
The subscription to the lyric's `remove` event has no effect until the lyric is removed. -/
def LyricsPlugin.add (p : LyricsPlugin) (ws : WaveSurfer) (params : LyricParams)
    (freshId : String) : Option Lyric × LyricsPlugin × List Event :=
  if p.wouldExceedMaxLyrics then
    (none, p, [])
  else
    let params :=
      if !truthy params.minLength && truthy p.lyricsMinLength then
        { params with minLength := p.lyricsMinLength }
      else params
    let (lyric, events) := Lyric.new params ws freshId
    -- the `lyric-created` handler installed by `enableDragSelection` (index.js 490-494)
    let lyric :=
      if p.dragSelection && truthy p.lyricsMinLength then
        { lyric with minLength := p.lyricsMinLength }
      else lyric
    (some lyric, { p with list := objSet p.list lyric.id lyric }, events)

/-- The loop body of `getCurrentLyric` (index.js 512-519). -/
def currentStep (time : ℚ) (min : Option Lyric) (cur : Lyric) : Option Lyric :=
  if cur.start ≤ time ∧ cur.end_ ≥ time then
    match min with
    | none => some cur
    | some m => if cur.end_ - cur.start < m.end_ - m.start then some cur else some m
  else min

/-- `LyricsPlugin.getCurrentLyric()` (index.js 509-522). -/
def LyricsPlugin.getCurrentLyric (p : LyricsPlugin) (ws : WaveSurfer) : Option Lyric :=
  let time := ws.currentTime
  p.keys.foldl (fun min id =>
    match objGet p.list id with
    | some cur => currentStep time min cur
    | none => min) none

/-- The `start` read by the comparator of `getSortedLyrics`: `that.list[a].start`. -/
def startOf (list : List (String × Lyric)) (a : String) : ℚ :=
  match objGet list a with
  | some l => l.start
  | none => 0

/-- `Array.prototype.sort(compare)`: a stable sort (ECMAScript 2019), here by insertion:
`a` stays before `b` unless `compare a b > 0`. -/
def arraySort (compare : String → String → ℚ) (keys : List String) : List String :=
  List.insertionSort (fun a b => compare a b ≤ 0) keys

/-- `LyricsPlugin.getSortedLyrics()` (index.js 274-300). -/
def LyricsPlugin.getSortedLyrics (p : LyricsPlugin) : List Lyric :=
  let newKeys := arraySort (fun a b => startOf p.list a - startOf p.list b) p.keys
  newKeys.filterMap (fun k => objGet p.list k)

/-! ## Pointer input -/

/-- The `scrollDirection` of an edge scroll: `-1` or `1`. -/
inductive ScrollDirection where
  | backward
  | forward
  deriving DecidableEq, Repr

/-- What one run of `edgeScroll` reads from the DOM: the pointer position
`drawer.handleEvent(event)` at the scroll offset of that moment, and whether the scroll
offset has reached its bound. -/
structure ScrollRead where
  position : ℚ
  atLimit : Bool
  deriving DecidableEq, Repr

/-- What the handlers read from a mouse or touch event and, through it, from the DOM. -/
structure PointerEvent where
  /-- `event.touches.length` (`none` for a mouse event). -/
  touches : Option Nat := none
  /-- `event.targetTouches[0].identifier` (`none` for a mouse event). -/
  targetTouch : Option Nat := none
  /-- `drawer.handleEvent(event)`: the pointer as a fraction of the timeline. -/
  position : ℚ
  /-- The handle the event targets (`tagName` is `handle`), `none` for the lyric body. -/
  target : Option Side := none
  /-- Whether scrolling applies: scrolling is on and the wrapper is wider than the
  container. -/
  scrollable : Bool := false
  /-- The edge band the pointer is in, if any. -/
  edge : Option ScrollDirection := none
  /-- What `edgeScroll(event)`, called by the move handler, reads. -/
  scroll : ScrollRead := ⟨0, true⟩
  deriving DecidableEq, Repr

/-- The test `event.touches && event.touches.length > 1`. -/
def PointerEvent.multiTouch (e : PointerEvent) : Bool :=
  match e.touches with
  | some n => decide (n > 1)
  | none => false

/-- The test `event.targetTouches && event.targetTouches[0].identifier != touchId`. -/
def PointerEvent.otherTouch (e : PointerEvent) (touchId : Option Nat) : Bool :=
  match e.targetTouch with
  | some i => decide (touchId ≠ some i)
  | none => false

/-! ## Drag and resize of a lyric (`bindDragEvents`) -/

/-- The variables closed over by the handlers of `bindDragEvents` (lyric.js 459-472).
`pendingFrames` counts the `edgeScroll` runs scheduled with `requestAnimationFrame`. -/
structure DragState where
  startTime : ℚ := 0
  touchId : Option Nat := none
  drag : Bool := false
  resize : Option Side := none
  updated : Bool := false
  scrollDirection : Option ScrollDirection := none
  lyricLeftHalfTime : ℚ := 0
  lyricRightHalfTime : ℚ := 0
  pendingFrames : Nat := 0
  deriving DecidableEq, Repr

/-- A lyric with the state of its pointer handlers. -/
structure DragSession where
  lyric : Lyric
  st : DragState
  deriving DecidableEq, Repr

/-- `onDown(event)` (lyric.js 573-615). -/
def DragSession.onDown (s : DragSession) (pp : PluginParams) (ws : WaveSurfer)
    (event : PointerEvent) : DragSession × List Event :=
  let duration := ws.duration
  if event.multiTouch then (s, [])
  else
    let startTime := getLyricSnapToGridValue (event.position * duration) pp
    let st := { s.st with
      touchId := event.targetTouch
      startTime := startTime
      lyricLeftHalfTime := startTime - s.lyric.start
      lyricRightHalfTime := s.lyric.end_ - startTime }
    match event.target with
    | some side =>
      ({ lyric := { s.lyric with isResizing := true, isDragging := false },
         st := { st with resize := some side } }, [])
    | none =>
      ({ lyric := { s.lyric with isResizing := false, isDragging := true },
         st := { st with drag := true, resize := none } }, [])

/-- `onUp(event)` (lyric.js 616-635). -/
def DragSession.onUp (s : DragSession) (event : PointerEvent) : DragSession × List Event :=
  if event.multiTouch then (s, [])
  else
    let s :=
      if s.st.drag = true ∨ s.st.resize ≠ none then
        { lyric := { s.lyric with isDragging := false, isResizing := false },
          st := { s.st with drag := false, scrollDirection := none, resize := none } }
      else s
    if s.st.updated then
      ({ s with st := { s.st with updated := false } },
        [Event.preventClick, Event.updateEnd, Event.lyricUpdateEnd s.lyric.id])
    else (s, [])

/-- The pointer time a move or an `edgeScroll` run keeps for a resize: the time is kept
`minLength` (`0` when unset or zero) away from the opposite bound and inside the timeline
(lyric.js 667-692 and 502-526). -/
def resizeTime (l : Lyric) (duration : ℚ) (side : Side) (time : ℚ) : ℚ :=
  let minLength := orElse l.minLength 0
  match side with
  | Side.start =>
    let time := if time > l.end_ - minLength then l.end_ - minLength else time
    if time < 0 then 0 else time
  | Side.end_ =>
    let time := if time < l.start + minLength then l.start + minLength else time
    if time > duration then duration else time

/-- One run of `edgeScroll(event)` (lyric.js 475-571); the scroll offset itself is not
modelled, `read` is what the run reads from the DOM. -/
def DragSession.edgeScroll (s : DragSession) (pp : PluginParams) (ws : WaveSurfer)
    (read : ScrollRead) : DragSession × List Event :=
  let duration := ws.duration
  if s.st.scrollDirection = none ∨ (s.st.drag = false ∧ s.st.resize = none) then (s, [])
  else
    let time := getLyricSnapToGridValue (read.position * duration) pp
    let time :=
      if s.st.drag then time
      else match s.st.resize with
        | some side => resizeTime s.lyric duration side time
        | none => time
    if read.atLimit then (s, [])
    else
      let delta := time - s.st.startTime
      let st := { s.st with startTime := time }
      let r :=
        if s.st.drag then s.lyric.onDrag ws delta
        else match s.st.resize with
          | some side => s.lyric.onResize ws delta side
          | none => (s.lyric, [])
      ({ lyric := r.1, st := { st with pendingFrames := st.pendingFrames + 1 } }, r.2)

/-- Whether `onMove(event)` gets past its three early returns (lyric.js 640-648). -/
def DragSession.moves (s : DragSession) (event : PointerEvent) : Bool :=
  !event.multiTouch && !event.otherTouch s.st.touchId
    && !(s.st.drag = false && s.st.resize = none)

/-- The `time` of `onMove(event)` after its clamps (lyric.js 651-692). -/
def DragSession.moveTime (s : DragSession) (pp : PluginParams) (ws : WaveSurfer)
    (event : PointerEvent) : ℚ :=
  let duration := ws.duration
  let time := getLyricSnapToGridValue (event.position * duration) pp
  let time :=
    if s.st.drag then
      let maxEnd := ws.duration
      let time :=
        if time > maxEnd - s.st.lyricRightHalfTime then maxEnd - s.st.lyricRightHalfTime
        else time
      if time - s.st.lyricLeftHalfTime < 0 then s.st.lyricLeftHalfTime else time
    else time
  match s.st.resize with
  | some side => resizeTime s.lyric duration side time
  | none => time

/-- The drag of `onMove` (lyric.js 697-701). -/
def DragSession.commitDrag (s : DragSession) (ws : WaveSurfer) (delta : ℚ) :
    DragSession × List Event :=
  if s.lyric.drag = true ∧ s.st.drag = true then
    ({ lyric := (s.lyric.onDrag ws delta).1,
       st := { s.st with updated := s.st.updated || decide (delta ≠ 0) } },
      (s.lyric.onDrag ws delta).2)
  else (s, [])

/-- The resize of `onMove` (lyric.js 703-707). -/
def DragSession.commitResize (s : DragSession) (ws : WaveSurfer) (delta : ℚ) :
    DragSession × List Event :=
  match s.st.resize with
  | some side =>
    if s.lyric.resize = true then
      ({ lyric := (s.lyric.onResize ws delta side).1,
         st := { s.st with updated := s.st.updated || decide (delta ≠ 0) } },
        (s.lyric.onResize ws delta side).2)
    else (s, [])
  | none => (s, [])

/-- The commit of `onMove` (lyric.js 697-707): the drag, then the resize, each if it is
going on and enabled on the lyric. -/
def DragSession.commitMove (s : DragSession) (ws : WaveSurfer) (delta : ℚ) :
    DragSession × List Event :=
  let r1 := s.commitDrag ws delta
  let r2 := r1.1.commitResize ws delta
  (r2.1, r1.2 ++ r2.2)

/-- The end of `onMove` (lyric.js 709-727): the edge scroll is set off when the pointer is
in an edge band. -/
def DragSession.scrollMove (s : DragSession) (pp : PluginParams) (ws : WaveSurfer)
    (event : PointerEvent) : DragSession × List Event :=
  if event.scrollable then
    let s2 : DragSession := { s with st := { s.st with scrollDirection := event.edge } }
    match event.edge with
    | some _ => s2.edgeScroll pp ws event.scroll
    | none => (s2, [])
  else (s, [])

/-- `onMove(event)` (lyric.js 636-728). -/
def DragSession.onMove (s : DragSession) (pp : PluginParams) (ws : WaveSurfer)
    (event : PointerEvent) : DragSession × List Event :=
  if s.moves event = false then (s, [])
  else
    let time := s.moveTime pp ws event
    let delta := time - s.st.startTime
    let s0 : DragSession := { s with st := { s.st with startTime := time } }
    let r1 := s0.commitMove ws delta
    let r2 := r1.1.scrollMove pp ws event
    (r2.1, r1.2 ++ r2.2)

/-- What reaches the handlers of a lyric: pointer events, and animation frames running a
scheduled `edgeScroll`. -/
inductive DragInput where
  | down (event : PointerEvent)
  | move (event : PointerEvent)
  | up (event : PointerEvent)
  | frame (read : ScrollRead)
  deriving DecidableEq, Repr

/-- One input handled. A frame runs only if an `edgeScroll` is scheduled. -/
def DragSession.step (pp : PluginParams) (ws : WaveSurfer) (s : DragSession) (i : DragInput) :
    DragSession × List Event :=
  match i with
  | DragInput.down e => s.onDown pp ws e
  | DragInput.move e => s.onMove pp ws e
  | DragInput.up e => s.onUp e
  | DragInput.frame read =>
    if s.st.pendingFrames = 0 then (s, [])
    else
      ({ s with st := { s.st with pendingFrames := s.st.pendingFrames - 1 } } : DragSession).edgeScroll
        pp ws read

/-- A sequence of inputs handled in order: the final state and all the events fired. -/
def DragSession.run (pp : PluginParams) (ws : WaveSurfer) (s : DragSession) :
    List DragInput → DragSession × List Event
  | [] => (s, [])
  | i :: rest =>
    ((DragSession.run pp ws (s.step pp ws i).1 rest).1,
      (s.step pp ws i).2 ++ (DragSession.run pp ws (s.step pp ws i).1 rest).2)

/-! ## Drag selection (`enableDragSelection`) -/

/-- The state of the handlers of `enableDragSelection` (index.js 313-331) with the plugin
they act on. `lyric` is the lyric being created: the same object the plugin stores under
its id. `slop` is `params.slop || 2` and `params` the lyric parameters handed to `add`.
`pendingFrames` counts the `edgeScroll` runs scheduled with `requestAnimationFrame`. -/
structure SelectSession where
  plugin : LyricsPlugin
  slop : Nat := 2
  params : LyricParams := {}
  drag : Bool := false
  duration : ℚ := 0
  start : ℚ := 0
  lyric : Option Lyric := none
  touchId : Option Nat := none
  pxMove : Nat := 0
  scrollDirection : Option ScrollDirection := none
  pendingFrames : Nat := 0
  deriving DecidableEq, Repr

/-- The new state of the controller's lyric shows in the plugin, which stores the same
object under the lyric's id. -/
def syncLyric (list : List (String × Lyric)) (lyric : Lyric) : List (String × Lyric) :=
  list.map (fun kv => if kv.1 = lyric.id then (kv.1, lyric) else kv)

/-- The call `lyric.update(params)` of the selection handlers on the controller's lyric. -/
def SelectSession.updateLyric (s : SelectSession) (ws : WaveSurfer) (lyric : Lyric)
    (params : UpdateParams) : SelectSession × List Event :=
  let r := lyric.update ws params none
  ({ s with lyric := some r.1, plugin := { s.plugin with list := syncLyric s.plugin.list r.1 } },
    r.2)

/-- `eventDown(e)` (index.js 361-393); the colour picked for split channels is left out. -/
def SelectSession.eventDown (s : SelectSession) (ws : WaveSurfer) (e : PointerEvent) :
    SelectSession × List Event :=
  if e.multiTouch then (s, [])
  else
    ({ s with
        duration := ws.duration
        touchId := e.targetTouch
        drag := true
        start := e.position
        lyric := none
        scrollDirection := none }, [])

/-- `eventUp(e)` (index.js 401-417). -/
def SelectSession.eventUp (s : SelectSession) (e : PointerEvent) : SelectSession × List Event :=
  if e.multiTouch then (s, [])
  else
    let s1 := { s with drag := false, pxMove := 0, scrollDirection := none }
    match s1.lyric with
    | some lyric =>
      ({ s1 with lyric := none },
        [Event.preventClick, Event.updateEnd, Event.lyricUpdateEnd lyric.id])
    | none => ({ s1 with lyric := none }, [])

/-- One run of `edgeScroll(e)` of the selection (index.js 333-359). -/
def SelectSession.edgeScroll (s : SelectSession) (ws : WaveSurfer) (read : ScrollRead) :
    SelectSession × List Event :=
  match s.lyric with
  | none => (s, [])
  | some lyric =>
    if s.scrollDirection = none then (s, [])
    else
      let end_ := read.position
      let r := s.updateLyric ws lyric
        { start := some (min (end_ * s.duration) (s.start * s.duration)),
          end_ := some (max (end_ * s.duration) (s.start * s.duration)) }
      if read.atLimit then r
      else ({ r.1 with pendingFrames := r.1.pendingFrames + 1 }, r.2)

/-- The creation step of `eventMove` (index.js 447-453): `if (!lyric) lyric = this.add(...)`;
`freshId` is what `getId()` returns if a lyric is constructed. -/
def SelectSession.createLyric (s : SelectSession) (ws : WaveSurfer) (freshId : String) :
    SelectSession × List Event :=
  match s.lyric with
  | some _ => (s, [])
  | none =>
    ({ s with
        plugin := (s.plugin.add ws s.params freshId).2.1
        lyric := (s.plugin.add ws s.params freshId).1 },
      (s.plugin.add ws s.params freshId).2.2)

/-- The end of `eventMove` (index.js 467-481): the edge scroll is set off when the pointer
is in an edge band. -/
def SelectSession.scrollMove (s : SelectSession) (ws : WaveSurfer) (event : PointerEvent) :
    SelectSession × List Event :=
  if event.scrollable then
    let s2 : SelectSession := { s with scrollDirection := event.edge }
    match event.edge with
    | some _ => s2.edgeScroll ws event.scroll
    | none => (s2, [])
  else (s, [])

/-- `eventMove(event)` (index.js 432-482). -/
def SelectSession.eventMove (s : SelectSession) (ws : WaveSurfer) (event : PointerEvent)
    (freshId : String) : SelectSession × List Event :=
  if s.drag = false then (s, [])
  else
    let s : SelectSession := { s with pxMove := s.pxMove + 1 }
    if s.pxMove ≤ s.slop then (s, [])
    else if event.multiTouch then (s, [])
    else if event.otherTouch s.touchId then (s, [])
    else
      -- auto-create a lyric during mouse drag, unless lyric-count would exceed "maxLyrics"
      let r0 := s.createLyric ws freshId
      match r0.1.lyric with
      | none => r0
      | some lyric =>
        let end_ := event.position
        let startUpdate :=
          getLyricSnapToGridValue (r0.1.start * r0.1.duration) r0.1.plugin.params
        let endUpdate := getLyricSnapToGridValue (end_ * r0.1.duration) r0.1.plugin.params
        let r1 := r0.1.updateLyric ws lyric
          { start := some (min endUpdate startUpdate), end_ := some (max endUpdate startUpdate) }
        let r2 := r1.1.scrollMove ws event
        (r2.1, r0.2 ++ r1.2 ++ r2.2)

/-- What reaches the selection handlers: pointer events, and animation frames running a
scheduled `edgeScroll`. -/
inductive SelectInput where
  | down (event : PointerEvent)
  | move (event : PointerEvent) (freshId : String)
  | up (event : PointerEvent)
  | frame (read : ScrollRead)
  deriving DecidableEq, Repr

/-- One input handled. A frame runs only if an `edgeScroll` is scheduled. -/
def SelectSession.step (ws : WaveSurfer) (s : SelectSession) (i : SelectInput) :
    SelectSession × List Event :=
  match i with
  | SelectInput.down e => s.eventDown ws e
  | SelectInput.move e freshId => s.eventMove ws e freshId
  | SelectInput.up e => s.eventUp e
  | SelectInput.frame read =>
    if s.pendingFrames = 0 then (s, [])
    else ({ s with pendingFrames := s.pendingFrames - 1 } : SelectSession).edgeScroll ws read

/-- A sequence of inputs handled in order: the final state and all the events fired. -/
def SelectSession.run (ws : WaveSurfer) (s : SelectSession) :
    List SelectInput → SelectSession × List Event
  | [] => (s, [])
  | i :: rest =>
    ((SelectSession.run ws (s.step ws i).1 rest).1,
      (s.step ws i).2 ++ (SelectSession.run ws (s.step ws i).1 rest).2)

/-! ## The store and the lyric objects it hands out -/

/-- The property write `obj[id] = value` on an object of any values: an existing key keeps
its place, a new key goes last. -/
def propSet {α : Type} (list : List (String × α)) (id : String) (value : α) :
    List (String × α) :=
  match list with
  | [] => [(id, value)]
  | (k, v) :: rest => if k = id then (k, value) :: rest else (k, v) :: propSet rest id value

/-- The statement `delete obj[id]`. -/
def propDelete {α : Type} (list : List (String × α)) (id : String) : List (String × α) :=
  list.filter (fun kv => decide (kv.1 ≠ id))

/-- The plugin together with the `Lyric` objects constructed so far. An object is named by
its index in `objects` (creation order); `refs` tells, for each key of `this.list`, which
object is stored under it, and `plugin.list` holds the state of that object. -/
structure World where
  plugin : LyricsPlugin
  objects : List Lyric
  refs : List (String × Nat)
  deriving DecidableEq, Repr

/-- A fresh plugin: no lyric constructed, nothing stored. -/
def World.new (params : PluginParams) : World :=
  { plugin := LyricsPlugin.new params, objects := [], refs := [] }

/-- `add(params)` on the plugin; the result names the object returned. -/
def World.add (w : World) (ws : WaveSurfer) (params : LyricParams) (freshId : String) :
    Option Nat × World × List Event :=
  match w.plugin.add ws params freshId with
  | (some lyric, plugin, events) =>
    (some w.objects.length,
      { plugin := plugin
        objects := w.objects ++ [lyric]
        refs := propSet w.refs lyric.id w.objects.length },
      events)
  | (none, _, _) => (none, w, [])

/-- `remove()` on the object `ref`. Firing `remove` runs the handler `add` registered:
`delete this.list[lyric.id]` (index.js 251-253). -/
def World.remove (w : World) (ref : Nat) : World × List Event :=
  match w.objects[ref]? with
  | none => (w, [])
  | some lyric =>
    match lyric.element with
    | some _ =>
      ({ plugin := { w.plugin with list := propDelete w.plugin.list lyric.id }
         objects := w.objects.set ref (lyric.remove).1
         refs := propDelete w.refs lyric.id },
        (lyric.remove).2)
    | none => (w, [])

/-- A call on the store or on one of its lyrics. -/
inductive StoreOp where
  | add (params : LyricParams) (freshId : String)
  | remove (ref : Nat)
  deriving DecidableEq, Repr

/-- One call carried out. -/
def World.step (ws : WaveSurfer) (w : World) (op : StoreOp) : World :=
  match op with
  | StoreOp.add params freshId => (w.add ws params freshId).2.1
  | StoreOp.remove ref => (w.remove ref).1

/-- A sequence of calls carried out in order. -/
def World.run (ws : WaveSurfer) (w : World) (ops : List StoreOp) : World :=
  ops.foldl (World.step ws) w

/-- Reference definition of snapping, after the specification (section 4.1):
`quantize(value, interval, offset)` returns `value` when `interval` is falsy or zero and
`round((value - offset) / interval) * interval + offset` otherwise. -/
def quantize (value : ℚ) (interval : Option ℚ) (offset : ℚ) : ℚ :=
  if truthy interval then
    (mathRound ((value - offset) / interval.getD 0) : ℚ) * interval.getD 0 + offset
  else value

/-! ## Specification predicates -/

/-- Whether the lyric covers the time: `cur.start <= time && cur.end >= time`. -/
def covers (time : ℚ) (c : Lyric) : Prop := c.start ≤ time ∧ c.end_ ≥ time

/-- What `getCurrentLyric` holds in `min` after it has visited the lyrics `seen`. -/
def BestOf (time : ℚ) (seen : List Lyric) (min : Option Lyric) : Prop :=
  (min = none ∧ ∀ c ∈ seen, ¬ covers time c)
  ∨ ∃ m pre post, min = some m ∧ seen = pre ++ m :: post ∧ covers time m
      ∧ (∀ c ∈ pre, covers time c → m.end_ - m.start < c.end_ - c.start)
      ∧ (∀ c ∈ post, covers time c → m.end_ - m.start ≤ c.end_ - c.start)

/-- The rounding of the playback tick: `r(x) = round(10 x) / 10`. -/
def roundTenth (x : ℚ) : ℚ := (mathRound (x * 10) : ℚ) / 10

/-- The objects the store holds: those some key of `this.list` refers to. -/
def World.stored (w : World) : List Nat := w.refs.map Prod.snd

/-- The object `ref` was returned by `add` and has not been removed. -/
def World.attached (w : World) (ref : Nat) : Bool :=
  match w.objects[ref]? with
  | some l => l.element.isSome
  | none => false

/-- The keys of the store are distinct and name, each under its own id, exactly the
attached objects. -/
def World.Owns (w : World) : Prop :=
  (w.refs.map Prod.fst).Nodup
  ∧ ∀ k r, (k, r) ∈ w.refs ↔ ∃ l, w.objects[r]? = some l ∧ l.element ≠ none ∧ l.id = k

/-- No `add` of the sequence uses an id (supplied, or generated when none is supplied)
that is a key of the store at the time of the call. -/
def World.freshIds (ws : WaveSurfer) (w : World) : List StoreOp → Prop
  | [] => True
  | StoreOp.add params freshId :: rest =>
    (match params.id with
      | some i => i
      | none => freshId) ∉ w.refs.map Prod.fst
    ∧ World.freshIds ws (w.step ws (StoreOp.add params freshId)) rest
  | StoreOp.remove ref :: rest => World.freshIds ws (w.step ws (StoreOp.remove ref)) rest

/-- The move gets past the early returns of `onMove` and its time differs from the time
of the previous position: it produces a non-zero time delta. -/
def DragSession.nonZeroMove (s : DragSession) (pp : PluginParams) (ws : WaveSurfer)
    (event : PointerEvent) : Prop :=
  s.moves event = true ∧ s.moveTime pp ws event - s.st.startTime ≠ 0

/-- The drag or the resize going on in the session is enabled on the lyric. -/
def DragSession.enabled (s : DragSession) : Prop :=
  (s.lyric.drag = true ∧ s.st.drag = true) ∨ (s.lyric.resize = true ∧ s.st.resize ≠ none)

/-- The inputs between pointer-down and pointer-up: moves and animation frames. -/
def DragInput.isMid : DragInput → Bool
  | DragInput.move _ => true
  | DragInput.frame _ => true
  | _ => false

/-- The inputs between pointer-down and pointer-up of a selection: moves and frames. -/
def SelectInput.isMid : SelectInput → Bool
  | SelectInput.move _ _ => true
  | SelectInput.frame _ => true
  | _ => false

/-- The event is the host event `lyric-update-end` of some lyric. -/
def Event.isLyricUpdateEnd : Event → Bool
  | Event.lyricUpdateEnd _ => true
  | _ => false

/-- The event is the host event `lyric-created` of some lyric. -/
def Event.isLyricCreated : Event → Bool
  | Event.lyricCreated _ => true
  | _ => false

/-- The events of a selection session that tell its end: `update-end` on the lyric and
`lyric-update-end` on the host. -/
def Event.isEnd (e : Event) : Bool := decide (e = Event.updateEnd) || e.isLyricUpdateEnd

/-- The end that length enforcement gives the clamped bounds `(s, e)`, after the
specification: `min(s + maxLength, max(s + minLength, e))`, a step being skipped when its
constraint is unset. -/
def enforcedEnd (s e : ℚ) (minLength maxLength : Option ℚ) : ℚ :=
  match minLength, maxLength with
  | some m, some M => min (s + M) (max (s + m) e)
  | some m, none => max (s + m) e
  | none, some M => min (s + M) e
  | none, none => e

/-- The delta `onResize` applies to the moved bound, after its three guards. -/
def Lyric.resizeDelta (l : Lyric) (ws : WaveSurfer) (delta : ℚ) (direction : Side) : ℚ :=
  match direction with
  | Side.start =>
    let delta := match l.minLength with
      | some minLength =>
        if delta > 0 ∧ l.end_ - (l.start + delta) < minLength then
          l.end_ - minLength - l.start
        else delta
      | none => delta
    let delta := match l.maxLength with
      | some maxLength =>
        if delta < 0 ∧ l.end_ - (l.start + delta) > maxLength then
          l.end_ - l.start - maxLength
        else delta
      | none => delta
    if delta < 0 ∧ l.start + delta < 0 then l.start * -1 else delta
  | Side.end_ =>
    let delta := match l.minLength with
      | some minLength =>
        if delta < 0 ∧ l.end_ + delta - l.start < minLength then
          l.start + minLength - l.end_
        else delta
      | none => delta
    let delta := match l.maxLength with
      | some maxLength =>
        if delta > 0 ∧ l.end_ + delta - l.start > maxLength then
          maxLength - (l.end_ - l.start)
        else delta
      | none => delta
    if delta > 0 ∧ l.end_ + delta > ws.duration then ws.duration - l.end_ else delta

/-- Whether an event is the `in` or the `out` event of a lyric. -/
def Event.isInOut : Event → Bool
  | Event.in_ => true
  | Event.out => true
  | _ => false

/-- The strictly alternating sequence of `n` events `in`, `out`: it starts with `out` when
the lyric is entered (`firedIn`), with `in` otherwise. -/
def inOutFrom : Bool → Nat → List Event
  | _, 0 => []
  | firedIn, n + 1 => (if firedIn then Event.out else Event.in_) :: inOutFrom (!firedIn) n

/-- A drag of the lyric body by the touch `touchId` is going on with the grabbed point
glued: the anchor time is `left` after `start` and `right` before `end`, these are the
half-spans recorded at pointer-down, and the lyric lies inside the timeline. -/
def DragSession.glued (s : DragSession) (ws : WaveSurfer) (touchId : Option Nat)
    (left right : ℚ) : Prop :=
  s.lyric.drag = true ∧ s.st.drag = true ∧ s.st.resize = none ∧ s.st.touchId = touchId
  ∧ s.st.lyricLeftHalfTime = left ∧ s.st.lyricRightHalfTime = right
  ∧ s.st.startTime - s.lyric.start = left ∧ s.lyric.end_ - s.st.startTime = right
  ∧ 0 ≤ s.lyric.start ∧ s.lyric.end_ ≤ ws.duration

/-! ## Sample states -/

/-- A timeline of duration 10 with the cursor at 5. -/
def ws10 : WaveSurfer := { duration := 10, currentTime := 5, scrollWidth := 1000, width := 1000 }

/-- The lyric `[2, 8]` as the constructor leaves it on `ws10`. -/
def lyric28 : Lyric :=
  { id := "a", start := 2, end_ := 8, line1 := "Lyric line 1", line2 := "Lyric line 2",
    resize := false, drag := false, isResizing := false, isDragging := false, loop := false,
    color := "rgba(0, 0, 0, 0.1)", handleStyle := "left: {}, right: {}",
    line1El := some "span.wavesurfer-line1", line2El := some "span.wavesurfer-line2",
    data := "{}", attributes := "{}", showTooltip := true, maxLength := none,
    minLength := none, firedIn := false, firedOut := false,
    element := some ⟨2, 8, 200, 600⟩ }

/-- The lyric `A = [0, 10]` of the specification's example. -/
def lyricA : Lyric :=
  { lyric28 with id := "A", start := 0, end_ := 10, element := some ⟨0, 10, 0, 1000⟩ }

/-- The lyric `B = [4, 6]` of the specification's example. -/
def lyricB : Lyric :=
  { lyric28 with id := "B", start := 4, end_ := 6, element := some ⟨4, 6, 400, 200⟩ }

/-- A store holding `A` then `B`, with room for two lyrics. -/
def storeAB : LyricsPlugin :=
  { params := { maxLyrics := some 2 }, maxLyrics := some 2, lyricsMinLength := none,
    list := [("A", lyricA), ("B", lyricB)], dragSelection := false }

/-- A lyric `C = [4, 9]`, starting where `B` starts. -/
def lyricC : Lyric :=
  { lyric28 with id := "C", start := 4, end_ := 9, element := some ⟨4, 9, 400, 500⟩ }

/-- A store enumerating `B`, `A`, `C` in this order. -/
def storeBAC : LyricsPlugin :=
  { params := {}, maxLyrics := none, lyricsMinLength := none,
    list := [("B", lyricB), ("A", lyricA), ("C", lyricC)], dragSelection := false }

/-- The lyric `[2, 8]` with `minLength = 3`. -/
def lyric28min3 : Lyric := { lyric28 with minLength := some 3 }

/-- The looping lyric `[2, 5]`, entered by the playback cursor. -/
def lyric25loop : Lyric :=
  { lyric28 with end_ := 5, loop := true, firedIn := true, element := some ⟨2, 5, 200, 300⟩ }

/-- A timeline of duration 10 whose true current time is 4.98. -/
def ws498 : WaveSurfer := { ws10 with currentTime := 498 / 100 }

/-- A timeline of duration 10 whose true current time is 6.2. -/
def ws62 : WaveSurfer := { ws10 with currentTime := 62 / 10 }

/-- The lyric `[2, 8]` with drag enabled and resize disabled (its handles exist when it was
built with resize enabled and `update` disabled it later). -/
def lyricDragOnly : Lyric := { lyric28 with drag := true }

/-- The lyric `[2, 8]`, draggable, with its pointer handlers in their initial state. -/
def sessionDragOnly : DragSession := { lyric := lyricDragOnly, st := {} }

/-- A mouse event at the fraction `position` of the timeline, on the lyric body. -/
def mouseAt (position : ℚ) : PointerEvent := { position := position }

/-- A mouse event at the fraction `position` of the timeline, on the start handle. -/
def mouseOnStartHandle (position : ℚ) : PointerEvent :=
  { position := position, target := some Side.start }

/-- Drag selection just enabled on an empty plugin, with the default slop of 2. -/
def selectFresh : SelectSession :=
  { plugin := { LyricsPlugin.new {} with dragSelection := true } }

/-- A touch event of the touch `0` at the fraction `position` of the timeline, while
`touches` fingers are on the screen. -/
def touchAt (touches : Nat) (position : ℚ) : PointerEvent :=
  { touches := some touches, targetTouch := some 0, position := position }

/-- The fresh drag selection after a one-finger touch at `0.2`: armed, nothing counted. -/
def selectArmed : SelectSession := (selectFresh.eventDown ws10 (touchAt 1 (2 / 10))).1

/-- A plugin with `lyricsMinLength = 1`, without and with drag selection enabled. -/
def storeMin1 (dragSelection : Bool) : LyricsPlugin :=
  { LyricsPlugin.new { lyricsMinLength := some 1 } with dragSelection := dragSelection }

/-- Drag selection just enabled on an empty plugin whose grid has interval 1. -/
def selectGrid : SelectSession :=
  { plugin := { LyricsPlugin.new { snapToGridInterval := some 1 } with dragSelection := true } }

/-- A mouse move at `0.5` inside the forward edge band of a scrollable wrapper; the edge
scroll it sets off reads the pointer at `0.55`. -/
def mouseInEdgeBand : PointerEvent :=
  { position := 5 / 10, scrollable := true, edge := some ScrollDirection.forward,
    scroll := ⟨55 / 100, false⟩ }

/-! ## Theorems -/

theorem mathRound_intCast (n : ℤ) : mathRound (n : ℚ) = n := by
  unfold mathRound
  rw [Int.floor_eq_iff]
  constructor
  · linarith
  · linarith

theorem mathRound_sub_le (x : ℚ) : (mathRound x : ℚ) - x ≤ 1 / 2 := by
  unfold mathRound
  have h := Int.floor_le (x + 1 / 2)
  linarith

theorem sub_mathRound_lt (x : ℚ) : x - (mathRound x : ℚ) < 1 / 2 := by
  unfold mathRound
  have h := Int.lt_floor_add_one (x + 1 / 2)
  linarith

theorem orElse_zero (a : Option ℚ) : orElse a 0 = a.getD 0 := by
  cases a with
  | none => rfl
  | some x =>
    by_cases hx : x = 0
    · simp [orElse, hx]
    · simp [orElse, hx]

/-- C2: `getLyricSnapToGridValue` is idempotent. For every value and every plugin
parameters (in particular every grid interval `g > 0` and every offset, present or absent),
snapping the snapped value returns the snapped value. -/
theorem getLyricSnapToGridValue_idempotent (v : ℚ) (params : PluginParams) :
    getLyricSnapToGridValue (getLyricSnapToGridValue v params) params
      = getLyricSnapToGridValue v params := by
  unfold getLyricSnapToGridValue
  cases hg : params.snapToGridInterval with
  | none => rfl
  | some g =>
    by_cases h0 : g = 0
    · simp [h0]
    · simp only [ne_eq, h0, not_false_eq_true, if_true]
      have h1 : ((mathRound ((v - orElse params.snapToGridOffset 0) / g) : ℚ) * g
          + orElse params.snapToGridOffset 0 - orElse params.snapToGridOffset 0) / g
          = ((mathRound ((v - orElse params.snapToGridOffset 0) / g) : ℤ) : ℚ) := by
        field_simp
      rw [h1, mathRound_intCast]

/-- C3: `getLyricSnapToGridValue(value, params)` equals the reference definition
`quantize`, called with `params.snapToGridInterval` and with `params.snapToGridOffset`
or `0` when the offset is absent. -/
theorem getLyricSnapToGridValue_eq_quantize (value : ℚ) (params : PluginParams) :
    getLyricSnapToGridValue value params
      = quantize value params.snapToGridInterval (params.snapToGridOffset.getD 0) := by
  unfold getLyricSnapToGridValue quantize
  rw [orElse_zero]
  cases hg : params.snapToGridInterval with
  | none => simp [truthy]
  | some g =>
    by_cases h0 : g = 0
    · simp [truthy, h0]
    · simp [truthy, h0]

/-- C4: with a grid interval `g > 0`, the snapped value lies on the grid (its distance to
the offset is an integer multiple of `g`) and is within `g / 2` of the input. -/
theorem getLyricSnapToGridValue_nearest (value g : ℚ) (params : PluginParams)
    (hg : 0 < g) (hp : params.snapToGridInterval = some g) :
    (∃ k : ℤ, getLyricSnapToGridValue value params - orElse params.snapToGridOffset 0
        = (k : ℚ) * g)
    ∧ |getLyricSnapToGridValue value params - value| ≤ g / 2 := by
  have hne : g ≠ 0 := ne_of_gt hg
  unfold getLyricSnapToGridValue
  simp only [hp, ne_eq, hne, not_false_eq_true, if_true]
  set o := orElse params.snapToGridOffset 0 with ho
  set x := (value - o) / g with hx
  have hv : value = x * g + o := by
    rw [hx]; field_simp
  constructor
  · exact ⟨mathRound x, by ring⟩
  · have h1 := mathRound_sub_le x
    have h2 := sub_mathRound_lt x
    have e : (mathRound x : ℚ) * g + o - value = ((mathRound x : ℚ) - x) * g := by
      rw [hv]; ring
    rw [e, abs_le]
    constructor
    · nlinarith
    · nlinarith

theorem getLyricSnapToGridValue_nearest_witness :
    (0 : ℚ) < 2 ∧
    ((∃ k : ℤ, getLyricSnapToGridValue 7 { snapToGridInterval := some 2 }
        - orElse ({ snapToGridInterval := some 2 } : PluginParams).snapToGridOffset 0
        = (k : ℚ) * 2)
    ∧ |getLyricSnapToGridValue 7 { snapToGridInterval := some 2 } - 7| ≤ (2 : ℚ) / 2) :=
  ⟨by norm_num, getLyricSnapToGridValue_nearest 7 2 { snapToGridInterval := some 2 }
    (by norm_num) rfl⟩

/-! ### `update` field by field -/

theorem whenSet_none {α : Type} (assign : α → Lyric → Lyric) (l : Lyric) :
    whenSet none assign l = l := rfl

theorem whenSet_some {α : Type} (v : α) (assign : α → Lyric → Lyric) (l : Lyric) :
    whenSet (some v) assign l = assign v l := rfl

theorem whenSet_keeps {α β : Type} (g : Lyric → β) (value : Option α)
    (assign : α → Lyric → Lyric) (l : Lyric) (h : ∀ v l, g (assign v l) = g l) :
    g (whenSet value assign l) = g l := by
  cases value with
  | none => rfl
  | some v => exact h v l

theorem updateRender_start (l : Lyric) (ws : WaveSurfer) :
    (l.updateRender ws).start = l.start := by
  unfold Lyric.updateRender
  cases l.element <;> rfl

theorem updateRender_end (l : Lyric) (ws : WaveSurfer) :
    (l.updateRender ws).end_ = l.end_ := by
  unfold Lyric.updateRender
  cases l.element <;> rfl

theorem update_start (l : Lyric) (ws : WaveSurfer) (p : UpdateParams)
    (ep : Option EventParams) : (l.update ws p ep).1.start = p.start.getD l.start := by
  simp only [Lyric.update, updateRender_start]
  repeat (rw [whenSet_keeps Lyric.start _ _ _ ?_]; swap; exact fun _ _ => rfl)
  cases p.start <;> rfl

theorem update_end (l : Lyric) (ws : WaveSurfer) (p : UpdateParams)
    (ep : Option EventParams) : (l.update ws p ep).1.end_ = p.end_.getD l.end_ := by
  simp only [Lyric.update, updateRender_end]
  repeat (rw [whenSet_keeps Lyric.end_ _ _ _ ?_]; swap; exact fun _ _ => rfl)
  cases p.end_ with
  | some v => rfl
  | none =>
    rw [whenSet_none]
    exact whenSet_keeps Lyric.end_ _ _ _ (fun _ _ => rfl)

/-- The claim C1 fails: on a timeline of duration 10, `update({start: -5, end: 20})` on the
lyric `[2, 8]` stores `start = -5` and `end = 20`, outside `[0, duration]`. -/
theorem update_stores_out_of_range :
    ¬ (0 ≤ (lyric28.update ws10 { start := some (-5), end_ := some 20 } none).1.start
      ∧ (lyric28.update ws10 { start := some (-5), end_ := some 20 } none).1.start
          ≤ (lyric28.update ws10 { start := some (-5), end_ := some 20 } none).1.end_
      ∧ (lyric28.update ws10 { start := some (-5), end_ := some 20 } none).1.end_
          ≤ ws10.duration) := by
  rw [update_start, update_end]
  simp only [Option.getD, ws10]
  norm_num

/-- C1 (amended): `update` stores the supplied `start` and `end` as they are (a bound that
is not supplied keeps its value) and clamps only the rendered geometry; so afterwards
`0 <= start <= end <= duration` holds exactly when the merged values satisfy it. -/
theorem update_stores_bounds (l : Lyric) (ws : WaveSurfer) (p : UpdateParams)
    (ep : Option EventParams) :
    (l.update ws p ep).1.start = p.start.getD l.start
    ∧ (l.update ws p ep).1.end_ = p.end_.getD l.end_
    ∧ ((0 ≤ (l.update ws p ep).1.start
          ∧ (l.update ws p ep).1.start ≤ (l.update ws p ep).1.end_
          ∧ (l.update ws p ep).1.end_ ≤ ws.duration)
        ↔ (0 ≤ p.start.getD l.start ∧ p.start.getD l.start ≤ p.end_.getD l.end_
          ∧ p.end_.getD l.end_ ≤ ws.duration)) := by
  rw [update_start, update_end]
  exact ⟨rfl, rfl, Iff.rfl⟩

theorem updateRender_keeps {β : Type} (g : Lyric → β)
    (h : ∀ (l : Lyric) (e : Option Element), g { l with element := e } = g l)
    (l : Lyric) (ws : WaveSurfer) : g (l.updateRender ws) = g l := by
  unfold Lyric.updateRender
  cases l.element with
  | none => rfl
  | some e => exact h l _

/-- C5: `update` is a partial patch. It never changes `id`, and each of `start`, `end`,
`loop`, `color`, `data`, `attributes`, `drag`, `resize`, `minLength`, `maxLength` and
`handleStyle` that is absent (or null) in the partial keeps its value. -/
theorem update_partial_patch (l : Lyric) (ws : WaveSurfer) (p : UpdateParams)
    (ep : Option EventParams) :
    (l.update ws p ep).1.id = l.id
    ∧ (p.start = none → (l.update ws p ep).1.start = l.start)
    ∧ (p.end_ = none → (l.update ws p ep).1.end_ = l.end_)
    ∧ (p.loop = none → (l.update ws p ep).1.loop = l.loop)
    ∧ (p.color = none → (l.update ws p ep).1.color = l.color)
    ∧ (p.data = none → (l.update ws p ep).1.data = l.data)
    ∧ (p.attributes = none → (l.update ws p ep).1.attributes = l.attributes)
    ∧ (p.drag = none → (l.update ws p ep).1.drag = l.drag)
    ∧ (p.resize = none → (l.update ws p ep).1.resize = l.resize)
    ∧ (p.minLength = none → (l.update ws p ep).1.minLength = l.minLength)
    ∧ (p.maxLength = none → (l.update ws p ep).1.maxLength = l.maxLength)
    ∧ (p.handleStyle = none → (l.update ws p ep).1.handleStyle = l.handleStyle) := by
  refine ⟨?_, ?_, ?_, ?_, ?_, ?_, ?_, ?_, ?_, ?_, ?_, ?_⟩
  · simp only [Lyric.update]
    rw [updateRender_keeps Lyric.id (fun _ _ => rfl)]
    repeat (rw [whenSet_keeps Lyric.id _ _ _ ?_]; swap; exact fun _ _ => rfl)
    exact whenSet_keeps Lyric.id _ _ _ (fun _ _ => rfl)
  · intro h
    rw [update_start, h]
    rfl
  · intro h
    rw [update_end, h]
    rfl
  · intro h
    simp only [Lyric.update]
    rw [updateRender_keeps Lyric.loop (fun _ _ => rfl)]
    repeat (first
      | rw [h, whenSet_none]
      | (rw [whenSet_keeps Lyric.loop _ _ _ ?_]; swap; exact fun _ _ => rfl))
    exact whenSet_keeps Lyric.loop _ _ _ (fun _ _ => rfl)
  · intro h
    simp only [Lyric.update]
    rw [updateRender_keeps Lyric.color (fun _ _ => rfl)]
    repeat (first
      | rw [h, whenSet_none]
      | (rw [whenSet_keeps Lyric.color _ _ _ ?_]; swap; exact fun _ _ => rfl))
    exact whenSet_keeps Lyric.color _ _ _ (fun _ _ => rfl)
  · intro h
    simp only [Lyric.update]
    rw [updateRender_keeps Lyric.data (fun _ _ => rfl)]
    repeat (first
      | rw [h, whenSet_none]
      | (rw [whenSet_keeps Lyric.data _ _ _ ?_]; swap; exact fun _ _ => rfl))
    exact whenSet_keeps Lyric.data _ _ _ (fun _ _ => rfl)
  · intro h
    simp only [Lyric.update]
    rw [updateRender_keeps Lyric.attributes (fun _ _ => rfl)]
    repeat (first
      | rw [h, whenSet_none]
      | (rw [whenSet_keeps Lyric.attributes _ _ _ ?_]; swap; exact fun _ _ => rfl))
    exact whenSet_keeps Lyric.attributes _ _ _ (fun _ _ => rfl)
  · intro h
    simp only [Lyric.update]
    rw [updateRender_keeps Lyric.drag (fun _ _ => rfl)]
    repeat (first
      | rw [h, whenSet_none]
      | (rw [whenSet_keeps Lyric.drag _ _ _ ?_]; swap; exact fun _ _ => rfl))
    exact whenSet_keeps Lyric.drag _ _ _ (fun _ _ => rfl)
  · intro h
    simp only [Lyric.update]
    rw [updateRender_keeps Lyric.resize (fun _ _ => rfl)]
    repeat (first
      | rw [h, whenSet_none]
      | (rw [whenSet_keeps Lyric.resize _ _ _ ?_]; swap; exact fun _ _ => rfl))
    exact whenSet_keeps Lyric.resize _ _ _ (fun _ _ => rfl)
  · intro h
    simp only [Lyric.update]
    rw [updateRender_keeps Lyric.minLength (fun _ _ => rfl)]
    repeat (first
      | rw [h, whenSet_none]
      | (rw [whenSet_keeps Lyric.minLength _ _ _ ?_]; swap; exact fun _ _ => rfl))
    exact whenSet_keeps Lyric.minLength _ _ _ (fun _ _ => rfl)
  · intro h
    simp only [Lyric.update]
    rw [updateRender_keeps Lyric.maxLength (fun _ _ => rfl)]
    repeat (first
      | rw [h, whenSet_none]
      | (rw [whenSet_keeps Lyric.maxLength _ _ _ ?_]; swap; exact fun _ _ => rfl))
    exact whenSet_keeps Lyric.maxLength _ _ _ (fun _ _ => rfl)
  · intro h
    simp only [Lyric.update]
    rw [updateRender_keeps Lyric.handleStyle (fun _ _ => rfl)]
    repeat (first
      | rw [h, whenSet_none]
      | (rw [whenSet_keeps Lyric.handleStyle _ _ _ ?_]; swap; exact fun _ _ => rfl))
    exact whenSet_keeps Lyric.handleStyle _ _ _ (fun _ _ => rfl)

/-- C5, the instance of the specification: an update that supplies only `color` leaves
`id`, `start`, `end` and `loop` of the lyric `[2, 8]` as they were. -/
theorem update_partial_patch_witness :
    (lyric28.update ws10 { color := some "x" } none).1.id = "a"
    ∧ (lyric28.update ws10 { color := some "x" } none).1.start = 2
    ∧ (lyric28.update ws10 { color := some "x" } none).1.end_ = 8
    ∧ (lyric28.update ws10 { color := some "x" } none).1.loop = false :=
  have h := update_partial_patch lyric28 ws10 { color := some "x" } none
  ⟨h.1, h.2.1 rfl, h.2.2.1 rfl, h.2.2.2.1 rfl⟩

/-! ### Dragging -/

/-- The shift `onDrag` applies after its two guards. -/
theorem onDrag_bounds (l : Lyric) (ws : WaveSurfer) (delta : ℚ) :
    (l.onDrag ws delta).1.start = l.start +
        (if l.start + (if l.end_ + delta > ws.duration then ws.duration - l.end_ else delta) < 0
          then l.start * -1
          else (if l.end_ + delta > ws.duration then ws.duration - l.end_ else delta))
    ∧ (l.onDrag ws delta).1.end_ = l.end_ +
        (if l.start + (if l.end_ + delta > ws.duration then ws.duration - l.end_ else delta) < 0
          then l.start * -1
          else (if l.end_ + delta > ws.duration then ws.duration - l.end_ else delta)) := by
  unfold Lyric.onDrag
  constructor
  · rw [update_start]
    rfl
  · rw [update_end]
    rfl

/-- C9: for a lyric with `0 <= start <= end <= duration` and any `delta`, `onDrag(delta)`
keeps `end - start`, keeps `0 <= start <= end <= duration`, and shifts both bounds by
`delta` clamped into `[-start, duration - end]`. -/
theorem onDrag_clamps (l : Lyric) (ws : WaveSurfer) (delta : ℚ)
    (h0 : 0 ≤ l.start) (h1 : l.start ≤ l.end_) (h2 : l.end_ ≤ ws.duration) :
    (l.onDrag ws delta).1.end_ - (l.onDrag ws delta).1.start = l.end_ - l.start
    ∧ 0 ≤ (l.onDrag ws delta).1.start
    ∧ (l.onDrag ws delta).1.start ≤ (l.onDrag ws delta).1.end_
    ∧ (l.onDrag ws delta).1.end_ ≤ ws.duration
    ∧ (l.onDrag ws delta).1.start
        = l.start + max (-l.start) (min delta (ws.duration - l.end_))
    ∧ (l.onDrag ws delta).1.end_
        = l.end_ + max (-l.start) (min delta (ws.duration - l.end_)) := by
  obtain ⟨hs, he⟩ := onDrag_bounds l ws delta
  rw [hs, he]
  by_cases c1 : l.end_ + delta > ws.duration
  · simp only [c1, if_true]
    have hmin : min delta (ws.duration - l.end_) = ws.duration - l.end_ :=
      min_eq_right (by linarith)
    have c2 : ¬ (l.start + (ws.duration - l.end_) < 0) := by linarith
    have hmax : max (-l.start) (ws.duration - l.end_) = ws.duration - l.end_ :=
      max_eq_right (by linarith)
    simp only [c2, if_false, hmin, hmax]
    refine ⟨by ring, by linarith, by linarith, by linarith, ?_, ?_⟩ <;> trivial
  · simp only [c1, if_false]
    have hmin : min delta (ws.duration - l.end_) = delta :=
      min_eq_left (by linarith)
    by_cases c2 : l.start + delta < 0
    · have hmax : max (-l.start) delta = -l.start := max_eq_left (by linarith)
      simp only [c2, if_true, hmin, hmax]
      refine ⟨by ring, by linarith, by linarith, by linarith, by ring, by ring⟩
    · have hmax : max (-l.start) delta = delta := max_eq_right (by linarith)
      simp only [c2, if_false, hmin, hmax]
      refine ⟨by ring, by linarith, by linarith, by linarith, ?_, ?_⟩ <;> trivial

theorem onDrag_clamps_witness :
    (lyric28.onDrag ws10 (-7)).1.end_ - (lyric28.onDrag ws10 (-7)).1.start
        = lyric28.end_ - lyric28.start
    ∧ 0 ≤ (lyric28.onDrag ws10 (-7)).1.start
    ∧ (lyric28.onDrag ws10 (-7)).1.start ≤ (lyric28.onDrag ws10 (-7)).1.end_
    ∧ (lyric28.onDrag ws10 (-7)).1.end_ ≤ ws10.duration
    ∧ (lyric28.onDrag ws10 (-7)).1.start
        = lyric28.start + max (-lyric28.start) (min (-7) (ws10.duration - lyric28.end_))
    ∧ (lyric28.onDrag ws10 (-7)).1.end_
        = lyric28.end_ + max (-lyric28.start) (min (-7) (ws10.duration - lyric28.end_)) :=
  onDrag_clamps lyric28 ws10 (-7) (by simp [lyric28]) (by simp [lyric28]; norm_num)
    (by simp [lyric28, ws10]; norm_num)

/-- The claim C10 fails: on the lyric `[2, 8]` with duration 10, `onDrag(5)` does not
yield `start = 5`, `end = 10`. -/
theorem onDrag_example_not_5_10 :
    ¬ ((lyric28.onDrag ws10 5).1.start = 5 ∧ (lyric28.onDrag ws10 5).1.end_ = 10) := by
  obtain ⟨hs, -⟩ := onDrag_bounds lyric28 ws10 5
  rw [hs]
  simp only [lyric28, ws10]
  norm_num

/-- C10 (amended): for a lyric with `start = 2`, `end = 8` on a timeline of duration 10,
`onDrag(5)` yields `start = 4` and `end = 10` (the shift is cut to 2, the length 6 is kept). -/
theorem onDrag_example_4_10 (l : Lyric) (ws : WaveSurfer)
    (hs : l.start = 2) (he : l.end_ = 8) (hd : ws.duration = 10) :
    (l.onDrag ws 5).1.start = 4 ∧ (l.onDrag ws 5).1.end_ = 10 := by
  obtain ⟨h1, h2⟩ := onDrag_bounds l ws 5
  rw [h1, h2, hs, he, hd]
  norm_num

theorem onDrag_example_4_10_witness :
    (lyric28.onDrag ws10 5).1.start = 4 ∧ (lyric28.onDrag ws10 5).1.end_ = 10 :=
  onDrag_example_4_10 lyric28 ws10 rfl rfl rfl

/-! ### The store -/

/-- C6: a store whose `maxLyrics` is a positive integer `n` and that holds `n` or more
lyrics answers `add(params)` with `null`, stays as it is and fires no event. -/
theorem add_at_capacity (p : LyricsPlugin) (ws : WaveSurfer) (params : LyricParams)
    (freshId : String) (n : ℕ) (hn : 0 < n) (hmax : p.maxLyrics = some (n : ℚ))
    (hlen : n ≤ p.list.length) :
    p.add ws params freshId = (none, p, []) := by
  have hne : (n : ℚ) ≠ 0 := by
    have : (0 : ℚ) < n := by exact_mod_cast hn
    exact ne_of_gt this
  have hge : ((p.keys.length : ℕ) : ℚ) ≥ (n : ℚ) := by
    have : p.keys.length = p.list.length := by simp [LyricsPlugin.keys]
    rw [this]
    exact_mod_cast hlen
  have hw : p.wouldExceedMaxLyrics = true := by
    unfold LyricsPlugin.wouldExceedMaxLyrics
    rw [hmax]
    simp only [Bool.and_eq_true, decide_eq_true_eq]
    exact ⟨hne, hge⟩
  unfold LyricsPlugin.add
  rw [hw]
  rfl

theorem add_at_capacity_witness :
    storeAB.add ws10 { start := some 1, end_ := some 2 } "c" = (none, storeAB, []) :=
  add_at_capacity storeAB ws10 { start := some 1, end_ := some 2 } "c" 2 (by decide) rfl
    (by decide)

/-- In an object (each key once), the property read of a stored key is its value. -/
theorem objGet_of_mem (list : List (String × Lyric)) (hnd : (list.map Prod.fst).Nodup)
    (k : String) (v : Lyric) (hm : (k, v) ∈ list) : objGet list k = some v := by
  induction list with
  | nil => cases hm
  | cons x rest ih =>
    obtain ⟨k0, v0⟩ := x
    simp only [List.map_cons, List.nodup_cons] at hnd
    simp only [List.mem_cons] at hm
    unfold objGet
    rcases hm with hm | hm
    · cases hm
      simp
    · have hk : k0 ≠ k := by
        intro e
        apply hnd.1
        rw [e]
        exact List.mem_map_of_mem Prod.fst hm
      simp only [hk, if_false]
      exact ih hnd.2 hm

/-- Reading every key of an object in enumeration order yields its values in order. -/
theorem filterMap_objGet_keys (list : List (String × Lyric))
    (hnd : (list.map Prod.fst).Nodup) :
    (list.map Prod.fst).filterMap (fun k => objGet list k) = list.map Prod.snd := by
  have key : ∀ (xs : List (String × Lyric)), (∀ x ∈ xs, objGet list x.1 = some x.2) →
      (xs.map Prod.fst).filterMap (fun k => objGet list k) = xs.map Prod.snd := by
    intro xs
    induction xs with
    | nil => intro _; rfl
    | cons x rest ih =>
      intro h
      have hx := h x (List.mem_cons_self _ _)
      simp only [List.map_cons]
      rw [List.filterMap_cons_some hx, ih (fun y hy => h y (List.mem_cons_of_mem _ hy))]
  exact key list (fun x hx => objGet_of_mem list hnd x.1 x.2 hx)

theorem bestOf_step (time : ℚ) (seen : List Lyric) (min : Option Lyric) (cur : Lyric)
    (h : BestOf time seen min) : BestOf time (seen ++ [cur]) (currentStep time min cur) := by
  unfold currentStep
  by_cases hc : cur.start ≤ time ∧ cur.end_ ≥ time
  · rw [if_pos hc]
    rcases h with ⟨hn, hall⟩ | ⟨m, pre, post, hm, hseen, hcov, hpre, hpost⟩
    · subst hn
      right
      refine ⟨cur, seen, [], rfl, rfl, hc, ?_, ?_⟩
      · intro c hcs hcc
        exact absurd hcc (hall c hcs)
      · intro c hcs
        cases hcs
    · subst hm
      right
      by_cases hlt : cur.end_ - cur.start < m.end_ - m.start
      · simp only [hlt, if_true]
        refine ⟨cur, seen, [], rfl, rfl, hc, ?_, ?_⟩
        · intro c hcs hcc
          rw [hseen] at hcs
          rcases List.mem_append.1 hcs with h1 | h1
          · exact lt_trans hlt (hpre c h1 hcc)
          · rcases List.mem_cons.1 h1 with h2 | h2
            · rw [h2]; exact hlt
            · exact lt_of_lt_of_le hlt (hpost c h2 hcc)
        · intro c hcs
          cases hcs
      · simp only [hlt, if_false]
        refine ⟨m, pre, post ++ [cur], rfl, ?_, hcov, hpre, ?_⟩
        · rw [hseen]; simp
        · intro c hcs hcc
          rcases List.mem_append.1 hcs with h1 | h1
          · exact hpost c h1 hcc
          · rw [List.mem_singleton.1 h1]
            exact not_lt.1 hlt
  · rw [if_neg hc]
    rcases h with ⟨hn, hall⟩ | ⟨m, pre, post, hm, hseen, hcov, hpre, hpost⟩
    · left
      refine ⟨hn, ?_⟩
      intro c hcs
      rcases List.mem_append.1 hcs with h1 | h1
      · exact hall c h1
      · rw [List.mem_singleton.1 h1]
        exact hc
    · right
      refine ⟨m, pre, post ++ [cur], hm, ?_, hcov, hpre, ?_⟩
      · rw [hseen]; simp
      · intro c hcs hcc
        rcases List.mem_append.1 hcs with h1 | h1
        · exact hpost c h1 hcc
        · rw [List.mem_singleton.1 h1] at hcc
          exact absurd hcc hc

theorem bestOf_foldl (time : ℚ) (rest seen : List Lyric) (min : Option Lyric)
    (h : BestOf time seen min) :
    BestOf time (seen ++ rest) (rest.foldl (currentStep time) min) := by
  induction rest generalizing seen min with
  | nil => simpa using h
  | cons x rest ih =>
    have := ih (seen ++ [x]) (currentStep time min x) (bestOf_step time seen min x h)
    simpa using this

/-- The loop of `getCurrentLyric` over the keys is the loop of its body over the lyrics. -/
theorem getCurrentLyric_eq_foldl (p : LyricsPlugin) (ws : WaveSurfer)
    (hnd : p.keys.Nodup) :
    p.getCurrentLyric ws = p.lyrics.foldl (currentStep ws.currentTime) none := by
  unfold LyricsPlugin.getCurrentLyric LyricsPlugin.lyrics
  rw [← filterMap_objGet_keys p.list hnd]
  unfold LyricsPlugin.keys
  generalize (List.map Prod.fst p.list) = ks
  generalize (none : Option Lyric) = acc
  induction ks generalizing acc with
  | nil => rfl
  | cons k ks ih =>
    simp only [List.foldl_cons]
    cases hk : objGet p.list k with
    | none =>
      rw [List.filterMap_cons_none hk]
      exact ih acc
    | some v =>
      rw [List.filterMap_cons_some hk]
      simp only [List.foldl_cons]
      exact ih _

/-- C7: `getCurrentLyric` returns `null` exactly when no stored lyric covers the current
time; otherwise it returns a covering lyric of minimal span `end - start`, the first such
in key enumeration order: every covering lyric before it has a strictly larger span and
every covering lyric after it a span at least as large. -/
theorem getCurrentLyric_smallest_first (p : LyricsPlugin) (ws : WaveSurfer)
    (hnd : p.keys.Nodup) :
    (p.getCurrentLyric ws = none ↔ ∀ c ∈ p.lyrics, ¬ covers ws.currentTime c)
    ∧ ∀ m, p.getCurrentLyric ws = some m →
        ∃ pre post, p.lyrics = pre ++ m :: post ∧ covers ws.currentTime m
          ∧ (∀ c ∈ pre, covers ws.currentTime c → m.end_ - m.start < c.end_ - c.start)
          ∧ (∀ c ∈ post, covers ws.currentTime c → m.end_ - m.start ≤ c.end_ - c.start) := by
  have hb : BestOf ws.currentTime p.lyrics (p.getCurrentLyric ws) := by
    rw [getCurrentLyric_eq_foldl p ws hnd]
    have := bestOf_foldl ws.currentTime p.lyrics [] none
      (Or.inl ⟨rfl, fun c hc => by cases hc⟩)
    simpa using this
  refine ⟨⟨?_, ?_⟩, ?_⟩
  · intro hn
    rcases hb with ⟨-, hall⟩ | ⟨m, pre, post, hm, -, -, -, -⟩
    · exact hall
    · rw [hn] at hm
      cases hm
  · intro hall
    rcases hb with ⟨hn, -⟩ | ⟨m, pre, post, -, hseen, hcov, -, -⟩
    · exact hn
    · exfalso
      apply hall m _ hcov
      rw [hseen]
      simp
  · intro m hm
    rcases hb with ⟨hn, -⟩ | ⟨m1, pre, post, hm1, hseen, hcov, hpre, hpost⟩
    · rw [hn] at hm
      cases hm
    · rw [hm1] at hm
      cases hm
      exact ⟨pre, post, hseen, hcov, hpre, hpost⟩

/-- C7, the example of the specification: with `A = [0, 10]` and `B = [4, 6]` stored in
this order and the current time 5, `getCurrentLyric` returns `B`. -/
theorem getCurrentLyric_smallest_first_witness :
    storeAB.keys.Nodup ∧ storeAB.getCurrentLyric ws10 = some lyricB
    ∧ ∃ pre post, storeAB.lyrics = pre ++ lyricB :: post ∧ covers ws10.currentTime lyricB
        ∧ (∀ c ∈ pre, covers ws10.currentTime c
            → lyricB.end_ - lyricB.start < c.end_ - c.start)
        ∧ (∀ c ∈ post, covers ws10.currentTime c
            → lyricB.end_ - lyricB.start ≤ c.end_ - c.start) :=
  have hnd : storeAB.keys.Nodup := by decide
  have he : storeAB.getCurrentLyric ws10 = some lyricB := by
    simp [LyricsPlugin.getCurrentLyric, LyricsPlugin.keys, storeAB, objGet, currentStep,
      lyricA, lyricB, lyric28, ws10]
    norm_num
  ⟨hnd, he, (getCurrentLyric_smallest_first storeAB ws10 hnd).2 lyricB he⟩

/-! ### Sorting -/

/-- A stored key reads the `start` of its lyric. -/
theorem startOf_of_objGet (list : List (String × Lyric)) (k : String) (v : Lyric)
    (h : objGet list k = some v) : startOf list k = v.start := by
  unfold startOf
  rw [h]

/-- The keys with a given `start` keep their relative order under `arraySort`. -/
theorem arraySort_stable (list : List (String × Lyric)) (keys : List String) (s : ℚ) :
    (arraySort (fun a b => startOf list a - startOf list b) keys).filter
        (fun k => decide (startOf list k = s))
      = keys.filter (fun k => decide (startOf list k = s)) := by
  unfold arraySort
  have hsub : List.Sublist (keys.filter (fun k => decide (startOf list k = s))) keys :=
    List.filter_sublist _
  have hpw : (keys.filter (fun k => decide (startOf list k = s))).Pairwise
      (fun a b => startOf list a - startOf list b ≤ 0) := by
    rw [List.pairwise_iff_forall_sublist]
    intro a b hab
    have ha : a ∈ keys.filter (fun k => decide (startOf list k = s)) :=
      hab.subset (by simp)
    have hb : b ∈ keys.filter (fun k => decide (startOf list k = s)) :=
      hab.subset (by simp)
    simp only [List.mem_filter, decide_eq_true_eq] at ha hb
    rw [ha.2, hb.2]
    simp
  have h1 := List.sublist_insertionSort hpw hsub
  have h2 := h1.filter (fun k => decide (startOf list k = s))
  rw [List.filter_filter] at h2
  simp only [Bool.and_self] at h2
  have hperm := (List.perm_insertionSort
    (fun a b => startOf list a - startOf list b ≤ 0) keys).filter
    (fun k => decide (startOf list k = s))
  exact (h2.eq_of_length hperm.length_eq.symm).symm

/-- C8: `getSortedLyrics` returns a permutation of the stored lyrics (so the same number
of lyrics, each exactly once), ascending by `start` (every earlier element's `start` is at
most every later element's, adjacent pairs included), and lyrics with the same `start`
come in the store's key enumeration order. -/
theorem getSortedLyrics_sorted_perm_stable (p : LyricsPlugin) (hnd : p.keys.Nodup) :
    p.getSortedLyrics.Perm p.lyrics
    ∧ p.getSortedLyrics.length = p.lyrics.length
    ∧ p.getSortedLyrics.Pairwise (fun a b => a.start ≤ b.start)
    ∧ p.getSortedLyrics.Chain' (fun a b => a.start ≤ b.start)
    ∧ ∀ s : ℚ, p.getSortedLyrics.filter (fun l => decide (l.start = s))
        = p.lyrics.filter (fun l => decide (l.start = s)) := by
  have hvals : p.keys.filterMap (fun k => objGet p.list k) = p.lyrics :=
    filterMap_objGet_keys p.list hnd
  have hperm : p.getSortedLyrics.Perm p.lyrics := by
    rw [← hvals]
    unfold LyricsPlugin.getSortedLyrics arraySort
    exact (List.perm_insertionSort _ _).filterMap _
  have hsorted : p.getSortedLyrics.Pairwise (fun a b => a.start ≤ b.start) := by
    unfold LyricsPlugin.getSortedLyrics arraySort
    rw [List.pairwise_filterMap]
    haveI : IsTotal String (fun a b => startOf p.list a - startOf p.list b ≤ 0) :=
      ⟨fun a b => by
        rcases le_total (startOf p.list a) (startOf p.list b) with h | h
        · left; linarith
        · right; linarith⟩
    haveI : IsTrans String (fun a b => startOf p.list a - startOf p.list b ≤ 0) :=
      ⟨fun a b c hab hbc => by
        have h1 : startOf p.list a - startOf p.list b ≤ 0 := hab
        have h2 : startOf p.list b - startOf p.list c ≤ 0 := hbc
        show startOf p.list a - startOf p.list c ≤ 0
        linarith⟩
    have hs := List.sorted_insertionSort
      (fun a b => startOf p.list a - startOf p.list b ≤ 0) p.keys
    refine List.Pairwise.imp ?_ hs
    intro a b hab x hx y hy
    have hx1 : objGet p.list a = some x := hx
    have hy1 : objGet p.list b = some y := hy
    rw [← startOf_of_objGet p.list a x hx1, ← startOf_of_objGet p.list b y hy1]
    have h1 : startOf p.list a - startOf p.list b ≤ 0 := hab
    linarith
  refine ⟨hperm, hperm.length_eq, hsorted, List.Pairwise.chain' hsorted, ?_⟩
  intro s
  rw [← hvals]
  unfold LyricsPlugin.getSortedLyrics
  rw [List.filter_filterMap, List.filter_filterMap]
  have hfun : (fun k => Option.filter (fun l => decide (l.start = s)) (objGet p.list k))
      = (fun k => if decide (startOf p.list k = s) = true then objGet p.list k else none) := by
    funext k
    cases hk : objGet p.list k with
    | none => simp [Option.filter]
    | some v =>
      rw [startOf_of_objGet p.list k v hk]
      simp [Option.filter]
  rw [hfun, ← List.filterMap_filter, ← List.filterMap_filter, arraySort_stable]

/-- C8 on the store enumerating `B = [4, 6]`, `A = [0, 10]`, `C = [4, 9]`: the sorted
list is `A`, `B`, `C`, with `B` still before `C`. -/
theorem getSortedLyrics_sorted_perm_stable_witness :
    storeBAC.keys.Nodup
    ∧ storeBAC.getSortedLyrics = [lyricA, lyricB, lyricC]
    ∧ storeBAC.getSortedLyrics.Perm storeBAC.lyrics
    ∧ storeBAC.getSortedLyrics.Pairwise (fun a b => a.start ≤ b.start)
    ∧ storeBAC.getSortedLyrics.filter (fun l => decide (l.start = 4))
        = storeBAC.lyrics.filter (fun l => decide (l.start = 4)) :=
  have hnd : storeBAC.keys.Nodup := by decide
  have he : storeBAC.getSortedLyrics = [lyricA, lyricB, lyricC] := by
    simp [LyricsPlugin.getSortedLyrics, LyricsPlugin.keys, arraySort, storeBAC, startOf,
      objGet, lyricA, lyricB, lyricC, lyric28]
    norm_num
    rfl
  have h := getSortedLyrics_sorted_perm_stable storeBAC hnd
  ⟨hnd, he, h.1, h.2.2.1, h.2.2.2.2 4⟩

/-- The sample lyrics are what the constructor builds on `ws10`. -/
theorem samples_constructed :
    (Lyric.new { id := some "a", start := some 2, end_ := some 8 } ws10 "x").1 = lyric28
    ∧ (Lyric.new { id := some "A", start := some 0, end_ := some 10 } ws10 "x").1 = lyricA
    ∧ (Lyric.new { id := some "B", start := some 4, end_ := some 6 } ws10 "x").1 = lyricB
    ∧ (Lyric.new { id := some "C", start := some 4, end_ := some 9 } ws10 "x").1 = lyricC := by
  refine ⟨?_, ?_, ?_, ?_⟩ <;>
    simp [Lyric.new, Lyric.updateRender, limited, orElse, mathRound, ws10, lyric28, lyricA,
      lyricB, lyricC] <;> norm_num

/-! ### Resizing -/

/-- C11: for a lyric with `minLength = m >= 0` and `end - start >= m`, and `delta > 0`,
`onResize(delta, 'start')` leaves `end` unchanged and sets `start` to
`min(start + delta, end - m)`. -/
theorem onResize_start_minLength (l : Lyric) (ws : WaveSurfer) (delta m : ℚ)
    (hm : l.minLength = some m) (h0 : 0 ≤ m) (hspan : l.end_ - l.start ≥ m)
    (hd : 0 < delta) :
    (l.onResize ws delta Side.start).1.end_ = l.end_
    ∧ (l.onResize ws delta Side.start).1.start = min (l.start + delta) (l.end_ - m) := by
  simp only [Lyric.onResize, update_start, update_end, Option.getD, hm]
  by_cases c : delta > 0 ∧ l.end_ - (l.start + delta) < m
  · rw [if_pos c]
    have hnn : ¬ (l.end_ - m - l.start < 0) := by linarith
    have e1 : (match l.maxLength with
        | some maxLength =>
          if l.end_ - m - l.start < 0 ∧ l.end_ - (l.start + (l.end_ - m - l.start)) > maxLength
          then l.end_ - l.start - maxLength else l.end_ - m - l.start
        | none => l.end_ - m - l.start) = l.end_ - m - l.start := by
      cases l.maxLength with
      | none => rfl
      | some M => simp only [hnn, false_and, if_false]
    rw [e1]
    simp only [hnn, false_and, if_false]
    have e2 : l.start + (l.end_ - m - l.start) = l.end_ - m := by ring
    rw [e2]
    refine ⟨max_eq_right (by linarith), ?_⟩
    rw [min_eq_left (by linarith), min_eq_right (by linarith [c.2])]
  · rw [if_neg c]
    have hnn : ¬ (delta < 0) := by linarith
    have e1 : (match l.maxLength with
        | some maxLength =>
          if delta < 0 ∧ l.end_ - (l.start + delta) > maxLength
          then l.end_ - l.start - maxLength else delta
        | none => delta) = delta := by
      cases l.maxLength with
      | none => rfl
      | some M => simp only [hnn, false_and, if_false]
    rw [e1]
    simp only [hnn, false_and, if_false]
    have hle : l.start + delta ≤ l.end_ - m := by
      by_contra hc
      exact c ⟨hd, by linarith⟩
    refine ⟨max_eq_right (by linarith), ?_⟩
    rw [min_eq_left (by linarith), min_eq_left hle]

/-- C11, the example of the specification: on `[2, 8]` with `minLength = 3`,
`onResize(5, 'start')` yields `start = 5`, `end = 8`; so does, through the pointer
handlers of the resizable lyric, grabbing the start handle at time 2 and moving it to
time 7. -/
theorem onResize_start_minLength_witness :
    (lyric28min3.onResize ws10 5 Side.start).1.start = 5
    ∧ (lyric28min3.onResize ws10 5 Side.start).1.end_ = 8
    ∧ (DragSession.run {} ws10 { lyric := { lyric28min3 with resize := true }, st := {} }
        [DragInput.down (mouseOnStartHandle (2 / 10)),
          DragInput.move (mouseAt (7 / 10))]).1.lyric.start = 5
    ∧ (DragSession.run {} ws10 { lyric := { lyric28min3 with resize := true }, st := {} }
        [DragInput.down (mouseOnStartHandle (2 / 10)),
          DragInput.move (mouseAt (7 / 10))]).1.lyric.end_ = 8 := by
  have h := onResize_start_minLength lyric28min3 ws10 5 3 rfl (by norm_num)
    (by simp [lyric28min3, lyric28]; norm_num) (by norm_num)
  refine ⟨?_, h.1, by decide!, by decide!⟩
  rw [h.2]
  simp [lyric28min3, lyric28]
  norm_num

/-- C12: after `onResize(delta, side)` the lyric has `start <= end`, whatever its bounds,
its `minLength` and `maxLength` (set or not), `delta` and the side. -/
theorem onResize_start_le_end (l : Lyric) (ws : WaveSurfer) (delta : ℚ) (side : Side) :
    (l.onResize ws delta side).1.start ≤ (l.onResize ws delta side).1.end_ := by
  cases side <;>
    simp only [Lyric.onResize, update_start, update_end, Option.getD] <;>
    exact min_le_max

/-- The claim C13 fails: on `[2, 8]` with `minLength` unset and duration 10,
`onResize(20, 'start')` carries the start handle past the end; the bounds are swapped and
the new `end` is 22, beyond the duration. -/
theorem onResize_flip_out_of_range :
    ¬ (0 ≤ (lyric28.onResize ws10 20 Side.start).1.start
      ∧ (lyric28.onResize ws10 20 Side.start).1.end_ ≤ ws10.duration) := by
  simp only [Lyric.onResize, update_start, update_end, Option.getD, lyric28, ws10]
  norm_num

theorem startGuard_low (s d : ℚ) (hs : 0 ≤ s) :
    0 ≤ s + (if d < 0 ∧ s + d < 0 then s * -1 else d) := by
  simp only [ite_and]
  split_ifs <;> linarith

theorem startGuard_high (s d dur : ℚ) (hdur : 0 ≤ dur) (h : s + d ≤ dur) :
    s + (if d < 0 ∧ s + d < 0 then s * -1 else d) ≤ dur := by
  simp only [ite_and]
  split_ifs <;> linarith

theorem endGuard_high (e d dur : ℚ) (he : e ≤ dur) :
    e + (if d > 0 ∧ e + d > dur then dur - e else d) ≤ dur := by
  simp only [ite_and]
  split_ifs <;> linarith

theorem endGuard_low (e d dur : ℚ) (hdur : 0 ≤ dur) (h : 0 ≤ e + d) :
    0 ≤ e + (if d > 0 ∧ e + d > dur then dur - e else d) := by
  simp only [ite_and]
  split_ifs <;> linarith

/-- C13 (amended): for a lyric with `0 <= start <= end <= duration` whose `maxLength` is
unset or `>= 0`, and for a `delta` and side such that either `minLength` is set and `>= 0`
or the moved handle does not pass the opposite bound (`start + delta <= end` on `'start'`,
`end + delta >= start` on `'end'`), `onResize(delta, side)` leaves `0 <= start` and
`end <= duration`. -/
theorem onResize_in_range (l : Lyric) (ws : WaveSurfer) (delta : ℚ) (side : Side)
    (h0 : 0 ≤ l.start) (h1 : l.start ≤ l.end_) (h2 : l.end_ ≤ ws.duration)
    (hmax : ∀ M, l.maxLength = some M → 0 ≤ M)
    (hflip : (∃ m, l.minLength = some m ∧ 0 ≤ m)
      ∨ ((side = Side.start → l.start + delta ≤ l.end_)
        ∧ (side = Side.end_ → l.start ≤ l.end_ + delta))) :
    0 ≤ (l.onResize ws delta side).1.start
    ∧ (l.onResize ws delta side).1.end_ ≤ ws.duration := by
  have he0 : 0 ≤ l.end_ := le_trans h0 h1
  have hsd : l.start ≤ ws.duration := le_trans h1 h2
  have hdur : 0 ≤ ws.duration := le_trans he0 h2
  cases side with
  | start =>
    simp only [Lyric.onResize, update_start, update_end, Option.getD]
    have hnp : (∃ m, l.minLength = some m ∧ 0 ≤ m) ∨ l.start + delta ≤ l.end_ := by
      rcases hflip with h | h
      · exact Or.inl h
      · exact Or.inr (h.1 rfl)
    clear hflip
    refine ⟨le_min (startGuard_low _ _ h0) he0, max_le ?_ h2⟩
    · refine startGuard_high _ _ _ hdur ?_
      rcases hnp with ⟨m, hm, hm0⟩ | hnp
      · simp only [hm]
        cases hM : l.maxLength with
        | none =>
          simp only [ite_and]
          split_ifs <;> linarith
        | some M =>
          have hM0 := hmax M hM
          simp only [ite_and]
          split_ifs <;> linarith
      · cases hmin : l.minLength with
        | none =>
          cases hM : l.maxLength with
          | none => linarith
          | some M =>
            have hM0 := hmax M hM
            simp only [ite_and]
            split_ifs <;> linarith
        | some m =>
          cases hM : l.maxLength with
          | none =>
            simp only [ite_and]
            split_ifs <;> linarith
          | some M =>
            have hM0 := hmax M hM
            simp only [ite_and]
            split_ifs <;> linarith
  | end_ =>
    simp only [Lyric.onResize, update_start, update_end, Option.getD]
    have hnp : (∃ m, l.minLength = some m ∧ 0 ≤ m) ∨ l.start ≤ l.end_ + delta := by
      rcases hflip with h | h
      · exact Or.inl h
      · exact Or.inr (h.2 rfl)
    clear hflip
    refine ⟨le_min ?_ h0, max_le (endGuard_high _ _ _ h2) hsd⟩
    · refine endGuard_low _ _ _ hdur ?_
      rcases hnp with ⟨m, hm, hm0⟩ | hnp
      · simp only [hm]
        cases hM : l.maxLength with
        | none =>
          simp only [ite_and]
          split_ifs <;> linarith
        | some M =>
          have hM0 := hmax M hM
          simp only [ite_and]
          split_ifs <;> linarith
      · cases hmin : l.minLength with
        | none =>
          cases hM : l.maxLength with
          | none => linarith
          | some M =>
            have hM0 := hmax M hM
            simp only [ite_and]
            split_ifs <;> linarith
        | some m =>
          cases hM : l.maxLength with
          | none =>
            simp only [ite_and]
            split_ifs <;> linarith
          | some M =>
            have hM0 := hmax M hM
            simp only [ite_and]
            split_ifs <;> linarith

theorem onResize_in_range_witness :
    0 ≤ (lyric28min3.onResize ws10 20 Side.start).1.start
    ∧ (lyric28min3.onResize ws10 20 Side.start).1.end_ ≤ ws10.duration :=
  onResize_in_range lyric28min3 ws10 20 Side.start (by simp [lyric28min3, lyric28])
    (by simp [lyric28min3, lyric28]; norm_num) (by simp [lyric28min3, lyric28, ws10]; norm_num)
    (by intro M h; simp [lyric28min3, lyric28] at h)
    (Or.inl ⟨3, rfl, by norm_num⟩)

/-! ### Length constraints at render -/

theorem update_minLength (l : Lyric) (ws : WaveSurfer) (p : UpdateParams)
    (ep : Option EventParams) :
    (l.update ws p ep).1.minLength
      = (match p.minLength with
        | some v => some v
        | none => l.minLength) := by
  simp only [Lyric.update]
  rw [updateRender_keeps Lyric.minLength (fun _ _ => rfl)]
  repeat (rw [whenSet_keeps Lyric.minLength _ _ _ ?_]; swap; exact fun _ _ => rfl)
  cases p.minLength with
  | some v => rfl
  | none =>
    rw [whenSet_none]
    repeat (rw [whenSet_keeps Lyric.minLength _ _ _ ?_]; swap; exact fun _ _ => rfl)
    exact whenSet_keeps Lyric.minLength _ _ _ (fun _ _ => rfl)

/-- The element written by `updateRender` holds the geometry `limited` computes from the
lyric's fields. -/
theorem updateRender_geometry (x : Lyric) (ws : WaveSurfer) (e : Element)
    (h : (x.updateRender ws).element = some e) :
    e.startLimited = (limited (x.updateRender ws).start (x.updateRender ws).end_ ws.duration
        (x.updateRender ws).minLength (x.updateRender ws).maxLength).1
    ∧ e.endLimited = (limited (x.updateRender ws).start (x.updateRender ws).end_ ws.duration
        (x.updateRender ws).minLength (x.updateRender ws).maxLength).2 := by
  rw [updateRender_keeps Lyric.start (fun _ _ => rfl),
    updateRender_keeps Lyric.end_ (fun _ _ => rfl),
    updateRender_keeps Lyric.minLength (fun _ _ => rfl),
    updateRender_keeps Lyric.maxLength (fun _ _ => rfl)]
  unfold Lyric.updateRender at h
  cases hx : x.element with
  | none =>
    rw [hx] at h
    simp only [hx] at h
    cases h
  | some e0 =>
    rw [hx] at h
    simp only [Option.some.injEq] at h
    rw [← h]
    exact ⟨rfl, rfl⟩

/-- With `minLength = m` and `maxLength` unset or at least `m`, the rendered span is at
least `m`. -/
theorem limited_span_ge (s e dur m : ℚ) (mx : Option ℚ) (hmx : ∀ M, mx = some M → m ≤ M) :
    (limited s e dur (some m) mx).2 - (limited s e dur (some m) mx).1 ≥ m := by
  unfold limited
  cases mx with
  | none =>
    simp only []
    split_ifs <;> simp only [] <;> linarith [le_max_left (0 + m) (e - 0), le_max_left (0 + m) dur,
      le_max_left (dur - (dur - 0) + m) dur, le_max_left (s + m) e,
      le_max_left (dur - (dur - s) + m) dur]
  | some M =>
    have hM := hmx M rfl
    simp only []
    split_ifs <;> simp only [] <;> rw [ge_iff_le, le_sub_iff_add_le, le_min_iff] <;>
      constructor <;> first
        | linarith
        | (rw [add_comm]; exact le_max_left _ _)

/-- The claim C14 fails: the lyric `[2, 8]` has `minLength = 3` on a timeline of duration
10 (at least `minLength`), and after `update` with `end = 3` its stored span is 1. -/
theorem update_stores_short_span :
    (lyric28min3.update ws10 { end_ := some 3 } none).1.minLength = some 3
    ∧ (3 : ℚ) ≤ ws10.duration
    ∧ ¬ ((lyric28min3.update ws10 { end_ := some 3 } none).1.end_
          - (lyric28min3.update ws10 { end_ := some 3 } none).1.start ≥ 3) := by
  refine ⟨?_, ?_, ?_⟩
  · rw [update_minLength]
    rfl
  · simp only [ws10]
    norm_num
  · rw [update_start, update_end]
    simp only [Option.getD, lyric28min3, lyric28]
    norm_num

/-- C14 (amended): when after `update(partial)` the lyric has `minLength = m` and its
`maxLength` is unset or at least `m`, the geometry that `updateRender` computes, and
writes to the element, satisfies `endLimited - startLimited >= m` (whatever the duration).
The stored `start` and `end` are the merged values, not adjusted to `minLength`. -/
theorem update_renders_minLength (l : Lyric) (ws : WaveSurfer) (p : UpdateParams)
    (ep : Option EventParams) (m : ℚ)
    (hm : (l.update ws p ep).1.minLength = some m)
    (hmx : ∀ M, (l.update ws p ep).1.maxLength = some M → m ≤ M) :
    (limited (l.update ws p ep).1.start (l.update ws p ep).1.end_ ws.duration
        (l.update ws p ep).1.minLength (l.update ws p ep).1.maxLength).2
      - (limited (l.update ws p ep).1.start (l.update ws p ep).1.end_ ws.duration
        (l.update ws p ep).1.minLength (l.update ws p ep).1.maxLength).1 ≥ m
    ∧ (∀ e, (l.update ws p ep).1.element = some e → e.endLimited - e.startLimited ≥ m)
    ∧ (l.update ws p ep).1.start = p.start.getD l.start
    ∧ (l.update ws p ep).1.end_ = p.end_.getD l.end_ := by
  have key : (limited (l.update ws p ep).1.start (l.update ws p ep).1.end_ ws.duration
        (l.update ws p ep).1.minLength (l.update ws p ep).1.maxLength).2
      - (limited (l.update ws p ep).1.start (l.update ws p ep).1.end_ ws.duration
        (l.update ws p ep).1.minLength (l.update ws p ep).1.maxLength).1 ≥ m := by
    rw [hm]
    exact limited_span_ge _ _ _ m _ hmx
  refine ⟨key, ?_, update_start l ws p ep, update_end l ws p ep⟩
  intro e he
  have hg := updateRender_geometry _ ws e he
  have hg1 : e.startLimited = (limited (l.update ws p ep).1.start (l.update ws p ep).1.end_
      ws.duration (l.update ws p ep).1.minLength (l.update ws p ep).1.maxLength).1 := hg.1
  have hg2 : e.endLimited = (limited (l.update ws p ep).1.start (l.update ws p ep).1.end_
      ws.duration (l.update ws p ep).1.minLength (l.update ws p ep).1.maxLength).2 := hg.2
  rw [hg1, hg2]
  exact key

/-- C14 (amended) on `[2, 8]` with `minLength = 3` after `update` with `end = 3`: the
stored bounds are 2 and 3, the rendered bounds 2 and 5. -/
theorem update_renders_minLength_witness :
    (lyric28min3.update ws10 { end_ := some 3 } none).1.element = some ⟨2, 5, 200, 300⟩
    ∧ (⟨2, 5, 200, 300⟩ : Element).endLimited - (⟨2, 5, 200, 300⟩ : Element).startLimited ≥ 3 :=
  have he : (lyric28min3.update ws10 { end_ := some 3 } none).1.element
      = some ⟨2, 5, 200, 300⟩ := by
    simp [Lyric.update, Lyric.updateRender, whenSet, limited, mathRound, lyric28min3, lyric28,
      ws10]
    norm_num
  ⟨he, (update_renders_minLength lyric28min3 ws10 { end_ := some 3 } none 3
    (by rw [update_minLength]; rfl)
    (by
      intro M h
      simp [Lyric.update, Lyric.updateRender, whenSet, lyric28min3, lyric28] at h)).2.1 _ he⟩

/-! ### Playback ticks -/

/-- The three cases of a tick, for a lyric whose flags are not both set. -/
theorem onProcess_cases (l : Lyric) (ws : WaveSurfer) (time : ℚ)
    (h : ¬ (l.firedIn = true ∧ l.firedOut = true)) :
    (l.firedIn = false ∧ roundTenth l.start ≤ roundTenth time
        ∧ roundTenth time < roundTenth l.end_
      → l.onProcess ws time
          = ({ l with firedIn := true, firedOut := false }, [Event.in_, Event.lyricIn l.id]))
    ∧ (l.firedIn = true ∧ (roundTenth time < roundTenth l.start
          ∨ roundTenth time ≥ roundTenth l.end_)
      → l.onProcess ws time
          = ({ l with firedOut := true, firedIn := false },
             [Event.out] ++ l.loopHandler ws ++ [Event.lyricOut l.id]))
    ∧ (¬ (l.firedIn = false ∧ roundTenth l.start ≤ roundTenth time
          ∧ roundTenth time < roundTenth l.end_)
        → ¬ (l.firedIn = true ∧ (roundTenth time < roundTenth l.start
          ∨ roundTenth time ≥ roundTenth l.end_))
        → l.onProcess ws time = (l, [])) := by
  unfold roundTenth
  refine ⟨?_, ?_, ?_⟩
  · rintro ⟨hin, h1, h2⟩
    unfold Lyric.onProcess
    have c1 : ¬ (l.firedOut = false ∧ l.firedIn = true
        ∧ ((mathRound (l.start * 10) : ℚ) / 10 > (mathRound (time * 10) : ℚ) / 10
          ∨ (mathRound (l.end_ * 10) : ℚ) / 10 ≤ (mathRound (time * 10) : ℚ) / 10)) := by
      rintro ⟨-, hc, -⟩
      rw [hin] at hc
      cases hc
    simp only [c1, if_false]
    rw [if_pos ⟨hin, h1, h2⟩]
    rfl
  · rintro ⟨hin, hout⟩
    have hfo : l.firedOut = false := by
      cases hf : l.firedOut with
      | false => rfl
      | true => exact absurd ⟨hin, hf⟩ h
    unfold Lyric.onProcess
    have c1 : l.firedOut = false ∧ l.firedIn = true
        ∧ ((mathRound (l.start * 10) : ℚ) / 10 > (mathRound (time * 10) : ℚ) / 10
          ∨ (mathRound (l.end_ * 10) : ℚ) / 10 ≤ (mathRound (time * 10) : ℚ) / 10) :=
      ⟨hfo, hin, hout⟩
    simp only [c1, and_self, if_true]
    have c2 : ¬ ((mathRound (l.start * 10) : ℚ) / 10 ≤ (mathRound (time * 10) : ℚ) / 10
        ∧ (mathRound (l.end_ * 10) : ℚ) / 10 > (mathRound (time * 10) : ℚ) / 10) := by
      rintro ⟨a, b⟩
      rcases hout with o | o
      · exact absurd a (not_le.2 o)
      · exact absurd b (not_lt.2 o)
    simp only [c2, and_false, if_false]
    simp [Lyric.loopHandler]
  · intro n1 n2
    unfold Lyric.onProcess
    have c1 : ¬ (l.firedOut = false ∧ l.firedIn = true
        ∧ ((mathRound (l.start * 10) : ℚ) / 10 > (mathRound (time * 10) : ℚ) / 10
          ∨ (mathRound (l.end_ * 10) : ℚ) / 10 ≤ (mathRound (time * 10) : ℚ) / 10)) := by
      rintro ⟨-, hc, ho⟩
      exact n2 ⟨hc, ho⟩
    simp only [c1, if_false]
    rw [if_neg n1]
    rfl

theorem mem_loopHandler (l : Lyric) (ws : WaveSurfer) (ev : Event) :
    ev ∈ l.loopHandler ws
      ↔ ev = Event.transportPlay l.start none
        ∧ l.loop = true ∧ l.start ≤ ws.currentTime ∧ ws.currentTime ≤ l.end_ := by
  unfold Lyric.loopHandler
  by_cases hl : l.loop = true
  · by_cases hr : ws.currentTime ≥ l.start ∧ ws.currentTime ≤ l.end_
    · rw [if_pos hl, if_pos hr, List.mem_singleton]
      constructor
      · intro he
        exact ⟨he, hl, hr.1, hr.2⟩
      · intro he
        exact he.1
    · rw [if_pos hl, if_neg hr]
      simp only [List.not_mem_nil, false_iff]
      rintro ⟨-, -, a, b⟩
      exact hr ⟨a, b⟩
  · rw [if_neg hl]
    simp only [List.not_mem_nil, false_iff]
    rintro ⟨-, a, -⟩
    exact hl a

/-- C17: on a tick at time `t`, with `r(x) = round(10 x) / 10`, the lyric emits `in` (and
sets `firedIn`) exactly when it is not entered and `r(start) <= r(t) < r(end)`; it emits
`out` (and clears `firedIn`) exactly when it is entered and `r(t) < r(start)` or
`r(t) >= r(end)`; in every other case the tick emits nothing and changes nothing. The flags
are never both set (both start cleared and each tick sets one and clears the other). -/
theorem onProcess_tick (l : Lyric) (ws : WaveSurfer) (time : ℚ)
    (h : ¬ (l.firedIn = true ∧ l.firedOut = true)) :
    (Event.in_ ∈ (l.onProcess ws time).2
      ↔ l.firedIn = false ∧ roundTenth l.start ≤ roundTenth time
        ∧ roundTenth time < roundTenth l.end_)
    ∧ (Event.out ∈ (l.onProcess ws time).2
      ↔ l.firedIn = true ∧ (roundTenth time < roundTenth l.start
        ∨ roundTenth time ≥ roundTenth l.end_))
    ∧ (Event.in_ ∈ (l.onProcess ws time).2
      → (l.onProcess ws time).1.firedIn = true ∧ (l.onProcess ws time).1.firedOut = false)
    ∧ (Event.out ∈ (l.onProcess ws time).2
      → (l.onProcess ws time).1.firedIn = false ∧ (l.onProcess ws time).1.firedOut = true)
    ∧ (Event.in_ ∉ (l.onProcess ws time).2 → Event.out ∉ (l.onProcess ws time).2
      → l.onProcess ws time = (l, [])) := by
  obtain ⟨hin, hout, hnone⟩ := onProcess_cases l ws time h
  by_cases c1 : l.firedIn = false ∧ roundTenth l.start ≤ roundTenth time
      ∧ roundTenth time < roundTenth l.end_
  · have e := hin c1
    have c2 : ¬ (l.firedIn = true ∧ (roundTenth time < roundTenth l.start
        ∨ roundTenth time ≥ roundTenth l.end_)) := by
      rintro ⟨a, -⟩
      rw [c1.1] at a
      cases a
    rw [e]
    simp [c1, c2]
  · by_cases c2 : l.firedIn = true ∧ (roundTenth time < roundTenth l.start
        ∨ roundTenth time ≥ roundTenth l.end_)
    · have e := hout c2
      rw [e]
      have hnin : Event.in_ ∉ [Event.out] ++ l.loopHandler ws ++ [Event.lyricOut l.id] := by
        intro hm
        simp only [List.mem_append, List.mem_singleton] at hm
        rcases hm with (hm | hm) | hm
        · cases hm
        · have := ((mem_loopHandler l ws _).1 hm).1
          cases this
        · cases hm
      refine ⟨⟨fun hm => absurd hm hnin, fun hc => absurd hc c1⟩, ?_, ?_, ?_, ?_⟩
      · exact ⟨fun _ => c2, fun _ => by simp⟩
      · intro hm
        exact absurd hm hnin
      · intro _
        exact ⟨rfl, rfl⟩
      · intro _ hno
        exact absurd (by simp) hno
    · have e := hnone c1 c2
      rw [e]
      refine ⟨⟨fun hm => (by cases hm), fun hc => absurd hc c1⟩,
        ⟨fun hm => (by cases hm), fun hc => absurd hc c2⟩, ?_, ?_, ?_⟩
      · intro hm
        cases hm
      · intro hm
        cases hm
      · intro _ _
        rfl

/-- C17 on the lyric `[2, 8]`, not yet entered, at the tick 5: it emits `in`. -/
theorem onProcess_tick_witness :
    ¬ (lyric28.firedIn = true ∧ lyric28.firedOut = true)
    ∧ Event.in_ ∈ (lyric28.onProcess ws10 5).2
    ∧ (lyric28.onProcess ws10 5).1.firedIn = true :=
  have hflags : ¬ (lyric28.firedIn = true ∧ lyric28.firedOut = true) := by
    simp [lyric28]
  have hin : Event.in_ ∈ (lyric28.onProcess ws10 5).2 :=
    (onProcess_tick lyric28 ws10 5 hflags).1.2 (by
      simp [roundTenth, mathRound, lyric28]
      norm_num)
  ⟨hflags, hin, ((onProcess_tick lyric28 ws10 5 hflags).2.2.1 hin).1⟩

/-- The events of one tick: none, the pair of `in`, or the `out` sequence. -/
theorem onProcess_events (l : Lyric) (ws : WaveSurfer) (time : ℚ) :
    (l.onProcess ws time).2 = []
    ∨ (l.onProcess ws time).2 = [Event.in_, Event.lyricIn l.id]
    ∨ (l.onProcess ws time).2 = [Event.out] ++ l.loopHandler ws ++ [Event.lyricOut l.id] := by
  by_cases hb : l.firedIn = true ∧ l.firedOut = true
  · left
    unfold Lyric.onProcess
    have c1 : ¬ (l.firedOut = false ∧ l.firedIn = true
        ∧ ((mathRound (l.start * 10) : ℚ) / 10 > (mathRound (time * 10) : ℚ) / 10
          ∨ (mathRound (l.end_ * 10) : ℚ) / 10 ≤ (mathRound (time * 10) : ℚ) / 10)) := by
      rintro ⟨hc, -, -⟩
      rw [hb.2] at hc
      cases hc
    simp only [c1, if_false]
    have c2 : ¬ (l.firedIn = false
        ∧ (mathRound (l.start * 10) : ℚ) / 10 ≤ (mathRound (time * 10) : ℚ) / 10
        ∧ (mathRound (l.end_ * 10) : ℚ) / 10 > (mathRound (time * 10) : ℚ) / 10) := by
      rintro ⟨hc, -, -⟩
      rw [hb.1] at hc
      cases hc
    rw [if_neg c2]
    rfl
  · obtain ⟨hin, hout, hnone⟩ := onProcess_cases l ws time hb
    by_cases c1 : l.firedIn = false ∧ roundTenth l.start ≤ roundTenth time
        ∧ roundTenth time < roundTenth l.end_
    · right; left
      rw [hin c1]
    · by_cases c2 : l.firedIn = true ∧ (roundTenth time < roundTenth l.start
          ∨ roundTenth time ≥ roundTenth l.end_)
      · right; right
        rw [hout c2]
      · left
        rw [hnone c1 c2]

/-- C18: a tick tells the transport to play exactly when it emits `out`, `loop` is true
and the true current time `T` satisfies `start <= T <= end`; the call is then
`play(start)`. With `loop` false no tick ever restarts playback. -/
theorem onProcess_loop_restart (l : Lyric) (ws : WaveSurfer) (time : ℚ) :
    (∀ s e, Event.transportPlay s e ∈ (l.onProcess ws time).2
      ↔ Event.out ∈ (l.onProcess ws time).2 ∧ s = l.start ∧ e = none
        ∧ l.loop = true ∧ l.start ≤ ws.currentTime ∧ ws.currentTime ≤ l.end_)
    ∧ (l.loop = false → ∀ s e, Event.transportPlay s e ∉ (l.onProcess ws time).2) := by
  have main : ∀ s e, Event.transportPlay s e ∈ (l.onProcess ws time).2
      ↔ Event.out ∈ (l.onProcess ws time).2 ∧ s = l.start ∧ e = none
        ∧ l.loop = true ∧ l.start ≤ ws.currentTime ∧ ws.currentTime ≤ l.end_ := by
    intro s e
    rcases onProcess_events l ws time with h | h | h
    · rw [h]
      simp
    · rw [h]
      simp
    · rw [h]
      simp only [List.mem_append, List.mem_singleton, mem_loopHandler]
      constructor
      · rintro ((hm | ⟨hm, hl, h1, h2⟩) | hm)
        · cases hm
        · cases hm
          exact ⟨by simp, rfl, rfl, hl, h1, h2⟩
        · cases hm
      · rintro ⟨-, hs, he, hl, h1, h2⟩
        subst hs
        subst he
        exact Or.inl (Or.inr ⟨rfl, hl, h1, h2⟩)
  refine ⟨main, ?_⟩
  intro hl s e hm
  have := ((main s e).1 hm).2.2.2.1
  rw [hl] at this
  cases this

/-- C18, the example of the specification: the looping lyric `[2, 5]`, entered, gets the
tick 5.0 and emits `out`; with the true time 4.98 the transport is told `play(2)`, with
the true time 6.2 it is told nothing. -/
theorem onProcess_loop_restart_witness :
    Event.out ∈ (lyric25loop.onProcess ws498 5).2
    ∧ Event.transportPlay 2 none ∈ (lyric25loop.onProcess ws498 5).2
    ∧ Event.out ∈ (lyric25loop.onProcess ws62 5).2
    ∧ ∀ s e, Event.transportPlay s e ∉ (lyric25loop.onProcess ws62 5).2 :=
  have hflags : ¬ (lyric25loop.firedIn = true ∧ lyric25loop.firedOut = true) := by
    simp [lyric25loop, lyric28]
  have hcond : lyric25loop.firedIn = true ∧ (roundTenth 5 < roundTenth lyric25loop.start
      ∨ roundTenth 5 ≥ roundTenth lyric25loop.end_) := by
    simp [roundTenth, mathRound, lyric25loop, lyric28]
  have ho1 : Event.out ∈ (lyric25loop.onProcess ws498 5).2 := by
    rw [(onProcess_cases lyric25loop ws498 5 hflags).2.1 hcond]
    simp
  have ho2 : Event.out ∈ (lyric25loop.onProcess ws62 5).2 := by
    rw [(onProcess_cases lyric25loop ws62 5 hflags).2.1 hcond]
    simp
  ⟨ho1,
    ((onProcess_loop_restart lyric25loop ws498 5).1 2 none).2
      ⟨ho1, rfl, rfl, rfl, by simp [lyric25loop, lyric28, ws498, ws10]; norm_num,
        by simp [lyric25loop, lyric28, ws498, ws10]; norm_num⟩,
    ho2,
    fun s e hm => by
      have h := ((onProcess_loop_restart lyric25loop ws62 5).1 s e).1 hm
      have h2 : ws62.currentTime ≤ lyric25loop.end_ := h.2.2.2.2.2
      simp [lyric25loop, lyric28, ws62, ws10] at h2
      norm_num at h2⟩

/-! ### Removal -/

/-- A removed lyric ignores `remove()`. -/
theorem remove_of_detached (l : Lyric) (h : l.element = none) : l.remove = (l, []) := by
  unfold Lyric.remove
  rw [h]

theorem remove_detaches (l : Lyric) : (l.remove).1.element = none := by
  unfold Lyric.remove
  cases h : l.element with
  | none => exact h
  | some e => rfl

theorem removeTimes_of_detached (l : Lyric) (h : l.element = none) (n : Nat) :
    l.removeTimes n = (l, []) := by
  induction n with
  | zero => rfl
  | succ n ih =>
    unfold Lyric.removeTimes
    rw [remove_of_detached l h, ih]
    rfl

/-- C19: `remove` is idempotent. A second `remove()` right after the first one changes
nothing and fires nothing, so two calls leave the state of one call; and over any number
`n + 1` of `remove()` calls on an attached lyric, `remove` and `lyric-removed` are each
fired exactly once, by the first call. -/
theorem remove_idempotent (l : Lyric) :
    (l.remove).1.remove = ((l.remove).1, [])
    ∧ (l.removeTimes 2).1 = (l.removeTimes 1).1
    ∧ ∀ n : Nat, l.element ≠ none →
        (l.remove).2 = [Event.remove, Event.lyricRemoved l.id]
        ∧ l.removeTimes (n + 1) = ((l.remove).1, [Event.remove, Event.lyricRemoved l.id])
        ∧ (l.removeTimes (n + 1)).2.count Event.remove = 1
        ∧ (l.removeTimes (n + 1)).2.count (Event.lyricRemoved l.id) = 1 := by
  have h1 : (l.remove).1.remove = ((l.remove).1, []) :=
    remove_of_detached _ (remove_detaches l)
  refine ⟨h1, ?_, ?_⟩
  · simp only [Lyric.removeTimes, h1]
  · intro n hne
    have hev : (l.remove).2 = [Event.remove, Event.lyricRemoved l.id] := by
      unfold Lyric.remove
      cases h : l.element with
      | none => exact absurd h hne
      | some e => rfl
    have hall : l.removeTimes (n + 1)
        = ((l.remove).1, [Event.remove, Event.lyricRemoved l.id]) := by
      unfold Lyric.removeTimes
      rw [removeTimes_of_detached _ (remove_detaches l) n, hev]
      rfl
    refine ⟨hev, hall, ?_, ?_⟩
    · rw [hall]
      simp
    · rw [hall]
      simp

/-- C19 on the attached lyric `[2, 8]`, removed three times. -/
theorem remove_idempotent_witness :
    lyric28.element ≠ none
    ∧ (lyric28.removeTimes 3).2 = [Event.remove, Event.lyricRemoved "a"]
    ∧ (lyric28.removeTimes 3).2.count Event.remove = 1 :=
  have hne : lyric28.element ≠ none := by simp [lyric28]
  have h := (remove_idempotent lyric28).2.2 2 hne
  ⟨hne, by rw [h.2.1]; rfl, h.2.2.1⟩

/-! ### Pointer sessions on a lyric -/

theorem update_events (l : Lyric) (ws : WaveSurfer) (p : UpdateParams)
    (ep : Option EventParams) :
    (l.update ws p ep).2 = [Event.update, Event.lyricUpdated (l.update ws p ep).1.id ep] :=
  rfl

theorem update_drag (l : Lyric) (ws : WaveSurfer) (p : UpdateParams)
    (ep : Option EventParams) (h : p.drag = none) : (l.update ws p ep).1.drag = l.drag := by
  simp only [Lyric.update]
  rw [updateRender_keeps Lyric.drag (fun _ _ => rfl)]
  repeat (first
    | rw [h, whenSet_none]
    | (rw [whenSet_keeps Lyric.drag _ _ _ ?_]; swap; exact fun _ _ => rfl))
  exact whenSet_keeps Lyric.drag _ _ _ (fun _ _ => rfl)

theorem update_resize (l : Lyric) (ws : WaveSurfer) (p : UpdateParams)
    (ep : Option EventParams) (h : p.resize = none) :
    (l.update ws p ep).1.resize = l.resize := by
  simp only [Lyric.update]
  rw [updateRender_keeps Lyric.resize (fun _ _ => rfl)]
  repeat (first
    | rw [h, whenSet_none]
    | (rw [whenSet_keeps Lyric.resize _ _ _ ?_]; swap; exact fun _ _ => rfl))
  exact whenSet_keeps Lyric.resize _ _ _ (fun _ _ => rfl)

/-- What `onDrag` leaves alone and fires. -/
theorem onDrag_frame (l : Lyric) (ws : WaveSurfer) (delta : ℚ) :
    (l.onDrag ws delta).1.drag = l.drag ∧ (l.onDrag ws delta).1.resize = l.resize
    ∧ (l.onDrag ws delta).2.count Event.updateEnd = 0 := by
  unfold Lyric.onDrag
  refine ⟨update_drag _ _ _ _ rfl, update_resize _ _ _ _ rfl, ?_⟩
  rw [update_events]
  simp

/-- What `onResize` leaves alone and fires. -/
theorem onResize_frame (l : Lyric) (ws : WaveSurfer) (delta : ℚ) (side : Side) :
    (l.onResize ws delta side).1.drag = l.drag
    ∧ (l.onResize ws delta side).1.resize = l.resize
    ∧ (l.onResize ws delta side).2.count Event.updateEnd = 0 := by
  cases side <;>
    (unfold Lyric.onResize
     refine ⟨update_drag _ _ _ _ rfl, update_resize _ _ _ _ rfl, ?_⟩
     simp only [update_events]
     simp)

/-- A run of `edgeScroll` keeps the session flags and fires no `update-end`. -/
theorem drag_edgeScroll_frame (s : DragSession) (pp : PluginParams) (ws : WaveSurfer)
    (read : ScrollRead) :
    (s.edgeScroll pp ws read).1.st.updated = s.st.updated
    ∧ (s.edgeScroll pp ws read).1.st.drag = s.st.drag
    ∧ (s.edgeScroll pp ws read).1.st.resize = s.st.resize
    ∧ (s.edgeScroll pp ws read).1.lyric.drag = s.lyric.drag
    ∧ (s.edgeScroll pp ws read).1.lyric.resize = s.lyric.resize
    ∧ (s.edgeScroll pp ws read).2.count Event.updateEnd = 0 := by
  unfold DragSession.edgeScroll
  by_cases c1 : s.st.scrollDirection = none ∨ (s.st.drag = false ∧ s.st.resize = none)
  · rw [if_pos c1]
    simp
  · rw [if_neg c1]
    cases hl : read.atLimit with
    | true => simp
    | false =>
      simp only [Bool.false_eq_true, if_false]
      cases hd : s.st.drag with
      | true =>
        simp only [if_true]
        exact ⟨trivial, trivial, trivial, (onDrag_frame _ _ _).1, (onDrag_frame _ _ _).2.1,
          (onDrag_frame _ _ _).2.2⟩
      | false =>
        simp only [Bool.false_eq_true, if_false]
        cases hr : s.st.resize with
        | none => simp
        | some side =>
          simp only []
          exact ⟨trivial, trivial, trivial, (onResize_frame _ _ _ _).1,
            (onResize_frame _ _ _ _).2.1, (onResize_frame _ _ _ _).2.2⟩

theorem commitDrag_frame (s : DragSession) (ws : WaveSurfer) (delta : ℚ) :
    (s.commitDrag ws delta).1.st.drag = s.st.drag
    ∧ (s.commitDrag ws delta).1.st.resize = s.st.resize
    ∧ (s.commitDrag ws delta).1.lyric.drag = s.lyric.drag
    ∧ (s.commitDrag ws delta).1.lyric.resize = s.lyric.resize
    ∧ (s.commitDrag ws delta).2.count Event.updateEnd = 0
    ∧ ((s.commitDrag ws delta).1.st.updated = true
        ↔ s.st.updated = true ∨ (delta ≠ 0 ∧ s.lyric.drag = true ∧ s.st.drag = true)) := by
  unfold DragSession.commitDrag
  by_cases c1 : s.lyric.drag = true ∧ s.st.drag = true
  · rw [if_pos c1]
    refine ⟨rfl, rfl, (onDrag_frame _ _ _).1, (onDrag_frame _ _ _).2.1,
      (onDrag_frame _ _ _).2.2, ?_⟩
    show (s.st.updated || decide (delta ≠ 0)) = true ↔ _
    rw [Bool.or_eq_true, decide_eq_true_eq]
    constructor
    · rintro (h | h)
      · exact Or.inl h
      · exact Or.inr ⟨h, c1⟩
    · rintro (h | h)
      · exact Or.inl h
      · exact Or.inr h.1
  · rw [if_neg c1]
    refine ⟨rfl, rfl, rfl, rfl, rfl, ?_⟩
    constructor
    · intro h
      exact Or.inl h
    · rintro (h | h)
      · exact h
      · exact absurd h.2 c1

theorem commitResize_frame (s : DragSession) (ws : WaveSurfer) (delta : ℚ) :
    (s.commitResize ws delta).1.st.drag = s.st.drag
    ∧ (s.commitResize ws delta).1.st.resize = s.st.resize
    ∧ (s.commitResize ws delta).1.lyric.drag = s.lyric.drag
    ∧ (s.commitResize ws delta).1.lyric.resize = s.lyric.resize
    ∧ (s.commitResize ws delta).2.count Event.updateEnd = 0
    ∧ ((s.commitResize ws delta).1.st.updated = true
        ↔ s.st.updated = true ∨ (delta ≠ 0 ∧ s.lyric.resize = true ∧ s.st.resize ≠ none)) := by
  unfold DragSession.commitResize
  cases hr : s.st.resize with
  | none =>
    refine ⟨rfl, hr, rfl, rfl, rfl, ?_⟩
    constructor
    · intro h
      exact Or.inl h
    · rintro (h | h)
      · exact h
      · exact absurd rfl h.2.2
  | some side =>
    by_cases c2 : s.lyric.resize = true
    · simp only []
      rw [if_pos c2]
      refine ⟨rfl, hr, (onResize_frame _ _ _ _).1, (onResize_frame _ _ _ _).2.1,
        (onResize_frame _ _ _ _).2.2, ?_⟩
      show (s.st.updated || decide (delta ≠ 0)) = true ↔ _
      rw [Bool.or_eq_true, decide_eq_true_eq]
      constructor
      · rintro (h | h)
        · exact Or.inl h
        · exact Or.inr ⟨h, c2, by simp⟩
      · rintro (h | h)
        · exact Or.inl h
        · exact Or.inr h.1
    · simp only []
      rw [if_neg c2]
      refine ⟨rfl, hr, rfl, rfl, rfl, ?_⟩
      constructor
      · intro h
        exact Or.inl h
      · rintro (h | h)
        · exact h
        · exact absurd h.2.1 c2

/-- The commit of a move keeps the session flags, fires no `update-end`, and marks the
session updated exactly when it was already, or the delta is not zero and the gesture is
enabled on the lyric. -/
theorem commitMove_frame (s : DragSession) (ws : WaveSurfer) (delta : ℚ) :
    (s.commitMove ws delta).1.st.drag = s.st.drag
    ∧ (s.commitMove ws delta).1.st.resize = s.st.resize
    ∧ (s.commitMove ws delta).1.lyric.drag = s.lyric.drag
    ∧ (s.commitMove ws delta).1.lyric.resize = s.lyric.resize
    ∧ (s.commitMove ws delta).2.count Event.updateEnd = 0
    ∧ ((s.commitMove ws delta).1.st.updated = true
        ↔ s.st.updated = true ∨ (delta ≠ 0 ∧ s.enabled)) := by
  obtain ⟨d1, d2, d3, d4, d5, d6⟩ := commitDrag_frame s ws delta
  obtain ⟨r1, r2, r3, r4, r5, r6⟩ := commitResize_frame (s.commitDrag ws delta).1 ws delta
  unfold DragSession.commitMove DragSession.enabled
  refine ⟨r1.trans d1, r2.trans d2, r3.trans d3, r4.trans d4, ?_, ?_⟩
  · show List.count Event.updateEnd ((s.commitDrag ws delta).2
        ++ ((s.commitDrag ws delta).1.commitResize ws delta).2) = 0
    rw [List.count_append, d5, r5]
  · show ((s.commitDrag ws delta).1.commitResize ws delta).1.st.updated = true ↔ _
    rw [r6, d6, d4, d2]
    constructor
    · rintro ((h | h) | h)
      · exact Or.inl h
      · exact Or.inr ⟨h.1, Or.inl h.2⟩
      · exact Or.inr ⟨h.1, Or.inr h.2⟩
    · rintro (h | ⟨hd, h | h⟩)
      · exact Or.inl (Or.inl h)
      · exact Or.inl (Or.inr ⟨hd, h⟩)
      · exact Or.inr ⟨hd, h⟩

theorem scrollMove_frame (s : DragSession) (pp : PluginParams) (ws : WaveSurfer)
    (event : PointerEvent) :
    (s.scrollMove pp ws event).1.st.updated = s.st.updated
    ∧ (s.scrollMove pp ws event).1.st.drag = s.st.drag
    ∧ (s.scrollMove pp ws event).1.st.resize = s.st.resize
    ∧ (s.scrollMove pp ws event).1.lyric.drag = s.lyric.drag
    ∧ (s.scrollMove pp ws event).1.lyric.resize = s.lyric.resize
    ∧ (s.scrollMove pp ws event).2.count Event.updateEnd = 0 := by
  unfold DragSession.scrollMove
  cases hs : event.scrollable with
  | false => exact ⟨rfl, rfl, rfl, rfl, rfl, rfl⟩
  | true =>
    cases he : event.edge with
    | none => exact ⟨rfl, rfl, rfl, rfl, rfl, rfl⟩
    | some dir =>
      exact drag_edgeScroll_frame
        { s with st := { s.st with scrollDirection := some dir } } pp ws event.scroll

/-- A move keeps the session flags, fires no `update-end`, and marks the session updated
exactly when it was already, or the move produces a non-zero delta and the gesture is
enabled on the lyric. -/
theorem onMove_frame (s : DragSession) (pp : PluginParams) (ws : WaveSurfer)
    (event : PointerEvent) :
    (s.onMove pp ws event).1.st.drag = s.st.drag
    ∧ (s.onMove pp ws event).1.st.resize = s.st.resize
    ∧ (s.onMove pp ws event).1.lyric.drag = s.lyric.drag
    ∧ (s.onMove pp ws event).1.lyric.resize = s.lyric.resize
    ∧ (s.onMove pp ws event).2.count Event.updateEnd = 0
    ∧ ((s.onMove pp ws event).1.st.updated = true
        ↔ s.st.updated = true ∨ (s.nonZeroMove pp ws event ∧ s.enabled)) := by
  unfold DragSession.onMove DragSession.nonZeroMove
  by_cases hm : s.moves event = false
  · rw [if_pos hm]
    refine ⟨rfl, rfl, rfl, rfl, rfl, ?_⟩
    constructor
    · intro h
      exact Or.inl h
    · rintro (h | h)
      · exact h
      · rw [hm] at h
        exact absurd h.1.1 (by simp)
  · rw [if_neg hm]
    have hmt : s.moves event = true := by
      cases h : s.moves event with
      | true => rfl
      | false => exact absurd h hm
    obtain ⟨c1, c2, c3, c4, c5, c6⟩ := commitMove_frame
      { s with st := { s.st with startTime := s.moveTime pp ws event } } ws
      (s.moveTime pp ws event - s.st.startTime)
    obtain ⟨e1, e2, e3, e4, e5, e6⟩ := scrollMove_frame
      (({ s with st := { s.st with startTime := s.moveTime pp ws event } } : DragSession).commitMove
        ws (s.moveTime pp ws event - s.st.startTime)).1 pp ws event
    refine ⟨e2.trans c1, e3.trans c2, e4.trans c3, e5.trans c4, ?_, ?_⟩
    · simp only [List.count_append, c5, e6]
    · simp only [e1, c6]
      constructor
      · rintro (h | ⟨hd, hen⟩)
        · exact Or.inl h
        · exact Or.inr ⟨⟨hmt, hd⟩, hen⟩
      · rintro (h | ⟨⟨-, hd⟩, hen⟩)
        · exact Or.inl h
        · exact Or.inr ⟨hd, hen⟩

/-- A move or a frame keeps the session flags, fires no `update-end`, and can only set
`updated`, which a move does as `onMove_frame` tells. -/
theorem midStep_frame (pp : PluginParams) (ws : WaveSurfer) (s : DragSession) (i : DragInput)
    (hi : i.isMid = true) :
    (s.step pp ws i).1.st.drag = s.st.drag
    ∧ (s.step pp ws i).1.st.resize = s.st.resize
    ∧ (s.step pp ws i).1.lyric.drag = s.lyric.drag
    ∧ (s.step pp ws i).1.lyric.resize = s.lyric.resize
    ∧ (s.step pp ws i).2.count Event.updateEnd = 0
    ∧ ((s.step pp ws i).1.st.updated = true
        ↔ s.st.updated = true
          ∨ (s.enabled ∧ ∃ e, i = DragInput.move e ∧ s.nonZeroMove pp ws e)) := by
  cases i with
  | down e => cases hi
  | up e => cases hi
  | move e =>
    obtain ⟨m1, m2, m3, m4, m5, m6⟩ := onMove_frame s pp ws e
    refine ⟨m1, m2, m3, m4, m5, ?_⟩
    show (s.onMove pp ws e).1.st.updated = true ↔ _
    rw [m6]
    constructor
    · rintro (h | ⟨h1, h2⟩)
      · exact Or.inl h
      · exact Or.inr ⟨h2, e, rfl, h1⟩
    · rintro (h | ⟨h2, e', he, h1⟩)
      · exact Or.inl h
      · cases he
        exact Or.inr ⟨h1, h2⟩
  | frame read =>
    have hstep : s.step pp ws (DragInput.frame read)
        = if s.st.pendingFrames = 0 then (s, [])
          else ({ s with st := { s.st with pendingFrames := s.st.pendingFrames - 1 } } :
            DragSession).edgeScroll pp ws read := rfl
    rw [hstep]
    by_cases hp : s.st.pendingFrames = 0
    · rw [if_pos hp]
      refine ⟨rfl, rfl, rfl, rfl, rfl, ?_⟩
      constructor
      · intro h
        exact Or.inl h
      · rintro (h | ⟨-, e, he, -⟩)
        · exact h
        · cases he
    · rw [if_neg hp]
      obtain ⟨f1, f2, f3, f4, f5, f6⟩ := drag_edgeScroll_frame
        { s with st := { s.st with pendingFrames := s.st.pendingFrames - 1 } } pp ws read
      refine ⟨f2, f3, f4, f5, f6, ?_⟩
      rw [f1]
      constructor
      · intro h
        exact Or.inl h
      · rintro (h | ⟨-, e, he, -⟩)
        · exact h
        · cases he

theorem dragRun_cons (pp : PluginParams) (ws : WaveSurfer) (s : DragSession) (i : DragInput)
    (rest : List DragInput) :
    DragSession.run pp ws s (i :: rest)
      = ((DragSession.run pp ws (s.step pp ws i).1 rest).1,
          (s.step pp ws i).2 ++ (DragSession.run pp ws (s.step pp ws i).1 rest).2) := rfl

theorem dragRun_append (pp : PluginParams) (ws : WaveSurfer) (a b : List DragInput)
    (s : DragSession) :
    DragSession.run pp ws s (a ++ b)
      = ((DragSession.run pp ws (DragSession.run pp ws s a).1 b).1,
          (DragSession.run pp ws s a).2 ++ (DragSession.run pp ws (DragSession.run pp ws s a).1 b).2) := by
  induction a generalizing s with
  | nil => simp [DragSession.run]
  | cons i rest ih =>
    rw [List.cons_append, dragRun_cons, dragRun_cons, ih]
    simp

theorem enabled_congr (s t : DragSession) (h1 : t.st.drag = s.st.drag)
    (h2 : t.st.resize = s.st.resize) (h3 : t.lyric.drag = s.lyric.drag)
    (h4 : t.lyric.resize = s.lyric.resize) : t.enabled ↔ s.enabled := by
  unfold DragSession.enabled
  rw [h1, h2, h3, h4]

/-- Moves and frames keep the session flags, fire no `update-end`, and leave the session
updated exactly when it was already, or the gesture is enabled on the lyric and one of the
moves produced a non-zero delta. -/
theorem midRun_frame (pp : PluginParams) (ws : WaveSurfer) (mid : List DragInput)
    (s : DragSession) (hmid : ∀ i ∈ mid, i.isMid = true) :
    (DragSession.run pp ws s mid).1.st.drag = s.st.drag
    ∧ (DragSession.run pp ws s mid).1.st.resize = s.st.resize
    ∧ (DragSession.run pp ws s mid).1.lyric.drag = s.lyric.drag
    ∧ (DragSession.run pp ws s mid).1.lyric.resize = s.lyric.resize
    ∧ (DragSession.run pp ws s mid).2.count Event.updateEnd = 0
    ∧ ((DragSession.run pp ws s mid).1.st.updated = true
        ↔ s.st.updated = true
          ∨ (s.enabled ∧ ∃ pre e post, mid = pre ++ DragInput.move e :: post
              ∧ (DragSession.run pp ws s pre).1.nonZeroMove pp ws e)) := by
  induction mid generalizing s with
  | nil =>
    refine ⟨rfl, rfl, rfl, rfl, rfl, ?_⟩
    constructor
    · intro h
      exact Or.inl h
    · rintro (h | ⟨-, pre, e, post, hp, -⟩)
      · exact h
      · cases pre <;> cases hp
  | cons i rest ih =>
    obtain ⟨m1, m2, m3, m4, m5, m6⟩ :=
      midStep_frame pp ws s i (hmid i (List.mem_cons_self _ _))
    obtain ⟨r1, r2, r3, r4, r5, r6⟩ :=
      ih (s.step pp ws i).1 (fun j hj => hmid j (List.mem_cons_of_mem _ hj))
    have hen := enabled_congr s (s.step pp ws i).1 m1 m2 m3 m4
    rw [dragRun_cons]
    refine ⟨r1.trans m1, r2.trans m2, r3.trans m3, r4.trans m4, ?_, ?_⟩
    · simp only [List.count_append, m5, r5]
    · show (DragSession.run pp ws (s.step pp ws i).1 rest).1.st.updated = true ↔ _
      rw [r6, m6, hen]
      constructor
      · rintro ((h | ⟨he, e, hi, hn⟩) | ⟨he, pre, e, post, hp, hn⟩)
        · exact Or.inl h
        · refine Or.inr ⟨he, [], e, rest, ?_, hn⟩
          rw [hi]
          rfl
        · refine Or.inr ⟨he, i :: pre, e, post, ?_, ?_⟩
          · rw [hp]
            rfl
          · rw [dragRun_cons]
            exact hn
      · rintro (h | ⟨he, pre, e, post, hp, hn⟩)
        · exact Or.inl (Or.inl h)
        · cases pre with
          | nil =>
            simp only [List.nil_append, List.cons.injEq] at hp
            exact Or.inl (Or.inr ⟨he, e, hp.1, hn⟩)
          | cons j pre' =>
            simp only [List.cons_append, List.cons.injEq] at hp
            obtain ⟨hj, hrest⟩ := hp
            subst hj
            rw [dragRun_cons] at hn
            exact Or.inr ⟨he, pre', e, post, hrest, hn⟩

/-- A single-pointer `onUp` fires `update-end` once if the session is updated, not at all
otherwise, and leaves the session not updated. -/
theorem onUp_single (s : DragSession) (e : PointerEvent) (he : e.multiTouch = false) :
    (s.onUp e).1.st.updated = false
    ∧ (s.onUp e).2.count Event.updateEnd = (if s.st.updated = true then 1 else 0) := by
  unfold DragSession.onUp
  rw [he]
  simp only [Bool.false_eq_true, if_false]
  by_cases c : s.st.drag = true ∨ s.st.resize ≠ none
  · rw [if_pos c]
    cases hu : s.st.updated with
    | true => simp [hu]
    | false => simp [hu]
  · rw [if_neg c]
    cases hu : s.st.updated with
    | true => simp [hu]
    | false => simp [hu]

theorem upsRun_quiet (pp : PluginParams) (ws : WaveSurfer) (ups : List PointerEvent)
    (s : DragSession) (hups : ∀ e ∈ ups, e.multiTouch = false) (hu : s.st.updated = false) :
    (DragSession.run pp ws s (ups.map DragInput.up)).2.count Event.updateEnd = 0 := by
  induction ups generalizing s with
  | nil => rfl
  | cons e rest ih =>
    obtain ⟨u1, u2⟩ := onUp_single s e (hups e (List.mem_cons_self _ _))
    rw [List.map_cons, dragRun_cons]
    have hstep : s.step pp ws (DragInput.up e) = s.onUp e := rfl
    rw [hstep, List.count_append, u2, ih (s.onUp e).1
      (fun j hj => hups j (List.mem_cons_of_mem _ hj)) u1, hu]
    simp

theorem upsRun_count (pp : PluginParams) (ws : WaveSurfer) (ups : List PointerEvent)
    (s : DragSession) (hups : ∀ e ∈ ups, e.multiTouch = false) (hne : ups ≠ []) :
    (DragSession.run pp ws s (ups.map DragInput.up)).2.count Event.updateEnd
      = (if s.st.updated = true then 1 else 0) := by
  cases ups with
  | nil => exact absurd rfl hne
  | cons e rest =>
    obtain ⟨u1, u2⟩ := onUp_single s e (hups e (List.mem_cons_self _ _))
    rw [List.map_cons, dragRun_cons]
    have hstep : s.step pp ws (DragInput.up e) = s.onUp e := rfl
    rw [hstep, List.count_append, u2, upsRun_quiet pp ws rest (s.onUp e).1
      (fun j hj => hups j (List.mem_cons_of_mem _ hj)) u1]
    simp

/-- The claim C15 fails: the lyric `[2, 8]` is draggable but not resizable; a pointer-down
on its start handle at time 2, a single-pointer move to time 5 (a time delta of 3) and a
pointer-up fire no `update-end`. -/
theorem handle_session_without_update_end :
    sessionDragOnly.lyric.drag = true
    ∧ (DragSession.run {} ws10 sessionDragOnly
          [DragInput.down (mouseOnStartHandle (2 / 10))]).1.moveTime {} ws10 (mouseAt (5 / 10))
        - (DragSession.run {} ws10 sessionDragOnly
          [DragInput.down (mouseOnStartHandle (2 / 10))]).1.st.startTime = 3
    ∧ ¬ ((DragSession.run {} ws10 sessionDragOnly
          [DragInput.down (mouseOnStartHandle (2 / 10)), DragInput.move (mouseAt (5 / 10)),
            DragInput.up (mouseAt (5 / 10))]).2.count Event.updateEnd = 1) := by
  decide!

/-- C15 (amended): a session starts with no update pending, by a single-pointer
pointer-down on the body of a lyric with drag enabled or on a handle of a lyric with resize
enabled; moves and animation frames follow, then one or more single-pointer runs of the up
handler. No `update-end` is fired before the first up; the whole session fires
`update-end` at most once, and exactly once when some move produced a non-zero time
delta. -/
theorem drag_session_single_update_end (pp : PluginParams) (ws : WaveSurfer)
    (s : DragSession) (d : PointerEvent) (mid : List DragInput) (ups : List PointerEvent)
    (hupd : s.st.updated = false) (hd : d.multiTouch = false)
    (hen : (d.target = none ∧ s.lyric.drag = true) ∨ (d.target ≠ none ∧ s.lyric.resize = true))
    (hmid : ∀ i ∈ mid, i.isMid = true)
    (hups : ∀ e ∈ ups, e.multiTouch = false) (hne : ups ≠ []) :
    (DragSession.run pp ws s (DragInput.down d :: mid)).2.count Event.updateEnd = 0
    ∧ (DragSession.run pp ws s (DragInput.down d :: (mid ++ ups.map DragInput.up))).2.count
        Event.updateEnd ≤ 1
    ∧ ((DragSession.run pp ws s (DragInput.down d :: (mid ++ ups.map DragInput.up))).2.count
        Event.updateEnd = 1
      ↔ ∃ pre e post, mid = pre ++ DragInput.move e :: post
          ∧ (DragSession.run pp ws s (DragInput.down d :: pre)).1.nonZeroMove pp ws e) := by
  have hstep : s.step pp ws (DragInput.down d) = s.onDown pp ws d := rfl
  have hdown : (s.onDown pp ws d).2 = [] ∧ (s.onDown pp ws d).1.st.updated = false
      ∧ (s.onDown pp ws d).1.enabled := by
    unfold DragSession.onDown DragSession.enabled
    rw [hd]
    simp only [Bool.false_eq_true, if_false]
    rcases hen with ⟨ht, hl⟩ | ⟨ht, hl⟩
    · rw [ht]
      exact ⟨rfl, hupd, Or.inl ⟨hl, rfl⟩⟩
    · cases hside : d.target with
      | none => exact absurd hside ht
      | some side => exact ⟨rfl, hupd, Or.inr ⟨hl, by simp⟩⟩
  obtain ⟨hd1, hd2, hd3⟩ := hdown
  obtain ⟨-, -, -, -, m5, m6⟩ := midRun_frame pp ws mid (s.onDown pp ws d).1 hmid
  have hpre : ∀ pre : List DragInput,
      (DragSession.run pp ws s (DragInput.down d :: pre)).1
        = (DragSession.run pp ws (s.onDown pp ws d).1 pre).1 := by
    intro pre
    rw [dragRun_cons, hstep]
  have hbefore : (DragSession.run pp ws s (DragInput.down d :: mid)).2.count Event.updateEnd
      = 0 := by
    rw [dragRun_cons, hstep, hd1]
    simpa using m5
  have htotal : (DragSession.run pp ws s
        (DragInput.down d :: (mid ++ ups.map DragInput.up))).2.count Event.updateEnd
      = (if (DragSession.run pp ws (s.onDown pp ws d).1 mid).1.st.updated = true
          then 1 else 0) := by
    rw [dragRun_cons, hstep, hd1, dragRun_append]
    simp only [List.nil_append, List.count_append, m5, zero_add]
    exact upsRun_count pp ws ups _ hups hne
  refine ⟨hbefore, ?_, ?_⟩
  · rw [htotal]
    split_ifs <;> simp
  · rw [htotal]
    have hiff : (DragSession.run pp ws (s.onDown pp ws d).1 mid).1.st.updated = true
        ↔ ∃ pre e post, mid = pre ++ DragInput.move e :: post
          ∧ (DragSession.run pp ws s (DragInput.down d :: pre)).1.nonZeroMove pp ws e := by
      rw [m6]
      constructor
      · rintro (h | ⟨-, pre, e, post, hp, hn⟩)
        · rw [hd2] at h
          cases h
        · refine ⟨pre, e, post, hp, ?_⟩
          rw [hpre]
          exact hn
      · rintro ⟨pre, e, post, hp, hn⟩
        rw [hpre] at hn
        exact Or.inr ⟨hd3, pre, e, post, hp, hn⟩
    rw [← hiff]
    split_ifs with hu
    · simp [hu]
    · simp [hu]

/-- C15 (amended) on the draggable lyric `[2, 8]`: a pointer-down on its body at time 3,
twenty moves of which the first goes to time 5, and two runs of the up handler fire one
`update-end`. -/
theorem drag_session_single_update_end_witness :
    (DragSession.run {} ws10 sessionDragOnly
        (DragInput.down (mouseAt (3 / 10))
          :: (List.replicate 20 (DragInput.move (mouseAt (5 / 10)))
            ++ [mouseAt (5 / 10), mouseAt (5 / 10)].map DragInput.up))).2.count
      Event.updateEnd = 1 :=
  (drag_session_single_update_end {} ws10 sessionDragOnly (mouseAt (3 / 10))
    (List.replicate 20 (DragInput.move (mouseAt (5 / 10)))) [mouseAt (5 / 10), mouseAt (5 / 10)]
    rfl rfl (Or.inl ⟨rfl, rfl⟩)
    (by
      intro i hi
      rw [List.eq_of_mem_replicate hi]
      rfl)
    (by decide) (by simp)).2.2.2
    ⟨[], mouseAt (5 / 10), List.replicate 19 (DragInput.move (mouseAt (5 / 10))), rfl,
      by unfold DragSession.nonZeroMove; decide!⟩

/-! ### Drag selection sessions -/

/-- `add` either returns `null` and fires nothing, or returns a lyric and fires its
`lyric-created`. -/
theorem add_cases (p : LyricsPlugin) (ws : WaveSurfer) (params : LyricParams)
    (freshId : String) :
    ((p.add ws params freshId).1 = none ∧ (p.add ws params freshId).2.2 = [])
    ∨ ∃ l, (p.add ws params freshId).1 = some l
        ∧ (p.add ws params freshId).2.2 = [Event.lyricCreated l.id] := by
  unfold LyricsPlugin.add
  by_cases hw : p.wouldExceedMaxLyrics = true
  · rw [if_pos hw]
    exact Or.inl ⟨rfl, rfl⟩
  · rw [if_neg hw]
    right
    simp only [Lyric.new]
    split_ifs <;> exact ⟨_, rfl, rfl⟩

theorem update_quiet (l : Lyric) (ws : WaveSurfer) (p : UpdateParams)
    (ep : Option EventParams) :
    ∀ ev ∈ (l.update ws p ep).2, ev.isEnd = false ∧ ev.isLyricCreated = false := by
  intro ev hev
  rw [update_events] at hev
  simp only [List.mem_cons, List.mem_singleton, List.not_mem_nil, or_false] at hev
  rcases hev with h | h <;> rw [h] <;> exact ⟨rfl, rfl⟩

theorem updateLyric_frame (s : SelectSession) (ws : WaveSurfer) (lyric : Lyric)
    (p : UpdateParams) :
    (s.updateLyric ws lyric p).1.lyric ≠ none
    ∧ ∀ ev ∈ (s.updateLyric ws lyric p).2, ev.isEnd = false ∧ ev.isLyricCreated = false := by
  unfold SelectSession.updateLyric
  exact ⟨by simp, update_quiet lyric ws p none⟩

/-- A run of the selection's `edgeScroll` keeps the lyric variable set or unset and fires
neither an end event nor `lyric-created`. -/
theorem select_edgeScroll_frame (s : SelectSession) (ws : WaveSurfer) (read : ScrollRead) :
    ((s.edgeScroll ws read).1.lyric ≠ none ↔ s.lyric ≠ none)
    ∧ ∀ ev ∈ (s.edgeScroll ws read).2, ev.isEnd = false ∧ ev.isLyricCreated = false := by
  unfold SelectSession.edgeScroll
  cases hl : s.lyric with
  | none =>
    simp only []
    exact ⟨by rw [hl], fun ev hev => by cases hev⟩
  | some lyric =>
    simp only []
    by_cases hs : s.scrollDirection = none
    · rw [if_pos hs]
      exact ⟨by rw [hl], fun ev hev => by cases hev⟩
    · rw [if_neg hs]
      cases ha : read.atLimit with
      | true =>
        simp only [if_true]
        exact ⟨⟨fun _ => by simp, fun _ => (updateLyric_frame s ws lyric _).1⟩,
          (updateLyric_frame s ws lyric _).2⟩
      | false =>
        simp only [Bool.false_eq_true, if_false]
        exact ⟨⟨fun _ => by simp, fun _ => (updateLyric_frame s ws lyric _).1⟩,
          (updateLyric_frame s ws lyric _).2⟩

theorem select_scrollMove_frame (s : SelectSession) (ws : WaveSurfer) (event : PointerEvent) :
    ((s.scrollMove ws event).1.lyric ≠ none ↔ s.lyric ≠ none)
    ∧ ∀ ev ∈ (s.scrollMove ws event).2, ev.isEnd = false ∧ ev.isLyricCreated = false := by
  unfold SelectSession.scrollMove
  cases hs : event.scrollable with
  | false => exact ⟨Iff.rfl, fun ev hev => by cases hev⟩
  | true =>
    cases he : event.edge with
    | none => exact ⟨Iff.rfl, fun ev hev => by cases hev⟩
    | some dir =>
      exact select_edgeScroll_frame { s with scrollDirection := some dir } ws event.scroll

/-- The creation step sets the lyric variable exactly when it was set or `add` fires
`lyric-created`; it fires no end event. -/
theorem createLyric_frame (s : SelectSession) (ws : WaveSurfer) (freshId : String) :
    ((s.createLyric ws freshId).1.lyric ≠ none
      ↔ s.lyric ≠ none ∨ ∃ ev ∈ (s.createLyric ws freshId).2, ev.isLyricCreated = true)
    ∧ ∀ ev ∈ (s.createLyric ws freshId).2, ev.isEnd = false := by
  unfold SelectSession.createLyric
  cases hl : s.lyric with
  | some lyric =>
    simp only []
    exact ⟨by simp [hl], fun ev hev => by cases hev⟩
  | none =>
    simp only []
    rcases add_cases s.plugin ws s.params freshId with ⟨h1, h2⟩ | ⟨l, h1, h2⟩
    · rw [h1, h2]
      simp
    · rw [h1, h2]
      simp [Event.isLyricCreated, Event.isEnd, Event.isLyricUpdateEnd]

/-- A move of the selection sets the lyric variable exactly when it was set or the move
fires `lyric-created`; it fires no end event. -/
theorem eventMove_frame (s : SelectSession) (ws : WaveSurfer) (event : PointerEvent)
    (freshId : String) :
    ((s.eventMove ws event freshId).1.lyric ≠ none
      ↔ s.lyric ≠ none ∨ ∃ ev ∈ (s.eventMove ws event freshId).2, ev.isLyricCreated = true)
    ∧ ∀ ev ∈ (s.eventMove ws event freshId).2, ev.isEnd = false := by
  have quiet : ∀ t : SelectSession, (t.lyric ≠ none
        ↔ t.lyric ≠ none ∨ ∃ ev ∈ ([] : List Event), ev.isLyricCreated = true)
      ∧ ∀ ev ∈ ([] : List Event), ev.isEnd = false := by
    intro t
    exact ⟨by simp, fun ev hev => by cases hev⟩
  unfold SelectSession.eventMove
  by_cases h1 : s.drag = false
  · rw [if_pos h1]
    exact quiet s
  · rw [if_neg h1]
    simp only []
    by_cases h2 : s.pxMove + 1 ≤ s.slop
    · rw [if_pos h2]
      exact quiet { s with pxMove := s.pxMove + 1 }
    · rw [if_neg h2]
      cases h3 : event.multiTouch with
      | true => exact quiet { s with pxMove := s.pxMove + 1 }
      | false =>
        simp only [Bool.false_eq_true, if_false]
        cases h4 : event.otherTouch s.touchId with
        | true => exact quiet { s with pxMove := s.pxMove + 1 }
        | false =>
          simp only [Bool.false_eq_true, if_false]
          obtain ⟨c1, c2⟩ := createLyric_frame { s with pxMove := s.pxMove + 1 } ws freshId
          cases hl : (({ s with pxMove := s.pxMove + 1 } : SelectSession).createLyric ws
              freshId).1.lyric with
          | none =>
            simp only []
            refine ⟨?_, c2⟩
            rw [hl]
            rw [hl] at c1
            exact c1
          | some lyric =>
            simp only []
            rw [hl] at c1
            have hsome : (s.lyric ≠ none ∨ ∃ ev ∈ (({ s with pxMove := s.pxMove + 1 } :
                SelectSession).createLyric ws freshId).2, ev.isLyricCreated = true) :=
              c1.1 (by simp)
            obtain ⟨u1, u2⟩ := updateLyric_frame
              (({ s with pxMove := s.pxMove + 1 } : SelectSession).createLyric ws freshId).1
              ws lyric
              { start := some (min
                  (getLyricSnapToGridValue (event.position *
                    (({ s with pxMove := s.pxMove + 1 } : SelectSession).createLyric ws
                      freshId).1.duration)
                    (({ s with pxMove := s.pxMove + 1 } : SelectSession).createLyric ws
                      freshId).1.plugin.params)
                  (getLyricSnapToGridValue
                    ((({ s with pxMove := s.pxMove + 1 } : SelectSession).createLyric ws
                      freshId).1.start *
                    (({ s with pxMove := s.pxMove + 1 } : SelectSession).createLyric ws
                      freshId).1.duration)
                    (({ s with pxMove := s.pxMove + 1 } : SelectSession).createLyric ws
                      freshId).1.plugin.params)),
                end_ := some (max
                  (getLyricSnapToGridValue (event.position *
                    (({ s with pxMove := s.pxMove + 1 } : SelectSession).createLyric ws
                      freshId).1.duration)
                    (({ s with pxMove := s.pxMove + 1 } : SelectSession).createLyric ws
                      freshId).1.plugin.params)
                  (getLyricSnapToGridValue
                    ((({ s with pxMove := s.pxMove + 1 } : SelectSession).createLyric ws
                      freshId).1.start *
                    (({ s with pxMove := s.pxMove + 1 } : SelectSession).createLyric ws
                      freshId).1.duration)
                    (({ s with pxMove := s.pxMove + 1 } : SelectSession).createLyric ws
                      freshId).1.plugin.params)) }
            obtain ⟨m1, m2⟩ := select_scrollMove_frame _ ws event
            refine ⟨⟨fun _ => ?_, fun _ => m1.2 u1⟩, ?_⟩
            · rcases hsome with h | ⟨ev, hev, hc⟩
              · exact Or.inl h
              · exact Or.inr ⟨ev, by simp [hev], hc⟩
            · intro ev hev
              simp only [List.mem_append] at hev
              rcases hev with (h | h) | h
              · exact c2 ev h
              · exact (u2 ev h).1
              · exact (m2 ev h).1

theorem selectRun_cons (ws : WaveSurfer) (s : SelectSession) (i : SelectInput)
    (rest : List SelectInput) :
    SelectSession.run ws s (i :: rest)
      = ((SelectSession.run ws (s.step ws i).1 rest).1,
          (s.step ws i).2 ++ (SelectSession.run ws (s.step ws i).1 rest).2) := rfl

theorem selectRun_append (ws : WaveSurfer) (a b : List SelectInput) (s : SelectSession) :
    SelectSession.run ws s (a ++ b)
      = ((SelectSession.run ws (SelectSession.run ws s a).1 b).1,
          (SelectSession.run ws s a).2 ++ (SelectSession.run ws (SelectSession.run ws s a).1 b).2) := by
  induction a generalizing s with
  | nil => simp [SelectSession.run]
  | cons i rest ih =>
    rw [List.cons_append, selectRun_cons, selectRun_cons, ih]
    simp

theorem select_midStep_frame (ws : WaveSurfer) (s : SelectSession) (i : SelectInput)
    (hi : i.isMid = true) :
    ((s.step ws i).1.lyric ≠ none
      ↔ s.lyric ≠ none ∨ ∃ ev ∈ (s.step ws i).2, ev.isLyricCreated = true)
    ∧ ∀ ev ∈ (s.step ws i).2, ev.isEnd = false := by
  cases i with
  | down e => cases hi
  | up e => cases hi
  | move e freshId => exact eventMove_frame s ws e freshId
  | frame read =>
    have hstep : s.step ws (SelectInput.frame read)
        = if s.pendingFrames = 0 then (s, [])
          else ({ s with pendingFrames := s.pendingFrames - 1 } : SelectSession).edgeScroll
            ws read := rfl
    rw [hstep]
    by_cases hp : s.pendingFrames = 0
    · rw [if_pos hp]
      exact ⟨by simp, fun ev hev => by cases hev⟩
    · rw [if_neg hp]
      obtain ⟨f1, f2⟩ := select_edgeScroll_frame
        { s with pendingFrames := s.pendingFrames - 1 } ws read
      refine ⟨⟨fun h => Or.inl (f1.1 h), ?_⟩, fun ev hev => (f2 ev hev).1⟩
      rintro (h | ⟨ev, hev, hc⟩)
      · exact f1.2 h
      · rw [(f2 ev hev).2] at hc
        cases hc

/-- Moves and frames of a selection leave the lyric variable set exactly when it was set
or one of them fired `lyric-created`; they fire no end event. -/
theorem select_midRun_frame (ws : WaveSurfer) (mid : List SelectInput) (s : SelectSession)
    (hmid : ∀ i ∈ mid, i.isMid = true) :
    ((SelectSession.run ws s mid).1.lyric ≠ none
      ↔ s.lyric ≠ none ∨ ∃ ev ∈ (SelectSession.run ws s mid).2, ev.isLyricCreated = true)
    ∧ ∀ ev ∈ (SelectSession.run ws s mid).2, ev.isEnd = false := by
  induction mid generalizing s with
  | nil => exact ⟨by simp [SelectSession.run], fun ev hev => by cases hev⟩
  | cons i rest ih =>
    obtain ⟨m1, m2⟩ := select_midStep_frame ws s i (hmid i (List.mem_cons_self _ _))
    obtain ⟨r1, r2⟩ := ih (s.step ws i).1 (fun j hj => hmid j (List.mem_cons_of_mem _ hj))
    rw [selectRun_cons]
    refine ⟨?_, ?_⟩
    · show (SelectSession.run ws (s.step ws i).1 rest).1.lyric ≠ none ↔ _
      rw [r1, m1]
      constructor
      · rintro ((h | ⟨ev, hev, hc⟩) | ⟨ev, hev, hc⟩)
        · exact Or.inl h
        · exact Or.inr ⟨ev, List.mem_append_left _ hev, hc⟩
        · exact Or.inr ⟨ev, List.mem_append_right _ hev, hc⟩
      · rintro (h | ⟨ev, hev, hc⟩)
        · exact Or.inl (Or.inl h)
        · rcases List.mem_append.1 hev with h | h
          · exact Or.inl (Or.inr ⟨ev, h, hc⟩)
          · exact Or.inr ⟨ev, h, hc⟩
    · intro ev hev
      rcases List.mem_append.1 hev with h | h
      · exact m2 ev h
      · exact r2 ev h

/-- A single-pointer `eventUp` fires the two end events once each if the lyric variable is
set, nothing otherwise, and clears the variable. -/
theorem eventUp_single (s : SelectSession) (e : PointerEvent) (he : e.multiTouch = false) :
    (s.eventUp e).1.lyric = none
    ∧ (s.eventUp e).2.count Event.updateEnd = (if s.lyric ≠ none then 1 else 0)
    ∧ (s.eventUp e).2.countP Event.isLyricUpdateEnd = (if s.lyric ≠ none then 1 else 0)
    ∧ ∀ ev ∈ (s.eventUp e).2, ev.isLyricCreated = false := by
  unfold SelectSession.eventUp
  rw [he]
  simp only [Bool.false_eq_true, if_false]
  cases hl : s.lyric with
  | none =>
    simp only []
    exact ⟨trivial, by simp, by simp, fun ev hev => by cases hev⟩
  | some lyric =>
    simp only []
    refine ⟨trivial, by simp, by simp [Event.isLyricUpdateEnd], ?_⟩
    intro ev hev
    simp only [List.mem_cons, List.mem_singleton, List.not_mem_nil, or_false] at hev
    rcases hev with h | h | h <;> rw [h] <;> rfl

theorem select_upsRun_count (ws : WaveSurfer) (ups : List PointerEvent) (s : SelectSession)
    (hups : ∀ e ∈ ups, e.multiTouch = false) :
    (SelectSession.run ws s (ups.map SelectInput.up)).2.count Event.updateEnd
        = (if s.lyric ≠ none ∧ ups ≠ [] then 1 else 0)
    ∧ (SelectSession.run ws s (ups.map SelectInput.up)).2.countP Event.isLyricUpdateEnd
        = (if s.lyric ≠ none ∧ ups ≠ [] then 1 else 0)
    ∧ ∀ ev ∈ (SelectSession.run ws s (ups.map SelectInput.up)).2,
        ev.isLyricCreated = false := by
  induction ups generalizing s with
  | nil => exact ⟨by simp [SelectSession.run], by simp [SelectSession.run],
      fun ev hev => by cases hev⟩
  | cons e rest ih =>
    obtain ⟨u1, u2, u3, u4⟩ := eventUp_single s e (hups e (List.mem_cons_self _ _))
    obtain ⟨r1, r2, r3⟩ := ih (s.eventUp e).1 (fun j hj => hups j (List.mem_cons_of_mem _ hj))
    have hstep : s.step ws (SelectInput.up e) = s.eventUp e := rfl
    rw [List.map_cons, selectRun_cons, hstep]
    refine ⟨?_, ?_, ?_⟩
    · rw [List.count_append, u2, r1, u1]
      simp
    · rw [List.countP_append, u3, r2, u1]
      simp
    · intro ev hev
      rcases List.mem_append.1 hev with h | h
      · exact u4 ev h
      · exact r3 ev h

theorem count_of_no_end (evs : List Event) (h : ∀ ev ∈ evs, ev.isEnd = false) :
    evs.count Event.updateEnd = 0 ∧ evs.countP Event.isLyricUpdateEnd = 0 := by
  constructor
  · rw [List.count_eq_zero]
    intro hm
    have := h _ hm
    simp [Event.isEnd] at this
  · rw [List.countP_eq_zero]
    intro ev hm hc
    have := h ev hm
    simp [Event.isEnd, hc] at this

/-- C16: a selection session is a single-pointer pointer-down on the empty timeline, then
moves and animation frames, then one or more single-pointer runs of the up handler (it is
registered on the wrapper and on the document body). No end event is fired before the
first up. If a lyric was created during the session (`lyric-created` was fired),
`update-end` and `lyric-update-end` are each fired exactly once; otherwise neither is
fired. -/
theorem select_session_single_update_end (ws : WaveSurfer) (s : SelectSession)
    (d : PointerEvent) (mid : List SelectInput) (ups : List PointerEvent)
    (hd : d.multiTouch = false) (hmid : ∀ i ∈ mid, i.isMid = true)
    (hups : ∀ e ∈ ups, e.multiTouch = false) (hne : ups ≠ []) :
    (∀ ev ∈ (SelectSession.run ws s (SelectInput.down d :: mid)).2, ev.isEnd = false)
    ∧ ((∃ ev ∈ (SelectSession.run ws s
            (SelectInput.down d :: (mid ++ ups.map SelectInput.up))).2,
          ev.isLyricCreated = true)
      → (SelectSession.run ws s
            (SelectInput.down d :: (mid ++ ups.map SelectInput.up))).2.count
          Event.updateEnd = 1
        ∧ (SelectSession.run ws s
            (SelectInput.down d :: (mid ++ ups.map SelectInput.up))).2.countP
          Event.isLyricUpdateEnd = 1)
    ∧ ((¬ ∃ ev ∈ (SelectSession.run ws s
            (SelectInput.down d :: (mid ++ ups.map SelectInput.up))).2,
          ev.isLyricCreated = true)
      → (SelectSession.run ws s
            (SelectInput.down d :: (mid ++ ups.map SelectInput.up))).2.count
          Event.updateEnd = 0
        ∧ (SelectSession.run ws s
            (SelectInput.down d :: (mid ++ ups.map SelectInput.up))).2.countP
          Event.isLyricUpdateEnd = 0) := by
  have hstep : s.step ws (SelectInput.down d) = s.eventDown ws d := rfl
  have hdown : (s.eventDown ws d).2 = [] ∧ (s.eventDown ws d).1.lyric = none := by
    unfold SelectSession.eventDown
    rw [hd]
    exact ⟨rfl, rfl⟩
  obtain ⟨hd1, hd2⟩ := hdown
  obtain ⟨m1, m2⟩ := select_midRun_frame ws mid (s.eventDown ws d).1 hmid
  obtain ⟨u1, u2, u3⟩ := select_upsRun_count ws ups
    (SelectSession.run ws (s.eventDown ws d).1 mid).1 hups
  obtain ⟨q1, q2⟩ := count_of_no_end _ m2
  have hevs : (SelectSession.run ws s
        (SelectInput.down d :: (mid ++ ups.map SelectInput.up))).2
      = (SelectSession.run ws (s.eventDown ws d).1 mid).2
        ++ (SelectSession.run ws (SelectSession.run ws (s.eventDown ws d).1 mid).1
            (ups.map SelectInput.up)).2 := by
    rw [selectRun_cons, hstep, hd1, selectRun_append]
    rfl
  have hcreated : (∃ ev ∈ (SelectSession.run ws s
        (SelectInput.down d :: (mid ++ ups.map SelectInput.up))).2, ev.isLyricCreated = true)
      ↔ (SelectSession.run ws (s.eventDown ws d).1 mid).1.lyric ≠ none := by
    rw [hevs, m1]
    constructor
    · rintro ⟨ev, hev, hc⟩
      rcases List.mem_append.1 hev with h | h
      · exact Or.inr ⟨ev, h, hc⟩
      · rw [u3 ev h] at hc
        cases hc
    · rintro (h | ⟨ev, hev, hc⟩)
      · exact absurd hd2 h
      · exact ⟨ev, List.mem_append_left _ hev, hc⟩
  refine ⟨?_, ?_, ?_⟩
  · rw [selectRun_cons, hstep, hd1]
    exact m2
  · intro hc
    have hl := hcreated.1 hc
    rw [hevs, List.count_append, List.countP_append, q1, q2, u1, u2]
    simp [hl, hne]
  · intro hc
    have hl : ¬ (SelectSession.run ws (s.eventDown ws d).1 mid).1.lyric ≠ none :=
      fun h => hc (hcreated.2 h)
    rw [hevs, List.count_append, List.countP_append, q1, q2, u1, u2]
    simp [hl]

/-- C16 on a fresh selection with slop 2: a pointer-down at time 2, three moves to time 5
(the third creates the lyric) and the up handler run twice fire one `update-end` and one
`lyric-update-end`. -/
theorem select_session_single_update_end_witness :
    (SelectSession.run ws10 selectFresh
        (SelectInput.down (mouseAt (2 / 10))
          :: (List.replicate 3 (SelectInput.move (mouseAt (5 / 10)) "n")
            ++ [mouseAt (5 / 10), mouseAt (5 / 10)].map SelectInput.up))).2.count
      Event.updateEnd = 1
    ∧ (SelectSession.run ws10 selectFresh
        (SelectInput.down (mouseAt (2 / 10))
          :: (List.replicate 3 (SelectInput.move (mouseAt (5 / 10)) "n")
            ++ [mouseAt (5 / 10), mouseAt (5 / 10)].map SelectInput.up))).2.countP
      Event.isLyricUpdateEnd = 1 :=
  (select_session_single_update_end ws10 selectFresh (mouseAt (2 / 10))
    (List.replicate 3 (SelectInput.move (mouseAt (5 / 10)) "n"))
    [mouseAt (5 / 10), mouseAt (5 / 10)] rfl
    (by
      intro i hi
      rw [List.eq_of_mem_replicate hi]
      rfl)
    (by decide) (by simp)).2.1
    ⟨Event.lyricCreated "n", by decide!, rfl⟩

/-! ### Ownership of the lyrics -/

theorem propSet_of_not_mem {α : Type} (list : List (String × α)) (k : String) (v : α)
    (h : k ∉ list.map Prod.fst) : propSet list k v = list ++ [(k, v)] := by
  induction list with
  | nil => rfl
  | cons x rest ih =>
    obtain ⟨k0, v0⟩ := x
    simp only [List.map_cons, List.mem_cons, not_or] at h
    unfold propSet
    have hne : ¬ (k0 = k) := fun e => h.1 e.symm
    rw [if_neg hne, ih h.2]
    rfl

theorem mem_propDelete {α : Type} (list : List (String × α)) (k : String) (x : String × α) :
    x ∈ propDelete list k ↔ x ∈ list ∧ x.1 ≠ k := by
  unfold propDelete
  simp [List.mem_filter]

theorem propDelete_keys_nodup {α : Type} (list : List (String × α)) (k : String)
    (h : (list.map Prod.fst).Nodup) : ((propDelete list k).map Prod.fst).Nodup := by
  unfold propDelete
  exact (List.Nodup.sublist ((List.filter_sublist list).map Prod.fst) h)

/-- What `add` returns: `null` with the plugin unchanged, or a lyric that has the supplied
id (the generated one when none is supplied) and its DOM element. -/
theorem add_result (p : LyricsPlugin) (ws : WaveSurfer) (params : LyricParams)
    (freshId : String) :
    ((p.add ws params freshId).1 = none ∧ (p.add ws params freshId).2.1 = p)
    ∨ ∃ l, (p.add ws params freshId).1 = some l
        ∧ l.id = (match params.id with
          | some i => i
          | none => freshId)
        ∧ l.element ≠ none := by
  unfold LyricsPlugin.add
  by_cases hw : p.wouldExceedMaxLyrics = true
  · rw [if_pos hw]
    exact Or.inl ⟨rfl, rfl⟩
  · rw [if_neg hw]
    right
    simp only [Lyric.new, Lyric.updateRender]
    split_ifs <;> refine ⟨_, rfl, ?_, ?_⟩ <;> first | (cases params.id <;> rfl) | simp

theorem owns_new (pp : PluginParams) : (World.new pp).Owns := by
  unfold World.Owns World.new
  refine ⟨List.nodup_nil, ?_⟩
  intro k r
  simp

theorem owns_stored (w : World) (ho : w.Owns) (r : Nat) :
    r ∈ w.stored ↔ w.attached r = true := by
  unfold World.stored World.attached
  rw [List.mem_map]
  constructor
  · rintro ⟨⟨k, r'⟩, hm, hr⟩
    simp only at hr
    subst hr
    obtain ⟨l, hl, he, -⟩ := (ho.2 k r').1 hm
    rw [hl]
    cases hle : l.element with
    | none => exact absurd hle he
    | some e => simp [hle]
  · intro h
    cases hl : w.objects[r]? with
    | none =>
      rw [hl] at h
      cases h
    | some l =>
      rw [hl] at h
      have he : l.element ≠ none := by
        intro hn
        simp [hn] at h
      exact ⟨(l.id, r), (ho.2 l.id r).2 ⟨l, hl, he, rfl⟩, rfl⟩

theorem owns_add (w : World) (ws : WaveSurfer) (params : LyricParams) (freshId : String)
    (ho : w.Owns)
    (hfresh : (match params.id with
      | some i => i
      | none => freshId) ∉ w.refs.map Prod.fst) :
    (w.add ws params freshId).2.1.Owns := by
  rcases add_result w.plugin ws params freshId with ⟨h1, -⟩ | ⟨l, h1, hid, hel⟩
  · have : w.add ws params freshId = (none, w, []) := by
      unfold World.add
      rcases hadd : w.plugin.add ws params freshId with ⟨o, plugin, events⟩
      rw [hadd] at h1
      simp only at h1
      subst h1
      rfl
    rw [this]
    exact ho
  · have : (w.add ws params freshId).2.1
        = { plugin := (w.plugin.add ws params freshId).2.1
            objects := w.objects ++ [l]
            refs := propSet w.refs l.id w.objects.length } := by
      unfold World.add
      rcases hadd : w.plugin.add ws params freshId with ⟨o, plugin, events⟩
      rw [hadd] at h1
      simp only at h1
      subst h1
      rfl
    rw [this]
    rw [← hid] at hfresh
    unfold World.Owns
    simp only [propSet_of_not_mem _ _ _ hfresh]
    refine ⟨?_, ?_⟩
    · rw [List.map_append, List.nodup_append]
      refine ⟨ho.1, by simp, ?_⟩
      intro a ha hb
      simp only [List.map_cons, List.map_nil, List.mem_singleton] at hb
      subst hb
      exact hfresh ha
    · intro k r
      rw [List.mem_append, ho.2 k r]
      simp only [List.mem_singleton, Prod.mk.injEq]
      constructor
      · rintro (⟨l0, hl0, he0, hid0⟩ | ⟨hk, hr⟩)
        · refine ⟨l0, ?_, he0, hid0⟩
          rw [List.getElem?_append_left (List.getElem?_eq_some.1 hl0).1]
          exact hl0
        · subst hr
          subst hk
          exact ⟨l, by simp, hel, rfl⟩
      · rintro ⟨l0, hl0, he0, hid0⟩
        by_cases hlt : r < w.objects.length
        · left
          rw [List.getElem?_append_left hlt] at hl0
          exact ⟨l0, hl0, he0, hid0⟩
        · right
          have hge : w.objects.length ≤ r := not_lt.1 hlt
          rw [List.getElem?_append_right hge] at hl0
          have hr : r - w.objects.length = 0 := by
            by_contra hne
            have : ([l] : List Lyric)[r - w.objects.length]? = none := by
              apply List.getElem?_eq_none
              simp only [List.length_singleton]
              omega
            rw [this] at hl0
            cases hl0
          rw [hr] at hl0
          simp only [List.getElem?_cons_zero, Option.some.injEq] at hl0
          subst hl0
          exact ⟨hid0.symm, by omega⟩

theorem owns_remove (w : World) (ref : Nat) (ho : w.Owns) :
    (w.remove ref).1.Owns
    ∧ ∀ r, r ≠ ref → (w.remove ref).1.attached r = w.attached r := by
  unfold World.remove
  cases hl : w.objects[ref]? with
  | none => exact ⟨ho, fun _ _ => rfl⟩
  | some l =>
    cases he : l.element with
    | none =>
      simp only [he]
      exact ⟨ho, fun _ _ => trivial⟩
    | some e =>
      simp only [he]
      have hlt : ref < w.objects.length := (List.getElem?_eq_some.1 hl).1
      have hrem : (l.remove).1.element = none := remove_detaches l
      have hmem : (l.id, ref) ∈ w.refs := (ho.2 l.id ref).2 ⟨l, hl, by simp [he], rfl⟩
      refine ⟨⟨propDelete_keys_nodup _ _ ho.1, ?_⟩, ?_⟩
      · intro k r
        rw [mem_propDelete]
        simp only [ne_eq]
        by_cases hr : ref = r
        · subst hr
          rw [List.getElem?_set_self hlt]
          constructor
          · rintro ⟨hm, hk⟩
            obtain ⟨l0, hl0, -, hid0⟩ := (ho.2 k ref).1 hm
            rw [hl] at hl0
            simp only [Option.some.injEq] at hl0
            subst hl0
            exact absurd hid0.symm hk
          · rintro ⟨l0, hl0, he0, -⟩
            simp only [Option.some.injEq] at hl0
            subst hl0
            exact absurd hrem he0
        · rw [List.getElem?_set_ne hr, ← ho.2 k r]
          constructor
          · rintro ⟨hm, -⟩
            exact hm
          · intro hm
            refine ⟨hm, ?_⟩
            intro hk
            subst hk
            have hpair : (l.id, r) = (l.id, ref) := by
              have hnd := ho.1
              rw [List.nodup_iff_injective_get] at hnd
              obtain ⟨i, hi⟩ := List.get_of_mem hm
              obtain ⟨j, hj⟩ := List.get_of_mem hmem
              have hij : (w.refs.map Prod.fst).get ⟨i.1, by simp [i.2]⟩
                  = (w.refs.map Prod.fst).get ⟨j.1, by simp [j.2]⟩ := by
                simp only [List.get_eq_getElem, List.getElem_map]
                have h1 : w.refs[i.1] = (l.id, r) := hi
                have h2 : w.refs[j.1] = (l.id, ref) := hj
                rw [h1, h2]
              have := hnd hij
              simp only [Fin.mk.injEq] at this
              have hij2 : i = j := Fin.ext this
              rw [← hi, ← hj, hij2]
            simp only [Prod.mk.injEq, true_and] at hpair
            exact hr hpair.symm
      · intro r hr
        unfold World.attached
        simp only []
        rw [List.getElem?_set_ne (Ne.symm hr)]

theorem owns_run (ws : WaveSurfer) (ops : List StoreOp) (w : World) (ho : w.Owns)
    (hf : World.freshIds ws w ops) : (World.run ws w ops).Owns := by
  induction ops generalizing w with
  | nil => exact ho
  | cons op rest ih =>
    cases op with
    | add params freshId =>
      obtain ⟨h1, h2⟩ := hf
      exact ih _ (owns_add w ws params freshId ho h1) h2
    | remove ref =>
      exact ih _ (owns_remove w ref ho).1 hf

/-- The claim C20 fails when an id is supplied twice: after `add` with id `x` twice, the
first lyric is attached but the store does not hold it; and removing the first lyric
evicts the second, which is still attached. -/
theorem duplicate_id_breaks_ownership :
    (World.run ws10 (World.new {})
        [StoreOp.add { id := some "x" } "g1", StoreOp.add { id := some "x" } "g2"]).attached 0
      = true
    ∧ 0 ∉ (World.run ws10 (World.new {})
        [StoreOp.add { id := some "x" } "g1", StoreOp.add { id := some "x" } "g2"]).stored
    ∧ (World.run ws10 (World.new {})
        [StoreOp.add { id := some "x" } "g1", StoreOp.add { id := some "x" } "g2",
          StoreOp.remove 0]).attached 1 = true
    ∧ 1 ∉ (World.run ws10 (World.new {})
        [StoreOp.add { id := some "x" } "g1", StoreOp.add { id := some "x" } "g2",
          StoreOp.remove 0]).stored := by
  decide!

/-- C20 (amended): starting from a fresh plugin, after any sequence of `add(params)` calls
and `remove()` calls in which no `add` uses an id (supplied, or generated when none is
supplied) that is a key of the store at that moment, the store holds exactly the lyrics
returned by `add` and not removed; and a further `remove()` on one lyric leaves every other
attached lyric in the store. -/
theorem store_owns_lyrics (pp : PluginParams) (ws : WaveSurfer) (ops : List StoreOp)
    (hf : World.freshIds ws (World.new pp) ops) :
    (∀ r, r ∈ (World.run ws (World.new pp) ops).stored
        ↔ (World.run ws (World.new pp) ops).attached r = true)
    ∧ ∀ ref r, r ≠ ref → (World.run ws (World.new pp) ops).attached r = true
        → r ∈ ((World.run ws (World.new pp) ops).remove ref).1.stored := by
  have ho := owns_run ws ops (World.new pp) (owns_new pp) hf
  refine ⟨owns_stored _ ho, ?_⟩
  intro ref r hr ha
  obtain ⟨ho2, hatt⟩ := owns_remove (World.run ws (World.new pp) ops) ref ho
  rw [owns_stored _ ho2, hatt r hr]
  exact ha

/-- C20 (amended) on a fresh plugin: `add` with id `x`, `add` with the generated id `g2`,
then `remove()` on the first lyric; the store holds the second lyric and not the first. -/
theorem store_owns_lyrics_witness :
    1 ∈ (World.run ws10 (World.new {})
        [StoreOp.add { id := some "x" } "g1", StoreOp.add {} "g2", StoreOp.remove 0]).stored
    ∧ 0 ∉ (World.run ws10 (World.new {})
        [StoreOp.add { id := some "x" } "g1", StoreOp.add {} "g2", StoreOp.remove 0]).stored :=
  have h := store_owns_lyrics {} ws10
    [StoreOp.add { id := some "x" } "g1", StoreOp.add {} "g2", StoreOp.remove 0]
    (by
      simp only [World.freshIds]
      decide!)
  ⟨(h.1 1).2 (by decide!), fun hm => absurd ((h.1 0).1 hm) (by decide!)⟩

/-! ### Defaults, playing and the render-time geometry -/

/-- C21, the code at the failing input: a lyric constructed from params that give only
`start` and `end` has `drag = false` and `resize = false`, also when it comes from `add`;
the `LyricParams` typedef documents `drag=true` and `resize=true`. -/
theorem constructor_defaults_drag_resize_false :
    (Lyric.new { start := some 2, end_ := some 8 } ws10 "x").1.drag = false
    ∧ (Lyric.new { start := some 2, end_ := some 8 } ws10 "x").1.resize = false
    ∧ ((LyricsPlugin.new {}).add ws10 { start := some 2, end_ := some 8 } "x").1.map Lyric.drag
        = some false
    ∧ ((LyricsPlugin.new {}).add ws10 { start := some 2, end_ := some 8 } "x").1.map
        Lyric.resize = some false := by
  decide!

/-- What `play` tells the transport: the offset when one is supplied and is not zero, the
lyric's start otherwise; always up to the lyric's end. -/
theorem play_transport (l : Lyric) (start : Option ℚ) :
    (l.play start).2
      = [Event.transportPlay
          (match start with
            | some x => if x ≠ 0 then x else l.start
            | none => l.start) (some l.end_),
          Event.play, Event.lyricPlay l.id] := by
  unfold Lyric.play orElse
  cases start <;> rfl

/-- C22, the code at the failing input: on the lyric `[2, 8]`, `play(0)` tells the
transport to play from 2 (the lyric's start), not from 0; `play(3)` plays from 3 and
`play()` from 2, each up to 8. -/
theorem play_zero_offset_plays_from_start :
    (lyric28.play (some 0)).2
      = [Event.transportPlay 2 (some 8), Event.play, Event.lyricPlay "a"]
    ∧ (lyric28.play (some 3)).2
      = [Event.transportPlay 3 (some 8), Event.play, Event.lyricPlay "a"]
    ∧ (lyric28.play none).2
      = [Event.transportPlay 2 (some 8), Event.play, Event.lyricPlay "a"] := by
  decide!

/-- C23, the code at the failing inputs: with duration 10 and no length constraint, the
bounds `[-2, 4]` are rendered as `(0, 4)`, not `(0, 6)`, and the bounds `[5, 12]` as
`(5, 10)`, not `(3, 10)`: the span 6, respectively 7, is not kept. -/
theorem limited_does_not_keep_length :
    limited (-2) 4 10 none none = (0, 4)
    ∧ limited 5 12 10 none none = (5, 10)
    ∧ (limited (-2) 4 10 none none).2 - (limited (-2) 4 10 none none).1 ≠ 4 - (-2)
    ∧ (limited 5 12 10 none none).2 - (limited 5 12 10 none none).1 ≠ 12 - 5 := by
  decide!

/-- What the bounds clamp of `updateRender` computes: a negative start becomes 0 and an
end beyond the duration becomes the duration, each bound on its own. -/
theorem limited_unconstrained (start end_ dur : ℚ) :
    limited start end_ dur none none
      = (if start < 0 then 0 else start, if end_ > dur then dur else end_) := by
  unfold limited
  by_cases h1 : start < 0
  · by_cases h2 : end_ > dur
    · have h3 : end_ - 0 > dur := by linarith
      simp only [h1, h2, h3, if_true]
      simp
    · have h3 : ¬ (end_ - 0 > dur) := by linarith
      simp only [h1, h2, h3, if_true, if_false]
      simp
  · by_cases h2 : end_ > dur
    · simp only [h1, h2, if_true, if_false]
      simp
    · simp only [h1, h2, if_false]

/-- The geometry with length constraints is the clamped pair with its end enforced. -/
theorem limited_eq_enforced (start end_ dur : ℚ) (mn mx : Option ℚ) :
    limited start end_ dur mn mx
      = ((limited start end_ dur none none).1,
          enforcedEnd (limited start end_ dur none none).1 (limited start end_ dur none none).2
            mn mx) := by
  unfold limited enforcedEnd
  cases mn <;> cases mx <;> simp only []

/-- C24: after the bounds clamp to `(s, e)`, length enforcement keeps `s` and sets the end
to `min(s + maxLength, max(s + minLength, e))`, a step being skipped when its constraint
is unset; so with both set and `minLength > maxLength` the span is exactly `maxLength`, and
with only `minLength` set the span is at least `minLength`. -/
theorem limited_length_enforcement (start end_ dur : ℚ) (mn mx : Option ℚ) :
    (limited start end_ dur mn mx).1 = (limited start end_ dur none none).1
    ∧ (limited start end_ dur mn mx).2
        = enforcedEnd (limited start end_ dur none none).1
            (limited start end_ dur none none).2 mn mx
    ∧ (∀ m M : ℚ, m > M →
        (limited start end_ dur (some m) (some M)).2
          - (limited start end_ dur (some m) (some M)).1 = M)
    ∧ (∀ m : ℚ, (limited start end_ dur (some m) none).2
          - (limited start end_ dur (some m) none).1 ≥ m) := by
  refine ⟨?_, ?_, ?_, ?_⟩
  · rw [limited_eq_enforced]
  · rw [limited_eq_enforced]
  · intro m M hmM
    rw [limited_eq_enforced]
    simp only [enforcedEnd]
    have h1 : (limited start end_ dur none none).1 + m
        ≤ max ((limited start end_ dur none none).1 + m) (limited start end_ dur none none).2 :=
      le_max_left _ _
    rw [min_eq_left (by linarith)]
    ring
  · intro m
    rw [limited_eq_enforced]
    simp only [enforcedEnd]
    have h1 : (limited start end_ dur none none).1 + m
        ≤ max ((limited start end_ dur none none).1 + m) (limited start end_ dur none none).2 :=
      le_max_left _ _
    linarith

/-- C24 on the bounds `[2, 8]`, duration 10: with `minLength = 7` and `maxLength = 3` the
rendered span is 3; with only `minLength = 7` it is 7. -/
theorem limited_length_enforcement_witness :
    (limited 2 8 10 (some 7) (some 3)).2 - (limited 2 8 10 (some 7) (some 3)).1 = 3
    ∧ limited 2 8 10 (some 7) (some 3) = (2, 5)
    ∧ limited 2 8 10 (some 7) none = (2, 9) :=
  ⟨(limited_length_enforcement 2 8 10 (some 7) (some 3)).2.2.1 7 3 (by norm_num),
    by decide!, by decide!⟩

/-! ### Resizing within the length constraints -/

/-- The bounds `onResize` stores, in terms of the delta it applies. -/
theorem onResize_bounds (l : Lyric) (ws : WaveSurfer) (delta : ℚ) :
    (l.onResize ws delta Side.start).1.start
        = min (l.start + l.resizeDelta ws delta Side.start) l.end_
    ∧ (l.onResize ws delta Side.start).1.end_
        = max (l.start + l.resizeDelta ws delta Side.start) l.end_
    ∧ (l.onResize ws delta Side.end_).1.start
        = min (l.end_ + l.resizeDelta ws delta Side.end_) l.start
    ∧ (l.onResize ws delta Side.end_).1.end_
        = max (l.end_ + l.resizeDelta ws delta Side.end_) l.start := by
  refine ⟨?_, ?_, ?_, ?_⟩ <;>
    (unfold Lyric.onResize Lyric.resizeDelta
     first
       | (rw [update_start]; rfl)
       | (rw [update_end]; rfl))

/-- C25: for a lyric with `0 <= minLength <= end - start <= maxLength` and
`0 <= start <= end <= duration`, any `delta` and either side, `onResize(delta, side)`
leaves `minLength <= end - start <= maxLength`, leaves the bound opposite to the resized
side unchanged (no handle flip) and leaves `0 <= start <= end <= duration`. -/
theorem onResize_keeps_length_constraints (l : Lyric) (ws : WaveSurfer) (delta m M : ℚ)
    (side : Side) (hm : l.minLength = some m) (hM : l.maxLength = some M)
    (h0m : 0 ≤ m) (hms : m ≤ l.end_ - l.start) (hsM : l.end_ - l.start ≤ M)
    (h0 : 0 ≤ l.start) (h2 : l.end_ ≤ ws.duration) :
    m ≤ (l.onResize ws delta side).1.end_ - (l.onResize ws delta side).1.start
    ∧ (l.onResize ws delta side).1.end_ - (l.onResize ws delta side).1.start ≤ M
    ∧ (side = Side.start → (l.onResize ws delta side).1.end_ = l.end_)
    ∧ (side = Side.end_ → (l.onResize ws delta side).1.start = l.start)
    ∧ 0 ≤ (l.onResize ws delta side).1.start
    ∧ (l.onResize ws delta side).1.start ≤ (l.onResize ws delta side).1.end_
    ∧ (l.onResize ws delta side).1.end_ ≤ ws.duration := by
  obtain ⟨b1, b2, b3, b4⟩ := onResize_bounds l ws delta
  cases side with
  | start =>
    have hD : 0 ≤ l.start + l.resizeDelta ws delta Side.start
        ∧ l.start + l.resizeDelta ws delta Side.start ≤ l.end_ - m
        ∧ l.end_ - M ≤ l.start + l.resizeDelta ws delta Side.start := by
      simp only [Lyric.resizeDelta, hm, hM, ite_and]
      split_ifs <;> refine ⟨?_, ?_, ?_⟩ <;> linarith
    obtain ⟨d1, d2, d3⟩ := hD
    have hle : l.start + l.resizeDelta ws delta Side.start ≤ l.end_ := by linarith
    rw [b1, b2, max_eq_right hle, min_eq_left hle]
    exact ⟨by linarith, by linarith, fun _ => rfl, fun h => (by cases h), d1, hle, h2⟩
  | end_ =>
    have hD : l.end_ + l.resizeDelta ws delta Side.end_ ≤ ws.duration
        ∧ l.start + m ≤ l.end_ + l.resizeDelta ws delta Side.end_
        ∧ l.end_ + l.resizeDelta ws delta Side.end_ ≤ l.start + M := by
      simp only [Lyric.resizeDelta, hm, hM, ite_and]
      split_ifs <;> refine ⟨?_, ?_, ?_⟩ <;> linarith
    obtain ⟨d1, d2, d3⟩ := hD
    have hle : l.start ≤ l.end_ + l.resizeDelta ws delta Side.end_ := by linarith
    rw [b3, b4, max_eq_left hle, min_eq_right hle]
    exact ⟨by linarith, by linarith, fun h => (by cases h), fun _ => rfl, h0, hle, d1⟩

/-- C25 on `[2, 8]` with `minLength = 3` and `maxLength = 7`, duration 10: moving the end
by 5 stops at 9 (span 7), the start stays at 2. -/
theorem onResize_keeps_length_constraints_witness :
    (3 : ℚ) ≤ (({ lyric28min3 with maxLength := some 7 } : Lyric).onResize ws10 5 Side.end_).1.end_
        - (({ lyric28min3 with maxLength := some 7 } : Lyric).onResize ws10 5 Side.end_).1.start
    ∧ (({ lyric28min3 with maxLength := some 7 } : Lyric).onResize ws10 5 Side.end_).1.end_
        - (({ lyric28min3 with maxLength := some 7 } : Lyric).onResize ws10 5 Side.end_).1.start
        ≤ 7
    ∧ (({ lyric28min3 with maxLength := some 7 } : Lyric).onResize ws10 5 Side.end_).1.start = 2
    ∧ (({ lyric28min3 with maxLength := some 7 } : Lyric).onResize ws10 5 Side.end_).1.end_ = 9 :=
  have h := onResize_keeps_length_constraints { lyric28min3 with maxLength := some 7 } ws10 5
    3 7 Side.end_ rfl rfl (by norm_num) (by decide!) (by decide!) (by decide!) (by decide!)
  ⟨h.1, h.2.1, h.2.2.2.1 rfl, by decide!⟩

/-! ### Drag selection: touches, the length floor and the grid -/

/-- C26: a pointer-move reporting two touches is not ignored by an armed drag selection:
`eventMove` counts it in `pxMove` before it looks at the touches. After a one-finger touch
at `0.2`, a two-finger move takes `pxMove` from 0 to 1, and two such moves followed by one
one-finger move create the lyric, which the one-finger move alone does not. Pointer-down and
pointer-up with two touches do leave the state unchanged. -/
theorem eventMove_counts_multi_touch :
    selectArmed.drag = true ∧ selectArmed.pxMove = 0
    ∧ (touchAt 2 (5 / 10)).multiTouch = true
    ∧ (selectArmed.eventMove ws10 (touchAt 2 (5 / 10)) "n").1 = { selectArmed with pxMove := 1 }
    ∧ (selectArmed.eventDown ws10 (touchAt 2 (5 / 10))).1 = selectArmed
    ∧ (selectArmed.eventUp (touchAt 2 (5 / 10))).1 = selectArmed
    ∧ ((SelectSession.run ws10 selectArmed
          [SelectInput.move (touchAt 2 (5 / 10)) "n", SelectInput.move (touchAt 2 (5 / 10)) "n",
           SelectInput.move (touchAt 1 (5 / 10)) "n"]).1.lyric).isSome = true
    ∧ (SelectSession.run ws10 selectArmed
          [SelectInput.move (touchAt 1 (5 / 10)) "n"]).1.lyric = none := by
  decide!

/-- C27: the plugin's `lyricsMinLength` is not only a default. With `lyricsMinLength = 1`,
`add({start: 2, end: 8, minLength: 0})` returns a lyric with `minLength = 1`, and once drag
selection is enabled `add({start: 2, end: 8, minLength: 2})` returns a lyric with
`minLength = 1` too; without drag selection the latter keeps `minLength = 2`. -/
theorem add_overrides_minLength :
    ((storeMin1 false).add ws10 { start := some 2, end_ := some 8, minLength := some 0 } "n").1.map
        Lyric.minLength = some (some 1)
    ∧ ((storeMin1 true).add ws10 { start := some 2, end_ := some 8, minLength := some 2 } "n").1.map
        Lyric.minLength = some (some 1)
    ∧ ((storeMin1 false).add ws10 { start := some 2, end_ := some 8, minLength := some 2 } "n").1.map
        Lyric.minLength = some (some 2) := by
  decide!

/-- C30: the update issued by an edge-autoscroll run of the drag selection is not quantized.
On a grid of interval 1, after a mouse-down at `0.22` (anchor `2.2`, on the grid `2`) the
third move, inside the edge band, sets off an edge scroll reading the pointer at `0.55`: the
lyric is left with `start = 2.2` and `end = 5.5`, neither on the grid, where the quantized
anchor and pointer times are `2` and `6`; the move without the edge scroll stores `[2, 5]`. -/
theorem select_edgeScroll_not_quantized :
    (SelectSession.run ws10 selectGrid
        [SelectInput.down (mouseAt (22 / 100)), SelectInput.move (mouseAt (3 / 10)) "n",
         SelectInput.move (mouseAt (4 / 10)) "n", SelectInput.move mouseInEdgeBand "n"]).1.lyric.map
      (fun l => (l.start, l.end_)) = some (22 / 10, 55 / 10)
    ∧ getLyricSnapToGridValue (22 / 100 * 10) selectGrid.plugin.params = 2
    ∧ getLyricSnapToGridValue (55 / 100 * 10) selectGrid.plugin.params = 6
    ∧ (SelectSession.run ws10 selectGrid
        [SelectInput.down (mouseAt (22 / 100)), SelectInput.move (mouseAt (3 / 10)) "n",
         SelectInput.move (mouseAt (4 / 10)) "n", SelectInput.move (mouseAt (5 / 10)) "n"]).1.lyric.map
      (fun l => (l.start, l.end_)) = some (2, 5) := by
  decide!

/-! ### Sequences of playback ticks -/

theorem loopHandler_no_inOut (l : Lyric) (ws : WaveSurfer) :
    (l.loopHandler ws).filter Event.isInOut = [] := by
  simp only [Lyric.loopHandler]
  split_ifs <;> rfl

/-- One tick from a state whose flags are not both set: nothing, `in` or `out`, with the
flags it leaves. -/
theorem tick_cases (l : Lyric) (ws : WaveSurfer) (t : Tick)
    (h : ¬ (l.firedIn = true ∧ l.firedOut = true)) :
    ((l.tick ws t).2.filter Event.isInOut = []
        ∧ (l.tick ws t).1.firedIn = l.firedIn ∧ (l.tick ws t).1.firedOut = l.firedOut)
    ∨ (l.firedIn = false ∧ (l.tick ws t).2.filter Event.isInOut = [Event.in_]
        ∧ (l.tick ws t).1.firedIn = true ∧ (l.tick ws t).1.firedOut = false)
    ∨ (l.firedIn = true ∧ (l.tick ws t).2.filter Event.isInOut = [Event.out]
        ∧ (l.tick ws t).1.firedIn = false ∧ (l.tick ws t).1.firedOut = true) := by
  unfold Lyric.tick
  obtain ⟨hin, hout, hnone⟩ := onProcess_cases ({ l with start := t.start, end_ := t.end_ } : Lyric)
    { ws with currentTime := t.currentTime } t.time h
  by_cases c1 : l.firedIn = false ∧ roundTenth t.start ≤ roundTenth t.time
      ∧ roundTenth t.time < roundTenth t.end_
  · right; left
    rw [hin c1]
    exact ⟨c1.1, rfl, rfl, rfl⟩
  · by_cases c2 : l.firedIn = true ∧ (roundTenth t.time < roundTenth t.start
        ∨ roundTenth t.time ≥ roundTenth t.end_)
    · right; right
      rw [hout c2]
      refine ⟨c2.1, ?_, rfl, rfl⟩
      rw [List.filter_append, List.filter_append, loopHandler_no_inOut]
      rfl
    · left
      rw [hnone c1 c2]
      exact ⟨rfl, rfl, rfl⟩

/-- The `in` and `out` events of a sequence of ticks alternate from the state it starts in,
and the flags are never both set afterwards. -/
theorem ticks_inOut (ws : WaveSurfer) (ts : List Tick) (l : Lyric)
    (h : ¬ (l.firedIn = true ∧ l.firedOut = true)) :
    ¬ ((l.ticks ws ts).1.firedIn = true ∧ (l.ticks ws ts).1.firedOut = true)
    ∧ (l.ticks ws ts).2.filter Event.isInOut
        = inOutFrom l.firedIn ((l.ticks ws ts).2.filter Event.isInOut).length := by
  induction ts generalizing l with
  | nil => exact ⟨h, rfl⟩
  | cons t rest ih =>
    show ¬ ((Lyric.ticks (l.tick ws t).1 ws rest).1.firedIn = true
          ∧ (Lyric.ticks (l.tick ws t).1 ws rest).1.firedOut = true)
      ∧ ((l.tick ws t).2 ++ (Lyric.ticks (l.tick ws t).1 ws rest).2).filter Event.isInOut
        = inOutFrom l.firedIn
            (((l.tick ws t).2 ++ (Lyric.ticks (l.tick ws t).1 ws rest).2).filter
              Event.isInOut).length
    rw [List.filter_append]
    rcases tick_cases l ws t h with ⟨e, f1, f2⟩ | ⟨f0, e, f1, f2⟩ | ⟨f0, e, f1, f2⟩
    · have h2 : ¬ ((l.tick ws t).1.firedIn = true ∧ (l.tick ws t).1.firedOut = true) := by
        rw [f1, f2]
        exact h
      obtain ⟨i1, i2⟩ := ih (l.tick ws t).1 h2
      rw [e, List.nil_append, ← f1]
      exact ⟨i1, i2⟩
    · have h2 : ¬ ((l.tick ws t).1.firedIn = true ∧ (l.tick ws t).1.firedOut = true) := by
        rw [f1, f2]
        rintro ⟨-, hc⟩
        cases hc
      obtain ⟨i1, i2⟩ := ih (l.tick ws t).1 h2
      refine ⟨i1, ?_⟩
      rw [e, List.singleton_append, List.length_cons, f0]
      show _ = Event.in_ :: inOutFrom true _
      rw [← f1, ← i2]
    · have h2 : ¬ ((l.tick ws t).1.firedIn = true ∧ (l.tick ws t).1.firedOut = true) := by
        rw [f1, f2]
        rintro ⟨hc, -⟩
        cases hc
      obtain ⟨i1, i2⟩ := ih (l.tick ws t).1 h2
      refine ⟨i1, ?_⟩
      rw [e, List.singleton_append, List.length_cons, f0]
      show _ = Event.out :: inOutFrom false _
      rw [← f1, ← i2]

/-- C28: from a state with `firedIn = false`, as `bindInOut` sets it up, after every
sequence of playback ticks, with arbitrary times and arbitrary bounds at each tick,
`firedIn` and `firedOut` are not both true, one more tick emits at most one of `in`, `out`,
and the `in` and `out` events emitted so far strictly alternate, starting with `in`. -/
theorem ticks_alternate (l : Lyric) (ws : WaveSurfer) (ts : List Tick) (t : Tick)
    (hin : l.firedIn = false) :
    ¬ ((l.ticks ws ts).1.firedIn = true ∧ (l.ticks ws ts).1.firedOut = true)
    ∧ (((l.ticks ws ts).1.tick ws t).2.filter Event.isInOut).length ≤ 1
    ∧ (l.ticks ws ts).2.filter Event.isInOut
        = inOutFrom false ((l.ticks ws ts).2.filter Event.isInOut).length := by
  have h : ¬ (l.firedIn = true ∧ l.firedOut = true) := by
    rw [hin]
    rintro ⟨hc, -⟩
    cases hc
  obtain ⟨i1, i2⟩ := ticks_inOut ws ts l h
  rw [hin] at i2
  refine ⟨i1, ?_, i2⟩
  rcases tick_cases (l.ticks ws ts).1 ws t i1 with ⟨e, -, -⟩ | ⟨-, e, -, -⟩ | ⟨-, e, -, -⟩ <;>
    rw [e] <;> simp

/-- C28 on the lyric `[2, 8]`: ticks at 1, 3 and 9, then at 5 with the lyric moved to
`[4, 6]`, emit `in`, `out`, `in`. -/
theorem ticks_alternate_witness :
    (lyric28.ticks ws10 [⟨2, 8, 1, 1⟩, ⟨2, 8, 3, 3⟩, ⟨2, 8, 9, 9⟩, ⟨4, 6, 5, 5⟩]).2.filter
        Event.isInOut = [Event.in_, Event.out, Event.in_]
    ∧ ¬ ((lyric28.ticks ws10 [⟨2, 8, 1, 1⟩, ⟨2, 8, 3, 3⟩, ⟨2, 8, 9, 9⟩, ⟨4, 6, 5, 5⟩]).1.firedIn
          = true
        ∧ (lyric28.ticks ws10 [⟨2, 8, 1, 1⟩, ⟨2, 8, 3, 3⟩, ⟨2, 8, 9, 9⟩, ⟨4, 6, 5, 5⟩]).1.firedOut
          = true) :=
  ⟨by decide!,
    (ticks_alternate lyric28 ws10 [⟨2, 8, 1, 1⟩, ⟨2, 8, 3, 3⟩, ⟨2, 8, 9, 9⟩, ⟨4, 6, 5, 5⟩]
      ⟨2, 8, 9, 9⟩ rfl).1⟩

/-! ### The grabbed point during a drag -/

/-- The pointer time a move keeps while the lyric body is dragged. -/
theorem moveTime_drag (s : DragSession) (pp : PluginParams) (ws : WaveSurfer)
    (e : PointerEvent) (hd : s.st.drag = true) (hr : s.st.resize = none) :
    s.moveTime pp ws e
      = max s.st.lyricLeftHalfTime
          (min (getLyricSnapToGridValue (e.position * ws.duration) pp)
            (ws.duration - s.st.lyricRightHalfTime)) := by
  have e1 : ∀ T a : ℚ, (if T > a then a else T) = min T a := by
    intro T a
    split_ifs with h
    · exact (min_eq_right (le_of_lt h)).symm
    · exact (min_eq_left (not_lt.1 h)).symm
  have e2 : ∀ t L : ℚ, (if t - L < 0 then L else t) = max L t := by
    intro t L
    split_ifs with h
    · exact (max_eq_left (by linarith)).symm
    · exact (max_eq_right (by linarith)).symm
  unfold DragSession.moveTime
  simp only [hd, hr, if_true, e1, e2]

/-- A delta which keeps the lyric inside the timeline is applied by `onDrag` as it is. -/
theorem onDrag_exact (l : Lyric) (ws : WaveSurfer) (delta : ℚ)
    (h1 : l.end_ + delta ≤ ws.duration) (h2 : 0 ≤ l.start + delta) :
    (l.onDrag ws delta).1.start = l.start + delta
    ∧ (l.onDrag ws delta).1.end_ = l.end_ + delta := by
  obtain ⟨b1, b2⟩ := onDrag_bounds l ws delta
  rw [if_neg (not_lt.2 h1), if_neg (not_lt.2 h2)] at b1 b2
  exact ⟨b1, b2⟩

/-- The state a move without edge scroll leaves while the lyric body is dragged. -/
theorem onMove_drag_state (s : DragSession) (pp : PluginParams) (ws : WaveSurfer)
    (e : PointerEvent) (hl : s.lyric.drag = true) (hd : s.st.drag = true)
    (hr : s.st.resize = none) (hm : s.moves e = true)
    (hs : e.scrollable = false ∨ e.edge = none) :
    (s.onMove pp ws e).1.lyric = (s.lyric.onDrag ws (s.moveTime pp ws e - s.st.startTime)).1
    ∧ (s.onMove pp ws e).1.st.startTime = s.moveTime pp ws e
    ∧ (s.onMove pp ws e).1.st.touchId = s.st.touchId
    ∧ (s.onMove pp ws e).1.st.lyricLeftHalfTime = s.st.lyricLeftHalfTime
    ∧ (s.onMove pp ws e).1.st.lyricRightHalfTime = s.st.lyricRightHalfTime := by
  unfold DragSession.onMove
  rw [if_neg (by rw [hm]; decide)]
  rcases hs with h | h
  · simp [DragSession.commitMove, DragSession.commitDrag, DragSession.commitResize,
      DragSession.scrollMove, hl, hd, hr, h]
  · cases hc : e.scrollable <;>
      simp [DragSession.commitMove, DragSession.commitDrag, DragSession.commitResize,
        DragSession.scrollMove, hl, hd, hr, h, hc]

/-- A move without edge scroll keeps the grabbed point glued. -/
theorem onMove_glued (s : DragSession) (pp : PluginParams) (ws : WaveSurfer)
    (e : PointerEvent) (touchId : Option Nat) (left right : ℚ)
    (h : s.glued ws touchId left right) (hs : e.scrollable = false ∨ e.edge = none) :
    (s.onMove pp ws e).1.glued ws touchId left right
    ∧ (s.moves e = true →
        (s.onMove pp ws e).1.lyric.start
            = max left (min (getLyricSnapToGridValue (e.position * ws.duration) pp)
                (ws.duration - right)) - left
        ∧ (s.lyric.onDrag ws (s.moveTime pp ws e - s.st.startTime)).1.start
            = s.lyric.start + (s.moveTime pp ws e - s.st.startTime)
        ∧ (s.lyric.onDrag ws (s.moveTime pp ws e - s.st.startTime)).1.end_
            = s.lyric.end_ + (s.moveTime pp ws e - s.st.startTime)) := by
  obtain ⟨g1, g2, g3, g4, g5, g6, g7, g8, g9, g10⟩ := h
  have hmid : s.moves e = true →
      ((s.onMove pp ws e).1.glued ws touchId left right
      ∧ (s.onMove pp ws e).1.lyric.start
            = max left (min (getLyricSnapToGridValue (e.position * ws.duration) pp)
                (ws.duration - right)) - left
        ∧ (s.lyric.onDrag ws (s.moveTime pp ws e - s.st.startTime)).1.start
            = s.lyric.start + (s.moveTime pp ws e - s.st.startTime)
        ∧ (s.lyric.onDrag ws (s.moveTime pp ws e - s.st.startTime)).1.end_
            = s.lyric.end_ + (s.moveTime pp ws e - s.st.startTime)) := by
    intro hm
    obtain ⟨m1, m2, m3, m4, m5⟩ := onMove_drag_state s pp ws e g1 g2 g3 hm hs
    obtain ⟨f1, f2, f3, -, -, -⟩ := onMove_frame s pp ws e
    have ht := moveTime_drag s pp ws e g2 g3
    rw [g5, g6] at ht
    have hT1 : left ≤ s.moveTime pp ws e := by
      rw [ht]
      exact le_max_left _ _
    have hT2 : s.moveTime pp ws e ≤ ws.duration - right := by
      rw [ht]
      exact max_le (by linarith) (min_le_right _ _)
    obtain ⟨x1, x2⟩ := onDrag_exact s.lyric ws (s.moveTime pp ws e - s.st.startTime)
      (by linarith) (by linarith)
    refine ⟨⟨?_, ?_, ?_, ?_, ?_, ?_, ?_, ?_, ?_, ?_⟩, ?_, x1, x2⟩
    · rw [f3]; exact g1
    · rw [f1]; exact g2
    · rw [f2]; exact g3
    · rw [m3]; exact g4
    · rw [m4]; exact g5
    · rw [m5]; exact g6
    · rw [m1, m2, x1]; linarith
    · rw [m1, m2, x2]; linarith
    · rw [m1, x1]; linarith
    · rw [m1, x2]; linarith
    · rw [m1, x1, ← ht]; linarith
  refine ⟨?_, fun hm => (hmid hm).2⟩
  by_cases hm : s.moves e = true
  · exact (hmid hm).1
  · have e0 : s.onMove pp ws e = (s, []) := by
      unfold DragSession.onMove
      rw [if_pos (by simpa using hm)]
    rw [e0]
    exact ⟨g1, g2, g3, g4, g5, g6, g7, g8, g9, g10⟩

/-- Moves without edge scroll keep the grabbed point glued. -/
theorem moves_glued (pp : PluginParams) (ws : WaveSurfer) (ms : List PointerEvent)
    (s : DragSession) (touchId : Option Nat) (left right : ℚ)
    (h : s.glued ws touchId left right)
    (hms : ∀ m ∈ ms, m.scrollable = false ∨ m.edge = none) :
    (DragSession.run pp ws s (ms.map DragInput.move)).1.glued ws touchId left right := by
  induction ms generalizing s with
  | nil => exact h
  | cons m rest ih =>
    rw [List.map_cons, dragRun_cons]
    exact ih (s.step pp ws (DragInput.move m)).1
      (onMove_glued s pp ws m touchId left right h (hms m (List.mem_cons_self _ _))).1
      (fun x hx => hms x (List.mem_cons_of_mem _ hx))

/-- C29: in a drag session on a draggable lyric with `0 <= start` and `end <= duration`
(in particular with `0 <= start <= end <= duration`), after a single-touch pointer-down on
the lyric body and any pointer moves without edge scroll, the anchor time `startTime`
satisfies `startTime - start = lyricLeftHalfTime` and `end - startTime = lyricRightHalfTime`,
the half-spans being those recorded at pointer-down; and one more single-pointer move at the
quantized pointer time `T` leaves `start = max(left, min(T, duration - right)) - left`, with
`onDrag` applying the delta of the move handler as it is. -/
theorem drag_keeps_grab_glued (s0 : DragSession) (pp : PluginParams) (ws : WaveSurfer)
    (down : PointerEvent) (ms : List PointerEvent) (e : PointerEvent) (s : DragSession)
    (hs : s = (DragSession.run pp ws (s0.onDown pp ws down).1 (ms.map DragInput.move)).1)
    (hdrag : s0.lyric.drag = true) (h0 : 0 ≤ s0.lyric.start) (h2 : s0.lyric.end_ ≤ ws.duration)
    (hdown : down.multiTouch = false) (hbody : down.target = none)
    (hms : ∀ m ∈ ms, m.scrollable = false ∨ m.edge = none)
    (he : e.scrollable = false ∨ e.edge = none)
    (hsingle : e.multiTouch = false) (hsame : e.otherTouch down.targetTouch = false) :
    s.st.startTime - s.lyric.start = s.st.lyricLeftHalfTime
    ∧ s.lyric.end_ - s.st.startTime = s.st.lyricRightHalfTime
    ∧ s.st.lyricLeftHalfTime
        = getLyricSnapToGridValue (down.position * ws.duration) pp - s0.lyric.start
    ∧ s.st.lyricRightHalfTime
        = s0.lyric.end_ - getLyricSnapToGridValue (down.position * ws.duration) pp
    ∧ (s.onMove pp ws e).1.lyric.start
        = max s.st.lyricLeftHalfTime
            (min (getLyricSnapToGridValue (e.position * ws.duration) pp)
              (ws.duration - s.st.lyricRightHalfTime)) - s.st.lyricLeftHalfTime
    ∧ (s.lyric.onDrag ws (s.moveTime pp ws e - s.st.startTime)).1.start
        = s.lyric.start + (s.moveTime pp ws e - s.st.startTime)
    ∧ (s.lyric.onDrag ws (s.moveTime pp ws e - s.st.startTime)).1.end_
        = s.lyric.end_ + (s.moveTime pp ws e - s.st.startTime) := by
  have hd : (s0.onDown pp ws down).1.glued ws down.targetTouch
      (getLyricSnapToGridValue (down.position * ws.duration) pp - s0.lyric.start)
      (s0.lyric.end_ - getLyricSnapToGridValue (down.position * ws.duration) pp) := by
    unfold DragSession.onDown
    simp only [hdown, hbody]
    exact ⟨hdrag, rfl, rfl, rfl, rfl, rfl, rfl, rfl, h0, h2⟩
  have hg := moves_glued pp ws ms _ _ _ _ hd hms
  rw [← hs] at hg
  have hm : s.moves e = true := by
    unfold DragSession.moves
    rw [hg.2.2.2.1, hsingle, hsame, hg.2.1]
    rfl
  obtain ⟨k1, k2, k3⟩ := (onMove_glued s pp ws e _ _ _ hg he).2 hm
  obtain ⟨-, -, -, -, g5, g6, g7, g8, -, -⟩ := hg
  rw [← g5, ← g6] at k1
  exact ⟨g7.trans g5.symm, g8.trans g6.symm, g5, g6, k1, k2, k3⟩

/-- C29 on the draggable lyric `[2, 8]` of a timeline of 10: grabbed at 5 and moved to 6
and to 9.5, the half-spans are 3 and 3 and a further move to 1 leaves `start = 0`. -/
theorem drag_keeps_grab_glued_witness :
    ((DragSession.run {} ws10 (sessionDragOnly.onDown {} ws10 (mouseAt (5 / 10))).1
        ([mouseAt (6 / 10), mouseAt (95 / 100)].map DragInput.move)).1.st.lyricLeftHalfTime = 3
    ∧ ((DragSession.run {} ws10 (sessionDragOnly.onDown {} ws10 (mouseAt (5 / 10))).1
        ([mouseAt (6 / 10), mouseAt (95 / 100)].map DragInput.move)).1.onMove {} ws10
          (mouseAt (1 / 10))).1.lyric.start = 0)
    ∧ (DragSession.run {} ws10 (sessionDragOnly.onDown {} ws10 (mouseAt (5 / 10))).1
        ([mouseAt (6 / 10), mouseAt (95 / 100)].map DragInput.move)).1.st.startTime
      - (DragSession.run {} ws10 (sessionDragOnly.onDown {} ws10 (mouseAt (5 / 10))).1
        ([mouseAt (6 / 10), mouseAt (95 / 100)].map DragInput.move)).1.lyric.start
      = (DragSession.run {} ws10 (sessionDragOnly.onDown {} ws10 (mouseAt (5 / 10))).1
        ([mouseAt (6 / 10), mouseAt (95 / 100)].map DragInput.move)).1.st.lyricLeftHalfTime :=
  ⟨by decide!,
    (drag_keeps_grab_glued sessionDragOnly {} ws10 (mouseAt (5 / 10))
      [mouseAt (6 / 10), mouseAt (95 / 100)] (mouseAt (1 / 10)) _ rfl rfl (by decide!)
      (by decide!) rfl rfl
      (fun m hm => by
        simp only [List.mem_cons, List.mem_singleton, List.not_mem_nil, or_false] at hm
        rcases hm with hm | hm <;> rw [hm] <;> exact Or.inl rfl)
      (Or.inl rfl) rfl rfl).1⟩

end Lyrics
